import Mathlib

/-!
# Apple II video hardware (vidhrdw/apple2.c): shallow embedding

Machine integers: `UINT32` values are natural numbers reduced modulo `2 ^ 32`
where the source arithmetic can wrap; C `int` values are integers.  File-scope
statics become fields of `State`; every call into the tile-map library or the
OSD layer is appended to `State.calls`, every pixel store of the hi-res
renderer to `State.stores`, both in program order.
-/

set_option linter.unusedVariables false

namespace Apple2

/-! ## Colours (lines 23-28) -/

def BLACK : Nat := 0
def PURPLE : Nat := 3
def BLUE : Nat := 6
def ORANGE : Nat := 9
def GREEN : Nat := 12
def WHITE : Nat := 15

/-! ## Data model -/

/-- Modelled from the spec: the VideoControlState flags TEXT, MIXED, HIRES,
COL80, PAGE2 and RAMRD.  The type `APPLE2_STRUCT` of the globals `a2` and
`old_a2` is declared in includes/apple2.h, which is not among the sources; each
flag is taken to be a C `int`. -/
structure APPLE2_STRUCT where
  TEXT : Int
  MIXED : Int
  HIRES : Int
  COL80 : Int
  PAGE2 : Int
  RAMRD : Int
deriving DecidableEq, Repr

/-- Modelled from the spec: the caller-supplied clip rectangle, with inclusive
bounds; `struct rectangle` is declared by the core headers, which are not among
the sources. -/
structure rectangle where
  min_x : Int
  max_x : Int
  min_y : Int
  max_y : Int
deriving DecidableEq, Repr

/-- The three static tile-map pointers (lines 14-16). -/
inductive TilemapRef where
  | text_tilemap
  | dbltext_tilemap
  | lores_tilemap
deriving DecidableEq, Repr

/-- The three static video-base variables (lines 17-19), as the targets of the
`int *tm_videobase` argument of `apple2_draw_tilemap`. -/
inductive VideobaseRef where
  | text_videobase
  | dbltext_videobase
  | lores_videobase
deriving DecidableEq, Repr

/-- Values of the three video-base statics at one instant. -/
structure Videobases where
  text_videobase : Int
  dbltext_videobase : Int
  lores_videobase : Int
deriving DecidableEq, Repr

/-- Source: `struct drawtask_params` (lines 137-143).  `vram` is the offset of
the `vram` pointer from `mess_ram`; the `bitmap` field is the one frame bitmap
and is left implicit. -/
structure drawtask_params where
  vram : Int
  beginrow : Int
  rowcount : Int
deriving DecidableEq, Repr

/-- A call made by this file into the tile-map library or the OSD layer.
`tilemap_draw` also records the video-base statics at the moment of the call,
which are what the tile-info callbacks read while the library draws. -/
inductive Call where
  | tilemap_mark_all_tiles_dirty (tm : TilemapRef)
  | tilemap_mark_tile_dirty (tm : TilemapRef) (memory_offset : Int)
  | tilemap_draw (cliprect : rectangle) (tm : TilemapRef) (bases : Videobases)
  | osd_parallelize (param : drawtask_params) (max_tasks : Int)
deriving DecidableEq, Repr

/-- One `*(p++) = v` of the hi-res renderer: scanline `y`, position `x` within
`bitmap->line[y]`, value `v`. -/
structure Store where
  y : Int
  x : Nat
  v : Nat
deriving DecidableEq, Repr

/-- The file-scope statics of vidhrdw/apple2.c (lines 13-21) together with the
record of calls and pixel stores.  A tile-map pointer is `true` when non-null;
a buffer is `none` when its pointer is null. -/
structure State where
  old_a2 : APPLE2_STRUCT
  text_tilemap : Bool
  dbltext_tilemap : Bool
  lores_tilemap : Bool
  text_videobase : Int
  dbltext_videobase : Int
  lores_videobase : Int
  artifact_map : Option (List Nat)
  lores_tiledata : Option (List Nat)
  calls : List Call
  stores : List Store
deriving DecidableEq, Repr

/-- Static storage before any code has run: C zero-initialisation. -/
def State.initial : State :=
  { old_a2 := ⟨0, 0, 0, 0, 0, 0⟩
    text_tilemap := false
    dbltext_tilemap := false
    lores_tilemap := false
    text_videobase := 0
    dbltext_videobase := 0
    lores_videobase := 0
    artifact_map := none
    lores_tiledata := none
    calls := []
    stores := [] }

/-- Append one library call to the record. -/
def State.call (s : State) (c : Call) : State :=
  { s with calls := s.calls ++ [c] }

/-- Append several library calls to the record. -/
def State.calls_append (s : State) (cs : List Call) : State :=
  { s with calls := s.calls ++ cs }

/-- Append pixel stores to the record. -/
def State.stores_append (s : State) (ps : List Store) : State :=
  { s with stores := s.stores ++ ps }

/-- The current values of the three video-base statics. -/
def State.bases (s : State) : Videobases :=
  ⟨s.text_videobase, s.dbltext_videobase, s.lores_videobase⟩

/-- Read through an `int *tm_videobase`. -/
def State.get_videobase (s : State) : VideobaseRef → Int
  | .text_videobase => s.text_videobase
  | .dbltext_videobase => s.dbltext_videobase
  | .lores_videobase => s.lores_videobase

/-- Write through an `int *tm_videobase`. -/
def State.set_videobase (s : State) (p : VideobaseRef) (v : Int) : State :=
  match p with
  | .text_videobase => { s with text_videobase := v }
  | .dbltext_videobase => { s with dbltext_videobase := v }
  | .lores_videobase => { s with lores_videobase := v }

/-- The video-base static read by the tile-info callback that `VIDEO_START`
registers for each tile map: `apple2_text_gettileinfo` reads `text_videobase`
(line 69), `apple2_dbltext_gettileinfo` reads `dbltext_videobase` (line 78),
`apple2_lores_gettileinfo` reads `lores_videobase` (line 117). -/
def Videobases.of_tilemap (b : Videobases) : TilemapRef → Int
  | .text_tilemap => b.text_videobase
  | .dbltext_tilemap => b.dbltext_videobase
  | .lores_tilemap => b.lores_videobase

/-- The environment the renderer reads but does not own: main memory
`mess_ram` (bytes, indexed from the start of RAM) and the number of worker
bands the host runs for one `osd_parallelize` call. -/
structure Host where
  mess_ram : Int → Nat
  task_count : Nat

/-- Conversion of a C `int` to `UINT32`. -/
def to_u32 (x : Int) : Nat := (x % 2 ^ 32).toNat

/-- Conversion of a `UINT32` to a C `int` (two's complement). -/
def to_int (n : Nat) : Int :=
  if n % 2 ^ 32 < 2 ^ 31 then ((n % 2 ^ 32 : Nat) : Int) else ((n % 2 ^ 32 : Nat) : Int) - 2 ^ 32

/-- The result of an arithmetic operation on C `int`s, as the 32-bit two's
complement machine computes it: the exact value reduced modulo 2^32 into
`-2^31 .. 2^31 - 1`. -/
def int32 (x : Int) : Int := to_int (to_u32 x)

/-! ## helpers (lines 36-59) -/

/-- Source: `apple2_draw_tilemap` (lines 36-59); `a2` is the global control
state. -/
def apple2_draw_tilemap (a2 : APPLE2_STRUCT) (cliprect : rectangle) (beginrow endrow : Int)
    (tm : TilemapRef) (raw_videobase : Int) (tm_videobase : VideobaseRef) (s : State) : State :=
  let new_cliprect := cliprect
  let new_cliprect :=
    if new_cliprect.min_y < beginrow then { new_cliprect with min_y := beginrow } else new_cliprect
  let new_cliprect :=
    if new_cliprect.max_y > endrow then { new_cliprect with max_y := endrow } else new_cliprect
  if new_cliprect.min_y > new_cliprect.max_y then s
  else
    let raw_videobase := if a2.RAMRD ≠ 0 then raw_videobase + 0x10000 else raw_videobase
    let s :=
      if raw_videobase ≠ s.get_videobase tm_videobase then
        (s.set_videobase tm_videobase raw_videobase).call (Call.tilemap_mark_all_tiles_dirty tm)
      else s
    s.call (Call.tilemap_draw new_cliprect tm s.bases)

/-! ## text (lines 65-100) -/

/-- What a tile-info callback leaves in the global `tile_info`: either the
arguments of the `SET_TILE_INFO` macro (text), or the fields the lo-res callback
assigns itself. -/
inductive tile_info where
  | set_tile_info (gfx : Nat) (code : Nat) (color : Nat) (flags : Nat)
  | fields (tile_number : Nat) (pen_data : Option (List Nat)) (pal_data : List Nat)
      (pen_usage : Nat) (flags : Nat)
deriving DecidableEq, Repr

/-- Source: `apple2_text_gettileinfo` (lines 65-72). -/
def apple2_text_gettileinfo (h : Host) (s : State) (memory_offset : Int) : tile_info :=
  tile_info.set_tile_info 0 (h.mess_ram (s.text_videobase + memory_offset)) WHITE 0

/-- Source: `apple2_dbltext_gettileinfo` (lines 74-81). -/
def apple2_dbltext_gettileinfo (h : Host) (s : State) (memory_offset : Int) : tile_info :=
  tile_info.set_tile_info 1 (h.mess_ram (s.dbltext_videobase + memory_offset)) WHITE 0

/-- Source: `apple2_text_getmemoryoffset` (lines 83-87), `UINT32` arithmetic.
`num_cols` and `num_rows` are unused by the source. -/
def apple2_text_getmemoryoffset (col row num_cols num_rows : Nat) : Nat :=
  (((row &&& 0x07) <<< 7) % 2 ^ 32) ||| (((row &&& 0x18) * 5 + col) % 2 ^ 32)

/-- Source: `apple2_dbltext_getmemoryoffset` (lines 89-92). -/
def apple2_dbltext_getmemoryoffset (col row num_cols num_rows : Nat) : Nat :=
  (apple2_text_getmemoryoffset (col / 2) row (num_cols / 2) num_rows
    + (if col % 2 ≠ 0 then 0x800 else 0x400)) % 2 ^ 32

/-- Source: `apple2_text_draw` (lines 94-100). -/
def apple2_text_draw (a2 : APPLE2_STRUCT) (cliprect : rectangle) (page beginrow endrow : Int)
    (s : State) : State :=
  if a2.COL80 ≠ 0 then
    apple2_draw_tilemap a2 cliprect beginrow endrow TilemapRef.dbltext_tilemap 0
      VideobaseRef.dbltext_videobase s
  else
    apple2_draw_tilemap a2 cliprect beginrow endrow TilemapRef.text_tilemap
      (if page ≠ 0 then 0x800 else 0x400) VideobaseRef.text_videobase s

/-! ## low resolution graphics (lines 106-125) -/

/-- Source: `apple2_lores_gettileinfo` (lines 106-120). -/
def apple2_lores_gettileinfo (h : Host) (s : State) (memory_offset : Int) : tile_info :=
  let ch := h.mess_ram (s.lores_videobase + memory_offset)
  tile_info.fields 0 s.lores_tiledata [(ch >>> 0) &&& 0x0f, (ch >>> 4) &&& 0x0f] 0 0

/-- Source: `apple2_lores_draw` (lines 122-125). -/
def apple2_lores_draw (a2 : APPLE2_STRUCT) (cliprect : rectangle) (page beginrow endrow : Int)
    (s : State) : State :=
  apple2_draw_tilemap a2 cliprect beginrow endrow TilemapRef.lores_tilemap
    (if page ≠ 0 then 0x800 else 0x400) VideobaseRef.lores_videobase s

/-! ## high resolution graphics (lines 131-218) -/

/-- Source: `apple2_hires_getmemoryoffset` (lines 131-135). -/
def apple2_hires_getmemoryoffset (col row num_cols num_rows : Nat) : Nat :=
  apple2_text_getmemoryoffset col (row / 8) num_cols num_rows ||| (((row &&& 7) <<< 10) % 2 ^ 32)

/-- Read of a `UINT16` table through a possibly null pointer; the model gives 0
where C leaves the read undefined. -/
def read_table (p : Option (List Nat)) (i : Nat) : Nat :=
  (p.getD []).getD i 0

/-- The 42-byte working row of `apple2_hires_draw_task` for scanline `row`
(lines 167-176): a zero byte, the 40 bytes fetched through
`apple2_hires_getmemoryoffset`, a zero byte. -/
def hires_vram_row (h : Host) (vram : Int) (row : Int) : List Nat :=
  0 :: ((List.range 40).map fun col =>
      h.mess_ram (vram + (apple2_hires_getmemoryoffset col (to_u32 row) 0 0 : Nat)) % 256) ++ [0]

/-- The values stored for one scanline, in store order (lines 180-194). -/
def hires_row_values (artifact_map : Option (List Nat)) (vram_row : List Nat) : List Nat :=
  (List.range 40).flatMap fun col =>
    let w := ((vram_row.getD (col + 0) 0 &&& 0x7f) <<< 0)
      ||| ((vram_row.getD (col + 1) 0 &&& 0x7f) <<< 7)
      ||| ((vram_row.getD (col + 2) 0 &&& 0x7f) <<< 14)
    let artifact_map_ptr := ((vram_row.getD (col + 1) 0 &&& 0x80) >>> 7) * 16
    (List.range 7).flatMap fun b =>
      let v := read_table artifact_map
        (artifact_map_ptr + (((w >>> (b + 7 - 1)) &&& 0x07) ||| (((b ^^^ col) &&& 0x01) <<< 3)))
      [v, v]

/-- The stores of one scanline: `p` starts at `bitmap->line[row]` and advances
by one with every store (lines 178, 191-192). -/
def hires_row_stores (h : Host) (artifact_map : Option (List Nat)) (vram : Int) (row : Int) :
    List Store :=
  (hires_row_values artifact_map (hires_vram_row h vram row)).enum.map fun xv =>
    { y := row, x := xv.1, v := xv.2 }

/-- The stores of one worker band (lines 164-195): the scanlines
`beginrow .. endrow` of the band, in order.  `beginrow` and `endrow` are computed
in `int` (lines 164-165), every operation reduced to 32 bits.  For a zero
`task_count` the C division is undefined and `tdiv` gives 0; the fan-out never
passes a zero count. -/
def hires_task_stores (h : Host) (artifact_map : Option (List Nat)) (param : drawtask_params)
    (task_num task_count : Int) : List Store :=
  let beginrow :=
    int32 (param.beginrow + int32 ((int32 (param.rowcount * task_num)).tdiv task_count))
  let endrow :=
    int32 (int32 (param.beginrow
      + int32 ((int32 (param.rowcount * int32 (task_num + 1))).tdiv task_count)) - 1)
  let rows := (List.range (endrow + 1 - beginrow).toNat).map fun (k : Nat) => beginrow + (k : Int)
  rows.flatMap (hires_row_stores h artifact_map param.vram)

/-- Source: `apple2_hires_draw_task` (lines 145-196). -/
def apple2_hires_draw_task (h : Host) (param : drawtask_params) (task_num task_count : Int)
    (s : State) : State :=
  s.stores_append (hires_task_stores h s.artifact_map param task_num task_count)

/-- Modelled from the spec: `osd_parallelize` belongs to the host OSD layer,
which is not among the sources.  Per the spec the hi-res renderer "fans out
scanline-band work across a worker pool for one frame's duration and joins
before the frame is considered complete", each band being one call
`task(param, task_num, task_count)`; the bands write disjoint scanlines, and
the model runs them in the order `task_num = 0, 1, ..`, with `task_count` the
host's choice. -/
def osd_parallelize (h : Host)
    (task : Host → drawtask_params → Int → Int → State → State)
    (param : drawtask_params) (max_tasks : Int) (s : State) : State :=
  (List.range h.task_count).foldl
    (fun (st : State) (t : Nat) => task h param (t : Int) (h.task_count : Int) st)
    (s.call (Call.osd_parallelize param max_tasks))

/-- Source: `apple2_hires_draw` (lines 198-218). -/
def apple2_hires_draw (h : Host) (a2 : APPLE2_STRUCT) (cliprect : rectangle)
    (page beginrow endrow : Int) (s : State) : State :=
  let beginrow := if beginrow < cliprect.min_y then cliprect.min_y else beginrow
  let endrow := if endrow > cliprect.max_y then cliprect.max_y else endrow
  if endrow < beginrow then s
  else
    let vram : Int := if page ≠ 0 then 0x4000 else 0x2000
    let vram := if a2.RAMRD ≠ 0 then vram + 0x10000 else vram
    let dtparams : drawtask_params :=
      { vram := vram, beginrow := beginrow, rowcount := (endrow + 1) - beginrow }
    osd_parallelize h apple2_hires_draw_task dtparams dtparams.rowcount s

/-! ## video core (lines 224-351) -/

/-- Source: `artifact_color_table` (lines 230-234). -/
def artifact_color_table : List Nat :=
  [BLACK, PURPLE, GREEN, WHITE, BLACK, BLUE, ORANGE, WHITE]

/-- Which of the five start-up allocations return a non-null pointer. -/
structure Allocs where
  text_tilemap : Bool
  dbltext_tilemap : Bool
  lores_tilemap : Bool
  artifact_map : Bool
  lores_tiledata : Bool
deriving DecidableEq, Repr

/-- The body of the artifact-map loop for one `(i, j)` (lines 275-290). -/
def artifact_step (m : List Nat) (i j : Nat) : List Nat :=
  let c : Nat :=
    if i &&& 0x02 ≠ 0 then
      (if i &&& 0x05 ≠ 0 then 3 else (if j ≠ 0 then 2 else 1))
    else
      (if i &&& 0x05 = 0x05 then (if j ≠ 0 then 1 else 2) else 0)
  let m := m.set (0 + j * 8 + i) (artifact_color_table.getD c 0)
  m.set (16 + j * 8 + i) (artifact_color_table.getD (c + 4) 0)

/-- The artifact-map loops (lines 271-292), run on the freshly allocated
32-entry table. -/
def build_artifact_map (m : List Nat) : List Nat :=
  (List.range 8).foldl (fun m i => (List.range 2).foldl (fun m j => artifact_step m i j) m) m

/-- Source: `VIDEO_START( apple2 )` (lines 224-297).  The result is `none` when
the code stores through a null pointer; otherwise the return value and the new
statics.  Freshly allocated buffers are taken to hold zeros. -/
def video_start_apple2 (al : Allocs) (s : State) : Option (Int × State) :=
  let s := { s with text_tilemap := al.text_tilemap }
  let s := { s with dbltext_tilemap := al.dbltext_tilemap }
  let s := { s with lores_tilemap := al.lores_tilemap }
  let s := { s with artifact_map := if al.artifact_map then some (List.replicate 32 0) else none }
  let s := { s with lores_tiledata := if al.lores_tiledata then some (List.replicate 112 0) else none }
  if !s.text_tilemap || !s.lores_tilemap || s.artifact_map.isNone then some (1, s)
  else
    match s.lores_tiledata, s.artifact_map with
    | some t, some m =>
      let t := List.replicate (4 * 14) 0 ++ t.drop (4 * 14)
      let t := t.take (4 * 14) ++ List.replicate (4 * 14) 1 ++ t.drop (8 * 14)
      let s := { s with lores_tiledata := some t }
      let s := { s with artifact_map := some (build_artifact_map m) }
      let s := { s with old_a2 := ⟨0, 0, 0, 0, 0, 0⟩ }
      let s := { s with lores_videobase := 0 }
      let s := { s with text_videobase := s.lores_videobase }
      some (0, s)
    | _, _ => none

/-- Source: `VIDEO_UPDATE( apple2 )`, the flag-change block (lines 305-315). -/
def video_update_invalidate (a2 : APPLE2_STRUCT) (s : State) : State :=
  if a2.TEXT ≠ s.old_a2.TEXT ∨ a2.MIXED ≠ s.old_a2.MIXED ∨ a2.HIRES ≠ s.old_a2.HIRES
      ∨ a2.COL80 ≠ s.old_a2.COL80 ∨ a2.PAGE2 ≠ s.old_a2.PAGE2 then
    let s := { s with old_a2 := { s.old_a2 with TEXT := a2.TEXT } }
    let s := { s with old_a2 := { s.old_a2 with MIXED := a2.MIXED } }
    let s := { s with old_a2 := { s.old_a2 with HIRES := a2.HIRES } }
    let s := { s with old_a2 := { s.old_a2 with COL80 := a2.COL80 } }
    let s := { s with old_a2 := { s.old_a2 with PAGE2 := a2.PAGE2 } }
    let s := s.call (Call.tilemap_mark_all_tiles_dirty TilemapRef.text_tilemap)
    let s := s.call (Call.tilemap_mark_all_tiles_dirty TilemapRef.dbltext_tilemap)
    s.call (Call.tilemap_mark_all_tiles_dirty TilemapRef.lores_tilemap)
  else s

/-- Source: `VIDEO_UPDATE( apple2 )`, the mode dispatch (lines 317-338). -/
def video_update_draw (h : Host) (a2 : APPLE2_STRUCT) (cliprect : rectangle) (page : Int)
    (s : State) : State :=
  if a2.TEXT ≠ 0 then
    apple2_text_draw a2 cliprect page 0 191 s
  else if a2.HIRES ≠ 0 ∧ a2.MIXED ≠ 0 then
    let s := apple2_hires_draw h a2 cliprect page 0 159 s
    apple2_text_draw a2 cliprect page 160 191 s
  else if a2.HIRES ≠ 0 then
    apple2_hires_draw h a2 cliprect page 0 191 s
  else if a2.MIXED ≠ 0 then
    let s := apple2_lores_draw a2 cliprect page 0 159 s
    apple2_text_draw a2 cliprect page 160 191 s
  else
    apple2_lores_draw a2 cliprect page 0 191 s

/-- Source: `VIDEO_UPDATE( apple2 )` (lines 299-339); `a2` is the global control
state, `cliprect` the macro's clip-rectangle argument.  The body is the page
computation (line 303), the flag-change block and the mode dispatch. -/
def video_update_apple2 (h : Host) (a2 : APPLE2_STRUCT) (cliprect : rectangle) (s : State) :
    State :=
  let page := a2.PAGE2 >>> 7
  let s := video_update_invalidate a2 s
  video_update_draw h a2 cliprect page s

/-- Source: `apple2_video_touch` (lines 341-351).  `offs_t` is `UINT32`: the
comparisons and subtractions are unsigned, and the difference is passed as the
`int memory_offset` of `tilemap_mark_tile_dirty`.  The two `profiler_mark`
calls only feed the profiler and are left out. -/
def apple2_video_touch (offset : Nat) (s : State) : State :=
  let offset := offset % 2 ^ 32
  let s :=
    if offset ≥ to_u32 s.text_videobase then
      s.call (Call.tilemap_mark_tile_dirty TilemapRef.text_tilemap
        (to_int ((offset + 2 ^ 32 - to_u32 s.text_videobase) % 2 ^ 32)))
    else s
  let s :=
    if offset ≥ to_u32 s.dbltext_videobase then
      s.call (Call.tilemap_mark_tile_dirty TilemapRef.dbltext_tilemap
        (to_int ((offset + 2 ^ 32 - to_u32 s.dbltext_videobase) % 2 ^ 32)))
    else s
  let s :=
    if offset ≥ to_u32 s.lores_videobase then
      s.call (Call.tilemap_mark_tile_dirty TilemapRef.lores_tilemap
        (to_int ((offset + 2 ^ 32 - to_u32 s.text_videobase) % 2 ^ 32)))
    else s
  s

/-! ## Derived notions used by the statements -/

/-- The calls recorded between state `s` and a later state `s'`. -/
def calls_since (s s' : State) : List Call :=
  s'.calls.drop s.calls.length

/-- The pixel stores recorded between state `s` and a later state `s'`. -/
def stores_since (s s' : State) : List Store :=
  s'.stores.drop s.stores.length

/-- The generator a band is delegated to. -/
inductive BandKind where
  | text
  | dbltext
  | lores
  | hires
deriving DecidableEq, Repr

/-- A band of the frame: its generator and its first and last scanline. -/
structure Band where
  kind : BandKind
  first : Int
  last : Int
deriving DecidableEq, Repr

/-- The mode table in the words of the spec (section 4.1), not taken from the
code: TEXT set gives a whole frame of text; else HIRES and MIXED give hi-res
rows 0-159 and text rows 160-191; else HIRES gives hi-res rows 0-191; else MIXED
gives lo-res rows 0-159 and text rows 160-191; else lo-res rows 0-191.  Text is
double-width when COL80 is set. -/
def documented_bands (a2 : APPLE2_STRUCT) : List Band :=
  let txt := if a2.COL80 = 0 then BandKind.text else BandKind.dbltext
  if a2.TEXT ≠ 0 then [⟨txt, 0, 191⟩]
  else if a2.HIRES ≠ 0 ∧ a2.MIXED ≠ 0 then [⟨BandKind.hires, 0, 159⟩, ⟨txt, 160, 191⟩]
  else if a2.HIRES ≠ 0 then [⟨BandKind.hires, 0, 191⟩]
  else if a2.MIXED ≠ 0 then [⟨BandKind.lores, 0, 159⟩, ⟨txt, 160, 191⟩]
  else [⟨BandKind.lores, 0, 191⟩]

/-- The generator that owns a tile map. -/
def TilemapRef.kind : TilemapRef → BandKind
  | .text_tilemap => BandKind.text
  | .dbltext_tilemap => BandKind.dbltext
  | .lores_tilemap => BandKind.lores

/-- The band a recorded call draws, if it is a drawing call: a tile-map draw
covers the scanlines of the rectangle it is handed, a hi-res fan-out covers
`rowcount` scanlines from `beginrow`. -/
def Call.band : Call → Option Band
  | .tilemap_draw cliprect tm _ => some ⟨tm.kind, cliprect.min_y, cliprect.max_y⟩
  | .osd_parallelize param _ => some ⟨BandKind.hires, param.beginrow, param.beginrow + param.rowcount - 1⟩
  | _ => none

/-- A band cut down to the scanlines of the clip rectangle; `none` when nothing
is left. -/
def Band.clip (cliprect : rectangle) (b : Band) : Option Band :=
  if min b.last cliprect.max_y < max b.first cliprect.min_y then none
  else some ⟨b.kind, max b.first cliprect.min_y, min b.last cliprect.max_y⟩

/-- The effective video base: the raw base, plus 0x10000 when RAMRD is set. -/
def effective_base (a2 : APPLE2_STRUCT) (raw_videobase : Int) : Int :=
  if a2.RAMRD ≠ 0 then raw_videobase + 0x10000 else raw_videobase

/-- The stores of one `osd_parallelize` fan-out of the hi-res task: those of the
worker bands `0 .. task_count - 1`, in that order. -/
def hires_stores (h : Host) (artifact_map : Option (List Nat)) (param : drawtask_params) :
    List Store :=
  (List.range h.task_count).flatMap fun (t : Nat) =>
    hires_task_stores h artifact_map param (t : Int) (h.task_count : Int)

/-- State `s'` was reached from `s` by making further calls only: its record of
calls continues that of `s`. -/
def Extends (s s' : State) : Prop :=
  ∃ cs, s'.calls = s.calls ++ cs

/-- The bands drawn between state `s` and a later state `s'`, in order. -/
def bands_since (s s' : State) : List Band :=
  (calls_since s s').filterMap Call.band

/-- The state in which frames are rendered first: static storage after a
`VIDEO_START( apple2 )` in which every allocation succeeded. -/
def started_state : State :=
  match video_start_apple2 ⟨true, true, true, true, true⟩ State.initial with
  | some (_, s) => s
  | none => State.initial

/-- The generator and the video base of a recorded drawing call: for a tile-map
draw the video-base static its tile-info callback reads, for a hi-res fan-out
the offset of `vram` from `mess_ram`. -/
def Call.kind_base : Call → Option (BandKind × Int)
  | .tilemap_draw _ tm bases => some (tm.kind, bases.of_tilemap tm)
  | .osd_parallelize param _ => some (BandKind.hires, param.vram)
  | _ => none

/-- The video base of a band in the words of the spec (section 4.1): 0x400 or
0x800 by page for every text and lo-res band, 0x2000 or 0x4000 for hi-res, plus
0x10000 under RAMRD. -/
def documented_base (a2 : APPLE2_STRUCT) (k : BandKind) : Int :=
  let page := a2.PAGE2 >>> 7
  match k with
  | .text => effective_base a2 (if page ≠ 0 then 0x800 else 0x400)
  | .dbltext => effective_base a2 (if page ≠ 0 then 0x800 else 0x400)
  | .lores => effective_base a2 (if page ≠ 0 then 0x800 else 0x400)
  | .hires => effective_base a2 (if page ≠ 0 then 0x4000 else 0x2000)

/-- The video base of a band by generator: as documented, except that a
double-width text band has raw base 0 whatever the page (its memory-offset
function adds 0x400 or 0x800 by column parity instead). -/
def band_base (a2 : APPLE2_STRUCT) (k : BandKind) : Int :=
  let page := a2.PAGE2 >>> 7
  match k with
  | .text => effective_base a2 (if page ≠ 0 then 0x800 else 0x400)
  | .dbltext => effective_base a2 0
  | .lores => effective_base a2 (if page ≠ 0 then 0x800 else 0x400)
  | .hires => effective_base a2 (if page ≠ 0 then 0x4000 else 0x2000)

/-- Read of a snapshot of the video-base statics through an
`int *tm_videobase`. -/
def Videobases.get (b : Videobases) : VideobaseRef → Int
  | .text_videobase => b.text_videobase
  | .dbltext_videobase => b.dbltext_videobase
  | .lores_videobase => b.lores_videobase

/-- A reachable tracker state: `VIDEO_START( apple2 )`, then one frame with all
flags clear (lo-res, page 0) and a clip rectangle covering the frame. -/
def lores_frame_state : State :=
  video_update_apple2 ⟨fun _ => 0, 1⟩ ⟨0, 0, 0, 0, 0, 0⟩ ⟨0, 559, 0, 191⟩ started_state

/-- The artifact-table rule in the words of the spec, not taken from the code.
`i` is the neighbourhood code (bit 1 the pixel itself, bits 0 and 2 its two
neighbours), `j` the sub-position, `cs` the colour set: WHITE if the pixel and
at least one neighbour are set; if only the pixel is set, PURPLE or BLUE (by
colour set) for `j = 0` and GREEN or ORANGE for `j = 1`; if the pixel is clear
and both neighbours are set, GREEN or ORANGE for `j = 0` and PURPLE or BLUE for
`j = 1`; otherwise BLACK. -/
def documented_artifact_entry (cs j i : Nat) : Nat :=
  let pixel := i / 2 % 2 = 1
  let left := i % 2 = 1
  let right := i / 4 % 2 = 1
  if pixel ∧ (left ∨ right) then WHITE
  else if pixel then
    (if j = 0 then (if cs = 0 then PURPLE else BLUE) else (if cs = 0 then GREEN else ORANGE))
  else if left ∧ right then
    (if j = 0 then (if cs = 0 then GREEN else ORANGE) else (if cs = 0 then PURPLE else BLUE))
  else BLACK

/-- Byte `col` (0-39) of scanline `row` of the hi-res page at `vram`, as fetched
on lines 174-175. -/
def scanline_byte (h : Host) (vram : Int) (row : Int) (col : Nat) : Nat :=
  h.mess_ram (vram + (apple2_hires_getmemoryoffset col (to_u32 row) 0 0 : Nat)) % 256

/-- The bit sequence of a scanline in the words of the spec: for `0 <= k < 280`
bit `k mod 7` of byte `k div 7`; zero outside (the padding bytes). -/
def scanline_bit (bytes : Nat → Nat) (k : Int) : Nat :=
  if 0 ≤ k ∧ k < 280 then (bytes (k.toNat / 7) >>> (k.toNat % 7)) &&& 1 else 0

/-- The colour of pixel pair `k` of a scanline in the words of the spec:
artifact-map entry `16*cs + 8*((b XOR col) & 1) + (bits[k-1] + 2*bits[k] +
4*bits[k+1])` with `col = k div 7`, `b = k mod 7` and `cs` bit 7 of byte
`col`. -/
def documented_pixel (artifact_map : Option (List Nat)) (bytes : Nat → Nat) (k : Nat) : Nat :=
  let col := k / 7
  let b := k % 7
  let cs := (bytes col >>> 7) &&& 1
  read_table artifact_map
    (16 * cs + 8 * ((b ^^^ col) &&& 1)
      + (scanline_bit bytes ((k : Int) - 1) + 2 * scanline_bit bytes (k : Int)
          + 4 * scanline_bit bytes ((k : Int) + 1)))

/-- First scanline of worker band `task_num` of `task_count` (line 164), in
`int` arithmetic. -/
def task_beginrow (param : drawtask_params) (task_num task_count : Int) : Int :=
  int32 (param.beginrow + int32 ((int32 (param.rowcount * task_num)).tdiv task_count))

/-- Last scanline of worker band `task_num` of `task_count` (line 165), in `int`
arithmetic. -/
def task_endrow (param : drawtask_params) (task_num task_count : Int) : Int :=
  int32 (int32 (param.beginrow
    + int32 ((int32 (param.rowcount * int32 (task_num + 1))).tdiv task_count)) - 1)

/-- No operation of lines 164-165 overflows `int` for any band of a fan-out of
`param` into `N` bands: the task count, `beginrow - 1`, `beginrow`,
`beginrow + rowcount - 1`, `beginrow + rowcount` and `rowcount * N` all lie in
`-2^31 .. 2^31 - 1`. -/
def bands_fit_int (param : drawtask_params) (N : Nat) : Prop :=
  (N : Int) < 2 ^ 31
    ∧ -2 ^ 31 < param.beginrow ∧ param.beginrow < 2 ^ 31
    ∧ -2 ^ 31 < param.beginrow + param.rowcount ∧ param.beginrow + param.rowcount < 2 ^ 31
    ∧ -2 ^ 31 < param.rowcount * (N : Int) ∧ param.rowcount * (N : Int) < 2 ^ 31

/-- No operation of lines 164-165 overflows `int` for any hi-res fan-out clipped
to `cliprect` on host `h`: the task count, `min_y - 1`, `max_y + 1` and the
height of the clip rectangle times the task count all lie in
`-2^31 .. 2^31 - 1`. -/
def clip_fits_int (h : Host) (cliprect : rectangle) : Prop :=
  (h.task_count : Int) < 2 ^ 31 ∧ -2 ^ 31 < cliprect.min_y ∧ cliprect.max_y + 1 < 2 ^ 31
    ∧ (cliprect.max_y + 1 - cliprect.min_y) * (h.task_count : Int) < 2 ^ 31

/-- The scanlines `beginrow, beginrow + 1, .., endrow` visited by the loop of
line 170, in order. -/
def task_rows (param : drawtask_params) (task_num task_count : Int) : List Int :=
  (List.range (task_endrow param task_num task_count + 1
      - task_beginrow param task_num task_count).toNat).map
    fun (k : Nat) => task_beginrow param task_num task_count + (k : Int)

/-- The frame bitmap: pixel value by scanline and position. -/
def Bitmap : Type := Int → Nat → Nat

/-- One pixel store applied to the bitmap. -/
def Bitmap.store (bm : Bitmap) (st : Store) : Bitmap :=
  fun y x => if y = st.y ∧ x = st.x then st.v else bm y x

/-- A sequence of pixel stores applied to the bitmap in order. -/
def Bitmap.apply (bm : Bitmap) (l : List Store) : Bitmap :=
  l.foldl Bitmap.store bm

/-- Modelled from the spec: how the tile-map library, which is not among the
sources, colours a tile from its tile info.  The lo-res tile is "a fixed bitmap"
of 14 x 8 pens, stored row by row, and pen `p` is shown in colour `pal_data[p]`:
pixel `(x, y)` has colour `pal_data[pen_data[14 * y + x]]`. -/
def tile_pixel_colour (ti : tile_info) (x y : Nat) : Option Nat :=
  match ti with
  | .fields _ (some pen_data) pal_data _ _ => some (pal_data.getD (pen_data.getD (14 * y + x) 0) 0)
  | _ => none

/-- The dirty bits of the three tile maps, by map and by memory offset of the
tile. -/
def Dirty : Type := TilemapRef → Int → Bool

/-- Modelled from the spec: the effect of a recorded call on the per-tile dirty
bits of the tile maps ("a 2D grid of cached tile descriptors plus a per-tile
dirty bit"); the tile-map library is not among the sources.  Marking a tile
sets the dirty bit of the tile with that memory offset, marking all tiles sets
every dirty bit of the map.  What a draw does to the dirty bits is left to the
parameter `redraw`. -/
def tilemap_effect (redraw : rectangle → TilemapRef → Videobases → Dirty → Dirty) :
    Call → Dirty → Dirty
  | .tilemap_mark_all_tiles_dirty tm, d => fun t m => if t = tm then true else d t m
  | .tilemap_mark_tile_dirty tm memory_offset, d =>
    fun t m => if t = tm ∧ m = memory_offset then true else d t m
  | .tilemap_draw cliprect tm bases, d => redraw cliprect tm bases d
  | .osd_parallelize _ _, d => d

/-- The dirty bits after a sequence of recorded calls. -/
def dirty_after (redraw : rectangle → TilemapRef → Videobases → Dirty → Dirty)
    (cs : List Call) (d : Dirty) : Dirty :=
  cs.foldl (fun (d : Dirty) (c : Call) => tilemap_effect redraw c d) d

/-- The calls `apple2_video_touch` makes for a write to `offset` when the
video-base statics are `b`: per map, one tile mark if the guard of lines 344,
346 and 348 holds. -/
def touch_marks (offset : Nat) (b : Videobases) : List Call :=
  (if offset % 2 ^ 32 ≥ to_u32 b.text_videobase then
      [Call.tilemap_mark_tile_dirty TilemapRef.text_tilemap
        (to_int ((offset % 2 ^ 32 + 2 ^ 32 - to_u32 b.text_videobase) % 2 ^ 32))]
    else [])
  ++ (if offset % 2 ^ 32 ≥ to_u32 b.dbltext_videobase then
      [Call.tilemap_mark_tile_dirty TilemapRef.dbltext_tilemap
        (to_int ((offset % 2 ^ 32 + 2 ^ 32 - to_u32 b.dbltext_videobase) % 2 ^ 32))]
    else [])
  ++ (if offset % 2 ^ 32 ≥ to_u32 b.lores_videobase then
      [Call.tilemap_mark_tile_dirty TilemapRef.lores_tilemap
        (to_int ((offset % 2 ^ 32 + 2 ^ 32 - to_u32 b.text_videobase) % 2 ^ 32))]
    else [])

end Apple2

/-!
# Sega Out Run hardware (drivers/segaorun.c): shallow embedding

The file-scope statics become fields of `State`, together with the two pieces
of hardware state the custom I/O handlers drive (display enable, reset line of
the sound CPU) and the record of calls into the rest of the emulator.  `data16_t`
values are natural numbers below `2 ^ 16`.
-/

namespace Segaorun

/-- The functions of this file whose address is stored in `custom_io_r` (lines
1476, 1490, 1525, 1535). -/
inductive read16_handler where
  | outrun_custom_io_r
  | shangon_custom_io_r
deriving DecidableEq, Repr

/-- The functions of this file whose address is stored in `custom_io_w` (lines
1477, 1491, 1526, 1536). -/
inductive write16_handler where
  | outrun_custom_io_w
  | shangon_custom_io_w
deriving DecidableEq, Repr

/-- The line states passed to `cpunum_set_input_line` in this file. -/
inductive line_state where
  | CLEAR_LINE
  | ASSERT_LINE
  | HOLD_LINE
  | PULSE_LINE
deriving DecidableEq, Repr

/-- The input lines named in this file: a numbered interrupt line, the reset
line, the NMI line. -/
inductive input_line where
  | irq (n : Nat)
  | INPUT_LINE_RESET
  | INPUT_LINE_NMI
deriving DecidableEq, Repr

/-- A call made by the code of this file into the rest of the emulator, with
its arguments: first the calls of the I/O handlers, then those of the
initialisation, interrupt and sound-latch code. -/
inductive Call where
  | logerror
  | readinputport (port : Nat)
  | readinputportbytag_safe (tag : String) (defvalue : Nat)
  | watchdog_reset_r (offset : Nat)
  | watchdog_reset_w (offset : Nat) (data : Nat)
  | segaic16_open_bus_r
  | segaic16_set_display_enable (enable : Nat)
  | cpunum_set_input_line (cpunum : Nat) (line : input_line) (state : line_state)
  | segaic16_sprites_draw_0_w (offset : Nat) (data : Nat) (mem_mask : Nat)
  | segaic16_memory_mapper_init (cpunum : Nat)
  | fd1094_driver_init
  | fd1094_machine_init
  | fd1089_decrypt_0034
  | segaic16_memory_mapper_reset
  | segaic16_memory_mapper_config (map : List Nat)
  | segaic16_tilemap_reset (which : Nat)
  | cpunum_set_info_fct_reset_callback (cpunum : Nat)
  | soundlatch_w (offset : Nat) (data : Nat)
deriving DecidableEq, Repr

/-- The statics of drivers/segaorun.c used by the I/O and NVRAM code (lines
32-40), the display-enable value last passed to `segaic16_set_display_enable`,
the state last given to the reset line of CPU 2 (the sound CPU), and the record
of calls.  `workram` is the 0x8000-byte region as bytes, `none` when the pointer
is null. -/
structure State where
  workram : Option (List Nat)
  adc_select : Nat
  custom_io_r : Option read16_handler
  custom_io_w : Option write16_handler
  custom_map : Option (List Nat)
  display_enable : Nat
  sound_reset_line : line_state
  calls : List Call
deriving DecidableEq, Repr

/-- Append one call to the record. -/
def State.call (s : State) (c : Call) : State :=
  { s with calls := s.calls ++ [c] }

/-- What the rest of the emulator returns to the handlers: the input ports by
number and by tag, the open-bus value of `segaic16_open_bus_r(0,0)` and the
value of `watchdog_reset_r(0)`. -/
structure Machine where
  readinputport : Nat → Nat
  readinputportbytag_safe : String → Nat → Nat
  segaic16_open_bus_r : Nat
  watchdog_reset_r : Nat

/-- The common tail of the read handlers: the `logerror` call and the open-bus
read (lines 168-169, 209-210, 274-275). -/
def open_bus_fallback (m : Machine) (s : State) : Nat × State :=
  (m.segaic16_open_bus_r % 2 ^ 16, (s.call Call.logerror).call Call.segaic16_open_bus_r)

/-- Source: `outrun_custom_io_r` (lines 184-211).  The result is `none` when
`ports[adc_select]` reads past the 8-entry table. -/
def outrun_custom_io_r (m : Machine) (offset mem_mask : Nat) (s : State) : Option (Nat × State) :=
  let offset := offset &&& (0x7f / 2)
  if offset = 0x00 / 2 then
    some (open_bus_fallback m s)
  else if offset = 0x10 / 2 ∨ offset = 0x12 / 2 ∨ offset = 0x14 / 2 ∨ offset = 0x16 / 2 then
    some (m.readinputport (offset &&& 3) % 2 ^ 16, s.call (Call.readinputport (offset &&& 3)))
  else if offset = 0x30 / 2 then
    match ["ADC0", "ADC1", "ADC2", "ADC3", "ADC4", "ADC5", "ADC6", "ADC7"].get? s.adc_select with
    | some tag =>
      some (m.readinputportbytag_safe tag 0x0010 % 2 ^ 16,
        s.call (Call.readinputportbytag_safe tag 0x0010))
    | none => none
  else if offset = 0x60 / 2 then
    some (m.watchdog_reset_r % 2 ^ 16, s.call (Call.watchdog_reset_r 0))
  else
    some (open_bus_fallback m s)

/-- Source: `outrun_custom_io_w` (lines 214-254). -/
def outrun_custom_io_w (offset data mem_mask : Nat) (s : State) : State :=
  let offset := offset &&& (0x7f / 2)
  if offset = 0x02 / 2 then
    s.call Call.logerror
  else if offset = 0x04 / 2 then
    let s := { s.call (Call.segaic16_set_display_enable ((data >>> 5) &&& 1)) with
      display_enable := (data >>> 5) &&& 1 }
    let s := { s with adc_select := ((data >>> 2) &&& 7) % 2 ^ 8 }
    let st := if data &&& 1 ≠ 0 then line_state.CLEAR_LINE else line_state.ASSERT_LINE
    { s.call (Call.cpunum_set_input_line 2 input_line.INPUT_LINE_RESET st) with
      sound_reset_line := st }
  else if offset = 0x06 / 2 then
    s.call Call.logerror
  else if offset = 0x20 / 2 then
    s.call Call.logerror
  else if offset = 0x30 / 2 then
    s
  else if offset = 0x70 / 2 then
    (s.call (Call.segaic16_sprites_draw_0_w offset data mem_mask)).call Call.logerror
  else
    s.call Call.logerror

/-- Source: `shangon_custom_io_r` (lines 257-276).  The result is `none` when
`ports[adc_select]` reads past the 4-entry table. -/
def shangon_custom_io_r (m : Machine) (offset mem_mask : Nat) (s : State) :
    Option (Nat × State) :=
  let offset := offset &&& (0x303f / 2)
  if offset = 0x1000 / 2 ∨ offset = 0x1002 / 2 ∨ offset = 0x1004 / 2 ∨ offset = 0x1006 / 2 then
    some (m.readinputport (offset &&& 3) % 2 ^ 16, s.call (Call.readinputport (offset &&& 3)))
  else if offset = 0x3020 / 2 then
    match ["ADC0", "ADC1", "ADC2", "ADC3"].get? s.adc_select with
    | some tag =>
      some (m.readinputportbytag_safe tag 0x0010 % 2 ^ 16,
        s.call (Call.readinputportbytag_safe tag 0x0010))
    | none => none
  else
    some (open_bus_fallback m s)

/-- Source: `shangon_custom_io_w` (lines 279-309). -/
def shangon_custom_io_w (offset data mem_mask : Nat) (s : State) : State :=
  let offset := offset &&& (0x303f / 2)
  if offset = 0x0000 / 2 then
    let s := { s with adc_select := ((data >>> 6) &&& 3) % 2 ^ 8 }
    { s.call (Call.segaic16_set_display_enable ((data >>> 5) &&& 1)) with
      display_enable := (data >>> 5) &&& 1 }
  else if offset = 0x0020 / 2 then
    let st := if data &&& 1 ≠ 0 then line_state.CLEAR_LINE else line_state.ASSERT_LINE
    { s.call (Call.cpunum_set_input_line 2 input_line.INPUT_LINE_RESET st) with
      sound_reset_line := st }
  else if offset = 0x3000 / 2 then
    s.call (Call.watchdog_reset_w 0 0)
  else if offset = 0x3020 / 2 then
    s
  else
    s.call Call.logerror

/-- A call through a `read16_handler` pointer. -/
def read16_handler.call : read16_handler → Machine → Nat → Nat → State → Option (Nat × State)
  | .outrun_custom_io_r => Segaorun.outrun_custom_io_r
  | .shangon_custom_io_r => Segaorun.shangon_custom_io_r

/-- A call through a `write16_handler` pointer. -/
def write16_handler.call : write16_handler → Nat → Nat → Nat → State → State
  | .outrun_custom_io_w => Segaorun.outrun_custom_io_w
  | .shangon_custom_io_w => Segaorun.shangon_custom_io_w

/-- Source: `misc_io_r` (lines 164-170). -/
def misc_io_r (m : Machine) (offset mem_mask : Nat) (s : State) : Option (Nat × State) :=
  match s.custom_io_r with
  | some f => f.call m offset mem_mask s
  | none => some (open_bus_fallback m s)

/-- Source: `misc_io_w` (lines 173-181). -/
def misc_io_w (offset data mem_mask : Nat) (s : State) : State :=
  match s.custom_io_w with
  | some f => f.call offset data mem_mask s
  | none => s.call Call.logerror

/-- Modelled from the spec: a file of the NVRAM file contract, as the bytes it
holds; the core file layer (`mame_file`, `mame_fwrite`, `mame_fread`) is not
among the sources. -/
@[reducible] def mame_file : Type := List Nat

/-- Modelled from the spec: "binary dump ... of a fixed-size (0x8000-byte)
work-RAM region, written on save": `length` bytes of the buffer are appended to
what the file holds. -/
def mame_fwrite (file : mame_file) (buffer : List Nat) (length : Nat) : mame_file :=
  List.append file (buffer.take length)

/-- Modelled from the spec: "restore ... read on load"; "a short read silently
leaves trailing RAM at its prior value, a long file is truncated by the
fixed-size read": the first `length` bytes of the file, read from its start,
replace the head of the buffer. -/
def mame_fread (file : mame_file) (buffer : List Nat) (length : Nat) : List Nat :=
  List.append (List.take length file) (buffer.drop (List.take length file).length)

/-- Source: `NVRAM_HANDLER( outrun )` (lines 319-325); `file` is `none` for a
null file pointer.  The result is the file and the statics afterwards, or `none`
when the code passes a null file or a null `workram` to the file layer. -/
def nvram_handler_outrun (file : Option mame_file) (read_or_write : Int) (s : State) :
    Option (Option mame_file × State) :=
  if read_or_write ≠ 0 then
    match file, s.workram with
    | some f, some ram => some (some (mame_fwrite f ram 0x8000), s)
    | _, _ => none
  else if file.isSome then
    match file, s.workram with
    | some f, some ram => some (some f, { s with workram := some (mame_fread f ram 0x8000) })
    | _, _ => none
  else some (file, s)

/-! ### Configuration, initialization and interrupts (lines 88-154, 1473-1537) -/

/-- Source: `sound_w` (lines 88-92). -/
def sound_w (data : Nat) (s : State) : State :=
  (s.call (Call.soundlatch_w 0 data)).call
    (Call.cpunum_set_input_line 2 input_line.INPUT_LINE_NMI line_state.PULSE_LINE)

/-- Which of the five allocations of `outrun_generic_init` return a non-null
pointer. -/
structure InitAllocs where
  segaic16_spriteram_0 : Bool
  paletteram16 : Bool
  segaic16_tileram_0 : Bool
  segaic16_textram_0 : Bool
  workram : Bool
deriving DecidableEq, Repr

/-- Source: `outrun_generic_init` (lines 95-116).  The result is `none` when
`osd_die` ends the program (line 104).  The freshly allocated work RAM is taken
to hold zeros; the other four regions belong to other files. -/
def outrun_generic_init (al : InitAllocs) (s : State) : Option State :=
  let s := { s with workram := if al.workram then some (List.replicate 0x08000 0) else none }
  if !al.segaic16_spriteram_0 || !al.paletteram16 || !al.segaic16_tileram_0
      || !al.segaic16_textram_0 || s.workram.isNone then
    none
  else
    let s := s.call (Call.segaic16_memory_mapper_init 0)
    let s := s.call Call.fd1094_driver_init
    let s := { s with custom_io_r := none }
    let s := { s with custom_io_w := none }
    let s := { s with custom_map := none }
    some s

/-- Source: `outrun_reset` (lines 126-129). -/
def outrun_reset (s : State) : State :=
  s.call (Call.cpunum_set_input_line 1 input_line.INPUT_LINE_RESET line_state.PULSE_LINE)

/-- Source: `MACHINE_INIT( outrun )` (lines 132-144). -/
def machine_init_outrun (s : State) : State :=
  let s := s.call Call.fd1094_machine_init
  let s := s.call Call.segaic16_memory_mapper_reset
  let s :=
    match s.custom_map with
    | some map => s.call (Call.segaic16_memory_mapper_config map)
    | none => s
  let s := s.call (Call.segaic16_tilemap_reset 0)
  s.call (Call.cpunum_set_info_fct_reset_callback 0)

/-- Source: `INTERRUPT_GEN( outrun_irq )` (lines 147-154); `iloops` is the value
of `cpu_getiloops()`. -/
def outrun_irq (iloops : Int) (s : State) : State :=
  if iloops ≠ 0 then
    s.call (Call.cpunum_set_input_line 0 (input_line.irq 2) line_state.HOLD_LINE)
  else
    s.call (Call.cpunum_set_input_line 0 (input_line.irq 4) line_state.HOLD_LINE)

/-- Source: `DRIVER_INIT( outrun )` (lines 1473-1478). -/
def driver_init_outrun (al : InitAllocs) (s : State) : Option State :=
  match outrun_generic_init al s with
  | none => none
  | some s =>
    let s := { s with custom_io_r := some read16_handler.outrun_custom_io_r }
    let s := { s with custom_io_w := some write16_handler.outrun_custom_io_w }
    some s

/-- The ROM regions `DRIVER_INIT( outrunb )` rewrites: REGION_CPU1 and
REGION_CPU2 as 16-bit words, REGION_GFX3 and REGION_CPU3 as bytes. -/
structure Regions where
  cpu1 : List Nat
  cpu2 : List Nat
  gfx3 : List Nat
  cpu3 : List Nat
deriving DecidableEq, Repr

/-- Source: `DRIVER_INIT( outrunb )` (lines 1481-1519).  The macros `BITSWAP16`
and `BITSWAP8` belong to the core headers, which are not among the sources, and
are parameters: value and list of source bit numbers, highest result bit
first. -/
def driver_init_outrunb (BITSWAP16 BITSWAP8 : Nat → List Nat → Nat) (rg : Regions)
    (al : InitAllocs) (s : State) : Option (Regions × State) :=
  let memory_map : List Nat :=
    [0x02, 0x00, 0x0d, 0x10, 0x00, 0x12, 0x0c, 0x13, 0x08, 0x14, 0x0f, 0x20, 0x00, 0x00, 0x00,
      0x00]
  match outrun_generic_init al s with
  | none => none
  | some s =>
    let s := { s with custom_map := some memory_map }
    let s := { s with custom_io_r := some read16_handler.outrun_custom_io_r }
    let s := { s with custom_io_w := some write16_handler.outrun_custom_io_w }
    let cpu1 := rg.cpu1.map fun (w : Nat) =>
      BITSWAP16 w [15, 14, 11, 12, 13, 10, 9, 8, 6, 7, 5, 4, 3, 2, 1, 0]
    let rg := { rg with cpu1 := cpu1 }
    let cpu2 := rg.cpu2.map fun (w : Nat) =>
      BITSWAP16 w [14, 15, 13, 12, 11, 10, 9, 8, 7, 6, 5, 4, 2, 3, 1, 0]
    let rg := { rg with cpu2 := cpu2 }
    let gfx3 := rg.gfx3.map fun (b : Nat) => BITSWAP8 b [7, 5, 6, 4, 3, 2, 1, 0]
    let rg := { rg with gfx3 := gfx3 }
    let cpu3 := rg.cpu3.map fun (b : Nat) => BITSWAP8 b [7, 5, 6, 4, 3, 2, 1, 0]
    let rg := { rg with cpu3 := cpu3 }
    some (rg, s)

/-- Source: `DRIVER_INIT( shangon )` (lines 1522-1527). -/
def driver_init_shangon (al : InitAllocs) (s : State) : Option State :=
  match outrun_generic_init al s with
  | none => none
  | some s =>
    let s := { s with custom_io_r := some read16_handler.shangon_custom_io_r }
    let s := { s with custom_io_w := some write16_handler.shangon_custom_io_w }
    some s

/-- Source: `DRIVER_INIT( shangon3 )` (lines 1530-1537). -/
def driver_init_shangon3 (al : InitAllocs) (s : State) : Option State :=
  match outrun_generic_init al s with
  | none => none
  | some s =>
    let s := s.call Call.fd1089_decrypt_0034
    let s := { s with custom_io_r := some read16_handler.shangon_custom_io_r }
    let s := { s with custom_io_w := some write16_handler.shangon_custom_io_w }
    some s

/-- One operation of the driver after its initialisation, with its
arguments. -/
inductive Op where
  | machine_init
  | misc_io_r (offset : Nat) (mem_mask : Nat)
  | misc_io_w (offset : Nat) (data : Nat) (mem_mask : Nat)
  | outrun_custom_io_r (offset : Nat) (mem_mask : Nat)
  | outrun_custom_io_w (offset : Nat) (data : Nat) (mem_mask : Nat)
  | shangon_custom_io_r (offset : Nat) (mem_mask : Nat)
  | shangon_custom_io_w (offset : Nat) (data : Nat) (mem_mask : Nat)
  | nvram_handler (file : Option mame_file) (read_or_write : Int)
  | outrun_irq (iloops : Int)
  | outrun_reset
  | sound_w (data : Nat)

/-- The statics after one operation; `none` when the operation has no defined
result.  Values read and files written are dropped. -/
def Op.run (m : Machine) : Op → State → Option State
  | .machine_init, s => some (machine_init_outrun s)
  | .misc_io_r offset mem_mask, s => (Segaorun.misc_io_r m offset mem_mask s).map Prod.snd
  | .misc_io_w offset data mem_mask, s => some (Segaorun.misc_io_w offset data mem_mask s)
  | .outrun_custom_io_r offset mem_mask, s =>
    (Segaorun.outrun_custom_io_r m offset mem_mask s).map Prod.snd
  | .outrun_custom_io_w offset data mem_mask, s =>
    some (Segaorun.outrun_custom_io_w offset data mem_mask s)
  | .shangon_custom_io_r offset mem_mask, s =>
    (Segaorun.shangon_custom_io_r m offset mem_mask s).map Prod.snd
  | .shangon_custom_io_w offset data mem_mask, s =>
    some (Segaorun.shangon_custom_io_w offset data mem_mask s)
  | .nvram_handler file read_or_write, s =>
    (nvram_handler_outrun file read_or_write s).map Prod.snd
  | .outrun_irq iloops, s => some (Segaorun.outrun_irq iloops s)
  | .outrun_reset, s => some (Segaorun.outrun_reset s)
  | .sound_w data, s => some (Segaorun.sound_w data s)

/-- A sequence of operations, in order. -/
def run_ops (m : Machine) : List Op → State → Option State
  | [], s => some s
  | op :: ops, s =>
    match op.run m s with
    | some s1 => run_ops m ops s1
    | none => none

/-- State `s'` has the same custom I/O handlers as `s`. -/
def same_handlers (s s' : State) : Prop :=
  s'.custom_io_r = s.custom_io_r ∧ s'.custom_io_w = s.custom_io_w

/-- State `s'` has the same ADC channel, display enable and sound reset line as
`s`. -/
def same_ports (s s' : State) : Prop :=
  s'.adc_select = s.adc_select ∧ s'.display_enable = s.display_enable
    ∧ s'.sound_reset_line = s.sound_reset_line

/-! ### Memory mapping table (lines 58-78) -/

/-- Modelled from the spec: one record of the mapper configuration table,
`{cpuSelector, base, size, addressMask, mirrorMask, readHandler, writeHandler,
backingPointer, label}`; `struct segaic16_memory_map_entry` is declared outside
the sources.  Handlers and backing stores are kept by name, `none` for `NULL`. -/
structure segaic16_memory_map_entry where
  cpuSelector : Nat
  base : Nat
  size : Nat
  addressMask : Nat
  mirrorMask : Nat
  readHandler : String
  writeHandler : String
  backingPointer : Option String
  label : String
deriving DecidableEq, Repr

/-- Source: `outrun_info` (lines 64-78), without the `{ 0 }` record that ends
the table.  `~0` is written as the 32-bit value 0xffffffff. -/
def outrun_info : List segaic16_memory_map_entry :=
  [ ⟨0x35 / 2, 0x90000, 0x10000, 0xf00000, 0xffffffff,
      "segaic16_road_control_0_r", "segaic16_road_control_0_w", none, "road control"⟩,
    ⟨0x35 / 2, 0x80000, 0x01000, 0xf0f000, 0xffffffff,
      "MRA16_BANK10", "MWA16_BANK10", some "segaic16_roadram_0", "road RAM"⟩,
    ⟨0x35 / 2, 0x60000, 0x08000, 0xf18000, 0xffffffff,
      "MRA16_BANK11", "MWA16_BANK11", some "cpu1ram", "CPU 1 RAM"⟩,
    ⟨0x35 / 2, 0x00000, 0x60000, 0xf00000, 0xffffffff,
      "MRA16_BANK12", "MWA16_ROM", some "cpu1rom", "CPU 1 ROM"⟩,
    ⟨0x31 / 2, 0x00000, 0x04000, 0xffc000, 0xffffffff,
      "misc_io_r", "misc_io_w", none, "I/O space"⟩,
    ⟨0x2d / 2, 0x00000, 0x01000, 0xfff000, 0xffffffff,
      "MRA16_BANK13", "MWA16_BANK13", some "segaic16_spriteram_0", "object RAM"⟩,
    ⟨0x29 / 2, 0x00000, 0x02000, 0xffe000, 0xffffffff,
      "MRA16_BANK14", "segaic16_paletteram_w", some "paletteram16", "color RAM"⟩,
    ⟨0x25 / 2, 0x00000, 0x10000, 0xfe0000, 0xffffffff,
      "MRA16_BANK15", "segaic16_tileram_0_w", some "segaic16_tileram_0", "tile RAM"⟩,
    ⟨0x25 / 2, 0x10000, 0x01000, 0xfef000, 0xffffffff,
      "MRA16_BANK16", "segaic16_textram_0_w", some "segaic16_textram_0", "text RAM"⟩,
    ⟨0x21 / 2, 0x60000, 0x08000, 0xf98000, 0xffffffff,
      "MRA16_BANK17", "MWA16_BANK17", some "workram", "CPU 0 RAM"⟩,
    ⟨0x21 / 2, 0x00000, 0x60000, 0xf80000, 0x00000,
      "MRA16_BANK18", "MWA16_ROM", none, "CPU 0 ROM"⟩ ]

/-- Modelled from the spec: the mapper's lookup is not among the sources.  An
entry matches region selector `sel` and offset `off` when the selector is its
own and the offset lies "within [base, base+size)". -/
def entry_matches (sel off : Nat) (e : segaic16_memory_map_entry) : Bool :=
  decide (e.cpuSelector = sel) && decide (e.base ≤ off) && decide (off < e.base + e.size)

/-- Modelled from the spec: `resolve`, "entries are tried in table order, first
match wins"; `none` when no entry matches. -/
def resolve (table : List segaic16_memory_map_entry) (sel off : Nat) :
    Option segaic16_memory_map_entry :=
  table.find? (entry_matches sel off)

/-- Two entries with the same region selector describe address ranges
`[base, base+size)` that do not meet. -/
def ranges_disjoint (e1 e2 : segaic16_memory_map_entry) : Prop :=
  e1.cpuSelector = e2.cpuSelector → e1.base + e1.size ≤ e2.base ∨ e2.base + e2.size ≤ e1.base

instance (e1 e2 : segaic16_memory_map_entry) : Decidable (ranges_disjoint e1 e2) := by
  unfold ranges_disjoint
  infer_instance

end Segaorun

namespace Apple2

/-- The two artifact-map entries stored by one pass of the loop body (lines
289-290), in store order. -/
def artifact_step_indices (i j : Nat) : List Nat :=
  [0 + j * 8 + i, 16 + j * 8 + i]

/-- The artifact-map entries stored by the loops of lines 271-292, in store
order. -/
def artifact_write_indices : List Nat :=
  (List.range 8).flatMap fun (i : Nat) =>
    (List.range 2).flatMap fun (j : Nat) => artifact_step_indices i j

/-! ## Theorems -/

/-- Arithmetic form of the text offset on the 40 x 24 grid. -/
theorem text_offset_arith :
    ∀ row < 24, ∀ col < 40,
      apple2_text_getmemoryoffset col row 40 24 = 128 * (row % 8) + 40 * (row / 8) + col := by
  decide

/-- The `num_cols` and `num_rows` arguments do not influence the text offset. -/
theorem text_offset_args (col row nc nr : Nat) :
    apple2_text_getmemoryoffset col row nc nr = apple2_text_getmemoryoffset col row 40 24 := rfl

/-- Column and row are recovered from a text offset of the 40 x 24 grid. -/
theorem text_offset_decode :
    ∀ row < 24, ∀ col < 40,
      apple2_text_getmemoryoffset col row 40 24 % 128 % 40 = col
        ∧ apple2_text_getmemoryoffset col row 40 24 / 128
          + 8 * (apple2_text_getmemoryoffset col row 40 24 % 128 / 40) = row := by
  decide

/-- C1: `apple2_text_getmemoryoffset` is injective on the 40 x 24 text grid: equal
offsets of two in-range coordinates force equal columns and equal rows. -/
theorem text_getmemoryoffset_injective (col row col' row' nc nr : Nat)
    (hc : col < 40) (hr : row < 24) (hc' : col' < 40) (hr' : row' < 24)
    (h : apple2_text_getmemoryoffset col row nc nr
      = apple2_text_getmemoryoffset col' row' nc nr) :
    col = col' ∧ row = row' := by
  rw [text_offset_args col row, text_offset_args col' row'] at h
  have e := text_offset_decode row hr col hc
  have e' := text_offset_decode row' hr' col' hc'
  rw [h] at e
  exact ⟨e.1.symm.trans e'.1, e.2.symm.trans e'.2⟩

/-- C1 witness: the injectivity theorem applied at the grid corner (39, 23),
whose offset is 1015. -/
theorem text_getmemoryoffset_injective_witness :
    apple2_text_getmemoryoffset 39 23 40 24 = 1015 ∧ ((39 : Nat) = 39 ∧ (23 : Nat) = 23) :=
  ⟨by decide,
    text_getmemoryoffset_injective 39 23 39 23 40 24 (by decide) (by decide) (by decide)
      (by decide) rfl⟩

/-- C2: for every column `c < 40` and row `r < 24` the double-width offset of
column `2c` is the text offset of `(c, r)` plus 0x400, and that of column `2c+1`
is the text offset plus 0x800. -/
theorem dbltext_getmemoryoffset_even_odd (c r nc nr : Nat) (hc : c < 40) (hr : r < 24) :
    apple2_dbltext_getmemoryoffset (2 * c) r nc nr
        = apple2_text_getmemoryoffset c r nc nr + 0x400
      ∧ apple2_dbltext_getmemoryoffset (2 * c + 1) r nc nr
        = apple2_text_getmemoryoffset c r nc nr + 0x800 := by
  have h0 : (2 * c) / 2 = c := by omega
  have h1 : (2 * c + 1) / 2 = c := by omega
  have h2 : (2 * c) % 2 = 0 := by omega
  have h3 : (2 * c + 1) % 2 = 1 := by omega
  have ha := text_offset_arith r hr c hc
  unfold apple2_dbltext_getmemoryoffset
  rw [h0, h1, h2, h3, text_offset_args c r (nc / 2) nr, text_offset_args c r nc nr, ha]
  constructor
  · simp only [ne_eq, not_true_eq_false, if_false]
    omega
  · simp only [ne_eq, one_ne_zero, not_false_eq_true, if_true]
    omega

/-- C2 witness: the double-width relation at column pair 39 of row 23. -/
theorem dbltext_getmemoryoffset_even_odd_witness :
    apple2_dbltext_getmemoryoffset (2 * 39) 23 80 24
        = apple2_text_getmemoryoffset 39 23 80 24 + 0x400
      ∧ apple2_dbltext_getmemoryoffset (2 * 39 + 1) 23 80 24
        = apple2_text_getmemoryoffset 39 23 80 24 + 0x800 :=
  dbltext_getmemoryoffset_even_odd 39 23 80 24 (by decide) (by decide)

/-! ### What `apple2_draw_tilemap` does -/

/-- The band is empty after clipping: the early return of line 48. -/
theorem draw_tilemap_empty (a2 : APPLE2_STRUCT) (c : rectangle) (b e : Int) (tm : TilemapRef)
    (raw : Int) (p : VideobaseRef) (s : State) (hempty : min e c.max_y < max b c.min_y) :
    apple2_draw_tilemap a2 c b e tm raw p s = s := by
  unfold apple2_draw_tilemap
  obtain ⟨x0, x1, y0, y1⟩ := c
  simp only at hempty
  by_cases h1 : y0 < b <;> by_cases h2 : y1 > e <;> simp [h1, h2] <;> intros <;> omega

/-- The band is not empty after clipping: the statics and the calls made. -/
theorem draw_tilemap_nonempty (a2 : APPLE2_STRUCT) (c : rectangle) (b e : Int)
    (tm : TilemapRef) (raw : Int) (p : VideobaseRef) (s : State)
    (hne : ¬ min e c.max_y < max b c.min_y) :
    apple2_draw_tilemap a2 c b e tm raw p s
      = (s.set_videobase p (effective_base a2 raw)).calls_append
          ((if effective_base a2 raw ≠ s.get_videobase p
              then [Call.tilemap_mark_all_tiles_dirty tm] else [])
            ++ [Call.tilemap_draw ⟨c.min_x, c.max_x, max b c.min_y, min e c.max_y⟩ tm
                (s.set_videobase p (effective_base a2 raw)).bases]) := by
  have hnc : ¬ (max b c.min_y > min e c.max_y) := hne
  unfold apple2_draw_tilemap effective_base
  lift_lets
  intro nc0 nc1 nc2 eff s1
  have hnc2 : nc2 = ⟨c.min_x, c.max_x, max b c.min_y, min e c.max_y⟩ := by
    simp only [nc2, nc1, nc0]
    obtain ⟨x0, x1, y0, y1⟩ := c
    by_cases h1 : y0 < b <;> by_cases h2 : y1 > e <;> simp [h1, h2] <;> omega
  rw [hnc2]
  simp only [hnc, if_false, s1]
  have heff : (if a2.RAMRD ≠ 0 then raw + 0x10000 else raw) = eff := rfl
  rw [heff]
  clear heff hnc2 s1
  clear_value eff
  cases p
  · by_cases hb : eff = s.text_videobase
    · simp [hb, State.set_videobase, State.get_videobase, State.call, State.bases,
        State.calls_append]
    · simp [hb, State.set_videobase, State.get_videobase, State.call, State.bases,
        State.calls_append]
  · by_cases hb : eff = s.dbltext_videobase
    · simp [hb, State.set_videobase, State.get_videobase, State.call, State.bases,
        State.calls_append]
    · simp [hb, State.set_videobase, State.get_videobase, State.call, State.bases,
        State.calls_append]
  · by_cases hb : eff = s.lores_videobase
    · simp [hb, State.set_videobase, State.get_videobase, State.call, State.bases,
        State.calls_append]
    · simp [hb, State.set_videobase, State.get_videobase, State.call, State.bases,
        State.calls_append]

/-! ### What `apple2_hires_draw` does -/

/-- Running the worker bands in `ts` appends their stores and changes nothing
else. -/
theorem hires_tasks_foldl (h : Host) (param : drawtask_params) (n : Int) (ts : List Nat)
    (s : State) :
    ts.foldl (fun (st : State) (t : Nat) => apple2_hires_draw_task h param (t : Int) n st) s
      = s.stores_append
          (ts.flatMap fun (t : Nat) => hires_task_stores h s.artifact_map param (t : Int) n) := by
  induction ts generalizing s with
  | nil => simp [State.stores_append]
  | cons t ts ih =>
    rw [List.foldl_cons, ih]
    simp [apple2_hires_draw_task, State.stores_append]

/-- The `osd_parallelize` fan-out records the call and appends the stores of
all worker bands. -/
theorem osd_parallelize_hires (h : Host) (param : drawtask_params) (m : Int) (s : State) :
    osd_parallelize h apple2_hires_draw_task param m s
      = (s.calls_append [Call.osd_parallelize param m]).stores_append
          (hires_stores h s.artifact_map param) := by
  unfold osd_parallelize
  rw [hires_tasks_foldl]
  rfl

/-- The hi-res band is empty after clipping: the early return of line 207. -/
theorem hires_draw_empty (h : Host) (a2 : APPLE2_STRUCT) (c : rectangle) (page b e : Int)
    (s : State) (hempty : min e c.max_y < max b c.min_y) :
    apple2_hires_draw h a2 c page b e s = s := by
  unfold apple2_hires_draw
  lift_lets
  intro b1 e1
  have hlt : e1 < b1 := by
    simp only [b1, e1]
    by_cases h1 : b < c.min_y <;> by_cases h2 : e > c.max_y <;> simp [h1, h2] <;> omega
  simp [hlt]

/-- The hi-res band is not empty after clipping: one fan-out over the clipped
band, reading from the effective base of the hi-res page. -/
theorem hires_draw_nonempty (h : Host) (a2 : APPLE2_STRUCT) (c : rectangle) (page b e : Int)
    (s : State) (hne : ¬ min e c.max_y < max b c.min_y) :
    apple2_hires_draw h a2 c page b e s
      = (s.calls_append
          [Call.osd_parallelize
            ⟨effective_base a2 (if page ≠ 0 then 0x4000 else 0x2000), max b c.min_y,
              (min e c.max_y + 1) - max b c.min_y⟩
            ((min e c.max_y + 1) - max b c.min_y)]).stores_append
          (hires_stores h s.artifact_map
            ⟨effective_base a2 (if page ≠ 0 then 0x4000 else 0x2000), max b c.min_y,
              (min e c.max_y + 1) - max b c.min_y⟩) := by
  unfold apple2_hires_draw effective_base
  lift_lets
  intro b1 e1 v0 v1 dt
  have hb1 : b1 = max b c.min_y := by
    simp only [b1]
    by_cases h1 : b < c.min_y <;> simp [h1] <;> omega
  have he1 : e1 = min e c.max_y := by
    simp only [e1]
    by_cases h2 : e > c.max_y <;> simp [h2] <;> omega
  have hge : ¬ e1 < b1 := by rw [hb1, he1]; exact hne
  simp only [hge, if_false, osd_parallelize_hires]
  simp only [dt, v1, v0, hb1, he1]

/-! ### Records of calls -/

theorem calls_since_of_append (s s' : State) (cs : List Call) (h : s'.calls = s.calls ++ cs) :
    calls_since s s' = cs := by
  simp [calls_since, h]

theorem Extends.refl (s : State) : Extends s s := ⟨[], by simp⟩

theorem Extends.trans {s s1 s2 : State} (h1 : Extends s s1) (h2 : Extends s1 s2) :
    Extends s s2 := by
  obtain ⟨a, ha⟩ := h1
  obtain ⟨b, hb⟩ := h2
  exact ⟨a ++ b, by rw [hb, ha, List.append_assoc]⟩

theorem calls_since_trans {s s1 s2 : State} (h1 : Extends s s1) (h2 : Extends s1 s2) :
    calls_since s s2 = calls_since s s1 ++ calls_since s1 s2 := by
  obtain ⟨a, ha⟩ := h1
  obtain ⟨b, hb⟩ := h2
  rw [calls_since_of_append s s1 a ha, calls_since_of_append s1 s2 b hb,
    calls_since_of_append s s2 (a ++ b) (by rw [hb, ha, List.append_assoc])]

theorem calls_since_self (s : State) : calls_since s s = [] := by
  simp [calls_since]

theorem set_videobase_calls (s : State) (p : VideobaseRef) (v : Int) :
    (s.set_videobase p v).calls = s.calls := by
  cases p <;> rfl

/-- The calls `apple2_draw_tilemap` makes. -/
theorem draw_tilemap_calls (a2 : APPLE2_STRUCT) (c : rectangle) (b e : Int) (tm : TilemapRef)
    (raw : Int) (p : VideobaseRef) (s : State) :
    (apple2_draw_tilemap a2 c b e tm raw p s).calls
      = s.calls ++
        (if min e c.max_y < max b c.min_y then []
         else (if effective_base a2 raw ≠ s.get_videobase p
              then [Call.tilemap_mark_all_tiles_dirty tm] else [])
            ++ [Call.tilemap_draw ⟨c.min_x, c.max_x, max b c.min_y, min e c.max_y⟩ tm
                (s.set_videobase p (effective_base a2 raw)).bases]) := by
  by_cases hE : min e c.max_y < max b c.min_y
  · rw [draw_tilemap_empty a2 c b e tm raw p s hE, if_pos hE, List.append_nil]
  · rw [draw_tilemap_nonempty a2 c b e tm raw p s hE, if_neg hE]
    simp only [State.calls_append, set_videobase_calls]

/-- The calls `apple2_hires_draw` makes. -/
theorem hires_draw_calls (h : Host) (a2 : APPLE2_STRUCT) (c : rectangle) (page b e : Int)
    (s : State) :
    (apple2_hires_draw h a2 c page b e s).calls
      = s.calls ++
        (if min e c.max_y < max b c.min_y then []
         else [Call.osd_parallelize
            ⟨effective_base a2 (if page ≠ 0 then 0x4000 else 0x2000), max b c.min_y,
              (min e c.max_y + 1) - max b c.min_y⟩
            ((min e c.max_y + 1) - max b c.min_y)]) := by
  by_cases hE : min e c.max_y < max b c.min_y
  · rw [hires_draw_empty h a2 c page b e s hE, if_pos hE, List.append_nil]
  · rw [hires_draw_nonempty h a2 c page b e s hE, if_neg hE]
    simp only [State.calls_append, State.stores_append]

/-! ### The bands of a frame -/

theorem draw_tilemap_extends (a2 : APPLE2_STRUCT) (c : rectangle) (b e : Int) (tm : TilemapRef)
    (raw : Int) (p : VideobaseRef) (s : State) :
    Extends s (apple2_draw_tilemap a2 c b e tm raw p s) :=
  ⟨_, draw_tilemap_calls a2 c b e tm raw p s⟩

theorem hires_draw_extends (h : Host) (a2 : APPLE2_STRUCT) (c : rectangle) (page b e : Int)
    (s : State) : Extends s (apple2_hires_draw h a2 c page b e s) :=
  ⟨_, hires_draw_calls h a2 c page b e s⟩

theorem text_draw_extends (a2 : APPLE2_STRUCT) (c : rectangle) (page b e : Int) (s : State) :
    Extends s (apple2_text_draw a2 c page b e s) := by
  unfold apple2_text_draw
  split
  · exact draw_tilemap_extends _ _ _ _ _ _ _ _
  · exact draw_tilemap_extends _ _ _ _ _ _ _ _

theorem lores_draw_extends (a2 : APPLE2_STRUCT) (c : rectangle) (page b e : Int) (s : State) :
    Extends s (apple2_lores_draw a2 c page b e s) :=
  draw_tilemap_extends _ _ _ _ _ _ _ _

/-- The calls of the flag-change block: three full invalidations when one of
the five compared flags differs from its recorded value, nothing otherwise. -/
theorem invalidate_calls (a2 : APPLE2_STRUCT) (s : State) :
    (video_update_invalidate a2 s).calls
      = s.calls ++
        (if a2.TEXT ≠ s.old_a2.TEXT ∨ a2.MIXED ≠ s.old_a2.MIXED ∨ a2.HIRES ≠ s.old_a2.HIRES
            ∨ a2.COL80 ≠ s.old_a2.COL80 ∨ a2.PAGE2 ≠ s.old_a2.PAGE2 then
          [Call.tilemap_mark_all_tiles_dirty TilemapRef.text_tilemap,
           Call.tilemap_mark_all_tiles_dirty TilemapRef.dbltext_tilemap,
           Call.tilemap_mark_all_tiles_dirty TilemapRef.lores_tilemap]
        else []) := by
  unfold video_update_invalidate
  split
  · simp [State.call]
  · simp

theorem invalidate_extends (a2 : APPLE2_STRUCT) (s : State) :
    Extends s (video_update_invalidate a2 s) :=
  ⟨_, invalidate_calls a2 s⟩

theorem bands_since_trans {s s1 s2 : State} (h1 : Extends s s1) (h2 : Extends s1 s2) :
    bands_since s s2 = bands_since s s1 ++ bands_since s1 s2 := by
  unfold bands_since
  rw [calls_since_trans h1 h2, List.filterMap_append]

theorem draw_tilemap_bands (a2 : APPLE2_STRUCT) (c : rectangle) (b e : Int) (tm : TilemapRef)
    (raw : Int) (p : VideobaseRef) (s : State) :
    bands_since s (apple2_draw_tilemap a2 c b e tm raw p s)
      = (Band.clip c ⟨tm.kind, b, e⟩).toList := by
  unfold bands_since
  rw [calls_since_of_append _ _ _ (draw_tilemap_calls a2 c b e tm raw p s)]
  unfold Band.clip
  by_cases hE : min e c.max_y < max b c.min_y
  · simp [hE]
  · by_cases hb : effective_base a2 raw = s.get_videobase p <;> simp [hE, hb, Call.band]

theorem hires_draw_bands (h : Host) (a2 : APPLE2_STRUCT) (c : rectangle) (page b e : Int)
    (s : State) :
    bands_since s (apple2_hires_draw h a2 c page b e s)
      = (Band.clip c ⟨BandKind.hires, b, e⟩).toList := by
  unfold bands_since
  rw [calls_since_of_append _ _ _ (hires_draw_calls h a2 c page b e s)]
  unfold Band.clip
  by_cases hE : min e c.max_y < max b c.min_y
  · simp [hE]
  · simp [hE, Call.band]

theorem text_draw_bands (a2 : APPLE2_STRUCT) (c : rectangle) (page b e : Int) (s : State) :
    bands_since s (apple2_text_draw a2 c page b e s)
      = (Band.clip c ⟨if a2.COL80 = 0 then BandKind.text else BandKind.dbltext, b, e⟩).toList := by
  unfold apple2_text_draw
  by_cases h80 : a2.COL80 = 0
  · simp only [h80, ne_eq, not_true_eq_false, if_false, if_true, draw_tilemap_bands,
      TilemapRef.kind]
  · simp only [h80, ne_eq, not_false_eq_true, if_false, if_true, draw_tilemap_bands,
      TilemapRef.kind]

theorem lores_draw_bands (a2 : APPLE2_STRUCT) (c : rectangle) (page b e : Int) (s : State) :
    bands_since s (apple2_lores_draw a2 c page b e s)
      = (Band.clip c ⟨BandKind.lores, b, e⟩).toList := by
  unfold apple2_lores_draw
  rw [draw_tilemap_bands]
  rfl

theorem invalidate_bands (a2 : APPLE2_STRUCT) (s : State) :
    bands_since s (video_update_invalidate a2 s) = [] := by
  unfold bands_since
  rw [calls_since_of_append _ _ _ (invalidate_calls a2 s)]
  split <;> simp [Call.band]

theorem filterMap_one {α β : Type} (f : α → Option β) (a : α) :
    [a].filterMap f = (f a).toList := by
  cases hfa : f a <;> simp [List.filterMap_cons, hfa]

theorem filterMap_two {α β : Type} (f : α → Option β) (a b : α) :
    [a, b].filterMap f = (f a).toList ++ (f b).toList := by
  cases hfa : f a <;> cases hfb : f b <;> simp [List.filterMap_cons, hfa, hfb]

theorem video_update_draw_extends (h : Host) (a2 : APPLE2_STRUCT) (c : rectangle) (page : Int)
    (s : State) : Extends s (video_update_draw h a2 c page s) := by
  unfold video_update_draw
  split
  · exact text_draw_extends _ _ _ _ _ _
  · split
    · exact (hires_draw_extends _ _ _ _ _ _ _).trans (text_draw_extends _ _ _ _ _ _)
    · split
      · exact hires_draw_extends _ _ _ _ _ _ _
      · split
        · exact (lores_draw_extends _ _ _ _ _ _).trans (text_draw_extends _ _ _ _ _ _)
        · exact lores_draw_extends _ _ _ _ _ _

theorem video_update_draw_bands (h : Host) (a2 : APPLE2_STRUCT) (c : rectangle) (page : Int)
    (s : State) :
    bands_since s (video_update_draw h a2 c page s)
      = (documented_bands a2).filterMap (Band.clip c) := by
  unfold video_update_draw documented_bands
  simp only []
  by_cases hT : a2.TEXT ≠ 0
  · rw [if_pos hT, if_pos hT, text_draw_bands, filterMap_one]
  · rw [if_neg hT, if_neg hT]
    by_cases hHM : a2.HIRES ≠ 0 ∧ a2.MIXED ≠ 0
    · rw [if_pos hHM, if_pos hHM,
        bands_since_trans (hires_draw_extends _ _ _ _ _ _ _) (text_draw_extends _ _ _ _ _ _),
        hires_draw_bands, text_draw_bands, filterMap_two]
    · rw [if_neg hHM, if_neg hHM]
      by_cases hH : a2.HIRES ≠ 0
      · rw [if_pos hH, if_pos hH, hires_draw_bands, filterMap_one]
      · rw [if_neg hH, if_neg hH]
        by_cases hM : a2.MIXED ≠ 0
        · rw [if_pos hM, if_pos hM,
            bands_since_trans (lores_draw_extends _ _ _ _ _ _) (text_draw_extends _ _ _ _ _ _),
            lores_draw_bands, text_draw_bands, filterMap_two]
        · rw [if_neg hM, if_neg hM, lores_draw_bands, filterMap_one]

/-- C3: for every control state, clip rectangle and earlier state, the bands
`VIDEO_UPDATE( apple2 )` draws are the bands of the documented mode table (TEXT:
text 0-191; else HIRES and MIXED: hi-res 0-159 then text 160-191; else HIRES:
hi-res 0-191; else MIXED: lo-res 0-159 then text 160-191; else lo-res 0-191;
text bands on the double-width map exactly when COL80 is nonzero), each cut
down to the clip rectangle; when the clip rectangle covers scanlines 0-191 they
are the documented bands themselves. -/
theorem video_update_band_split (h : Host) (a2 : APPLE2_STRUCT) (c : rectangle) (s : State) :
    bands_since s (video_update_apple2 h a2 c s)
        = (documented_bands a2).filterMap (Band.clip c)
      ∧ (c.min_y ≤ 0 ∧ 191 ≤ c.max_y →
          bands_since s (video_update_apple2 h a2 c s) = documented_bands a2) := by
  have key : bands_since s (video_update_apple2 h a2 c s)
      = (documented_bands a2).filterMap (Band.clip c) := by
    unfold video_update_apple2
    simp only []
    rw [bands_since_trans (invalidate_extends a2 s) (video_update_draw_extends _ _ _ _ _),
      invalidate_bands, video_update_draw_bands, List.nil_append]
  refine ⟨key, ?_⟩
  rintro ⟨h0, h1⟩
  rw [key]
  have hc : ∀ (k : BandKind) (f l : Int), 0 ≤ f → f ≤ l → l ≤ 191 →
      Band.clip c ⟨k, f, l⟩ = some ⟨k, f, l⟩ := by
    intro k f l hf hfl hl
    unfold Band.clip
    have e1 : max f c.min_y = f := by omega
    have e2 : min l c.max_y = l := by omega
    simp only [e1, e2]
    rw [if_neg (by omega)]
  have e1 := fun k => hc k 0 191 (by norm_num) (by norm_num) (by norm_num)
  have e2 := fun k => hc k 0 159 (by norm_num) (by norm_num) (by norm_num)
  have e3 := fun k => hc k 160 191 (by norm_num) (by norm_num) (by norm_num)
  unfold documented_bands
  simp only []
  split_ifs <;> simp [List.filterMap_cons, e1, e2, e3]

/-- C3 witness: with TEXT clear, HIRES and MIXED set and a clip rectangle
covering the frame, the bands are hi-res 0-159 then single-width text 160-191. -/
theorem video_update_band_split_witness :
    bands_since started_state
        (video_update_apple2 ⟨fun _ => 0, 1⟩ ⟨0, 0x80, 0x80, 0, 0, 0⟩ ⟨0, 559, 0, 191⟩
          started_state)
      = [⟨BandKind.hires, 0, 159⟩, ⟨BandKind.text, 160, 191⟩] :=
  ((video_update_band_split ⟨fun _ => 0, 1⟩ ⟨0, 0x80, 0x80, 0, 0, 0⟩ ⟨0, 559, 0, 191⟩
    started_state).2 ⟨by decide, by decide⟩).trans (by decide)

/-! ### Properties of every call of a frame -/

theorem all_calls_trans {P : Call → Prop} {s s1 s2 : State} (h1 : Extends s s1)
    (h2 : Extends s1 s2) (a : ∀ x ∈ calls_since s s1, P x) (b : ∀ x ∈ calls_since s1 s2, P x) :
    ∀ x ∈ calls_since s s2, P x := by
  intro x hx
  rw [calls_since_trans h1 h2, List.mem_append] at hx
  exact hx.elim (a x) (b x)

/-- Each call of `apple2_draw_tilemap` is a full invalidation of the map or the
draw of the clipped, non-empty band with the effective base recorded. -/
theorem draw_tilemap_mem (a2 : APPLE2_STRUCT) (c : rectangle) (b e : Int) (tm : TilemapRef)
    (raw : Int) (p : VideobaseRef) (s : State) (x : Call)
    (hx : x ∈ calls_since s (apple2_draw_tilemap a2 c b e tm raw p s)) :
    x = Call.tilemap_mark_all_tiles_dirty tm
      ∨ (x = Call.tilemap_draw ⟨c.min_x, c.max_x, max b c.min_y, min e c.max_y⟩ tm
              (s.set_videobase p (effective_base a2 raw)).bases
          ∧ ¬ min e c.max_y < max b c.min_y) := by
  rw [calls_since_of_append _ _ _ (draw_tilemap_calls a2 c b e tm raw p s)] at hx
  by_cases hE : min e c.max_y < max b c.min_y
  · simp [hE] at hx
  · rw [if_neg hE, List.mem_append] at hx
    rcases hx with hx | hx
    · left
      split at hx
      · simpa using hx
      · simp at hx
    · right
      exact ⟨by simpa using hx, hE⟩

/-- Each call of `apple2_hires_draw` is the fan-out over the clipped, non-empty
band. -/
theorem hires_draw_mem (h : Host) (a2 : APPLE2_STRUCT) (c : rectangle) (page b e : Int)
    (s : State) (x : Call) (hx : x ∈ calls_since s (apple2_hires_draw h a2 c page b e s)) :
    x = Call.osd_parallelize
          ⟨effective_base a2 (if page ≠ 0 then 0x4000 else 0x2000), max b c.min_y,
            (min e c.max_y + 1) - max b c.min_y⟩
          ((min e c.max_y + 1) - max b c.min_y)
      ∧ ¬ min e c.max_y < max b c.min_y := by
  rw [calls_since_of_append _ _ _ (hires_draw_calls h a2 c page b e s)] at hx
  by_cases hE : min e c.max_y < max b c.min_y
  · simp [hE] at hx
  · rw [if_neg hE] at hx
    exact ⟨by simpa using hx, hE⟩

/-- A property of calls holds for every call of a frame as soon as it holds for
full invalidations and for the calls of each band generator. -/
theorem video_update_all_calls (P : Call → Prop) (h : Host) (a2 : APPLE2_STRUCT)
    (c : rectangle) (s : State)
    (hmark : ∀ tm, P (Call.tilemap_mark_all_tiles_dirty tm))
    (htext : ∀ b e st, ∀ x ∈ calls_since st (apple2_text_draw a2 c (a2.PAGE2 >>> 7) b e st), P x)
    (hlores : ∀ b e st,
      ∀ x ∈ calls_since st (apple2_lores_draw a2 c (a2.PAGE2 >>> 7) b e st), P x)
    (hhires : ∀ b e st,
      ∀ x ∈ calls_since st (apple2_hires_draw h a2 c (a2.PAGE2 >>> 7) b e st), P x) :
    ∀ x ∈ calls_since s (video_update_apple2 h a2 c s), P x := by
  unfold video_update_apple2
  simp only []
  refine all_calls_trans (invalidate_extends a2 s) (video_update_draw_extends _ _ _ _ _) ?_ ?_
  · intro x hx
    rw [calls_since_of_append _ _ _ (invalidate_calls a2 s)] at hx
    split at hx
    · simp only [List.mem_cons, List.mem_singleton, List.not_mem_nil, or_false] at hx
      rcases hx with hx | hx | hx <;> rw [hx] <;> exact hmark _
    · simp at hx
  · unfold video_update_draw
    simp only []
    split
    · exact htext _ _ _
    · split
      · exact all_calls_trans (hires_draw_extends _ _ _ _ _ _ _) (text_draw_extends _ _ _ _ _ _)
          (hhires _ _ _) (htext _ _ _)
      · split
        · exact hhires _ _ _
        · split
          · exact all_calls_trans (lores_draw_extends _ _ _ _ _ _) (text_draw_extends _ _ _ _ _ _)
              (hlores _ _ _) (htext _ _ _)
          · exact hlores _ _ _

/-- C4 counterexample: with TEXT and COL80 set, page 0 and RAMRD clear, the
whole-frame text band is drawn from the double-width map with video base 0,
where the documented base is 0x400. -/
theorem band_base_counterexample :
    Call.tilemap_draw ⟨0, 559, 0, 191⟩ TilemapRef.dbltext_tilemap ⟨0, 0, 0⟩
        ∈ calls_since started_state
            (video_update_apple2 ⟨fun _ => 0, 1⟩ ⟨0x80, 0, 0, 0x80, 0, 0⟩ ⟨0, 559, 0, 191⟩
              started_state)
      ∧ (Call.tilemap_draw ⟨0, 559, 0, 191⟩ TilemapRef.dbltext_tilemap ⟨0, 0, 0⟩).kind_base
          = some (BandKind.dbltext, 0)
      ∧ documented_base ⟨0x80, 0, 0, 0x80, 0, 0⟩ BandKind.dbltext = 0x400 := by
  decide

theorem set_get_bases (s : State) (tm : TilemapRef) (p : VideobaseRef) (v : Int)
    (hp : (tm = TilemapRef.text_tilemap ∧ p = VideobaseRef.text_videobase)
      ∨ (tm = TilemapRef.dbltext_tilemap ∧ p = VideobaseRef.dbltext_videobase)
      ∨ (tm = TilemapRef.lores_tilemap ∧ p = VideobaseRef.lores_videobase)) :
    (s.set_videobase p v).bases.of_tilemap tm = v := by
  rcases hp with ⟨h1, h2⟩ | ⟨h1, h2⟩ | ⟨h1, h2⟩ <;> subst h1 <;> subst h2 <;> rfl

/-- C4 (amended): for every band that `VIDEO_UPDATE( apple2 )` draws, the video
base used is 0x400 (page 0) or 0x800 (page 1) for a single-width text band and
for a lo-res band, 0 for a double-width text band whatever the page, 0x2000
(page 0) or 0x4000 (page 1) for a hi-res band, and in each case 0x10000 more
when RAMRD is nonzero. -/
theorem video_update_band_base (h : Host) (a2 : APPLE2_STRUCT) (c : rectangle) (s : State)
    (x : Call) (hx : x ∈ calls_since s (video_update_apple2 h a2 c s))
    (k : BandKind) (v : Int) (hk : x.kind_base = some (k, v)) :
    v = band_base a2 k := by
  revert k v
  revert x
  apply video_update_all_calls
  · intro tm k v hk
    simp [Call.kind_base] at hk
  · intro b e st x hx k v hk
    unfold apple2_text_draw at hx
    split at hx
    · rcases draw_tilemap_mem _ _ _ _ _ _ _ _ _ hx with hx | ⟨hx, _⟩
      · simp [hx, Call.kind_base] at hk
      · rw [hx] at hk
        simp only [Call.kind_base, Option.some.injEq, Prod.mk.injEq] at hk
        rw [← hk.1, ← hk.2, set_get_bases _ _ _ _ (by simp)]
        rfl
    · rcases draw_tilemap_mem _ _ _ _ _ _ _ _ _ hx with hx | ⟨hx, _⟩
      · simp [hx, Call.kind_base] at hk
      · rw [hx] at hk
        simp only [Call.kind_base, Option.some.injEq, Prod.mk.injEq] at hk
        rw [← hk.1, ← hk.2, set_get_bases _ _ _ _ (by simp)]
        rfl
  · intro b e st x hx k v hk
    unfold apple2_lores_draw at hx
    rcases draw_tilemap_mem _ _ _ _ _ _ _ _ _ hx with hx | ⟨hx, _⟩
    · simp [hx, Call.kind_base] at hk
    · rw [hx] at hk
      simp only [Call.kind_base, Option.some.injEq, Prod.mk.injEq] at hk
      rw [← hk.1, ← hk.2, set_get_bases _ _ _ _ (by simp)]
      rfl
  · intro b e st x hx k v hk
    obtain ⟨hx, _⟩ := hires_draw_mem _ _ _ _ _ _ _ _ hx
    rw [hx] at hk
    simp only [Call.kind_base, Option.some.injEq, Prod.mk.injEq] at hk
    rw [← hk.1, ← hk.2]
    rfl

/-- C4 witness: hi-res frame on page 1 with RAMRD set; the fan-out reads from
0x4000 + 0x10000. -/
theorem video_update_band_base_witness :
    (0x14000 : Int) = band_base ⟨0, 0, 0x80, 0, 0x80, 0x80⟩ BandKind.hires :=
  video_update_band_base ⟨fun _ => 0, 1⟩ ⟨0, 0, 0x80, 0, 0x80, 0x80⟩ ⟨0, 559, 0, 191⟩
    started_state (Call.osd_parallelize ⟨0x14000, 0, 192⟩ 192) (by decide) BandKind.hires
    0x14000 (by decide)

/-! ### Flag changes between frames -/

theorem set_videobase_old_a2 (s : State) (p : VideobaseRef) (v : Int) :
    (s.set_videobase p v).old_a2 = s.old_a2 := by
  cases p <;> rfl

theorem draw_tilemap_old_a2 (a2 : APPLE2_STRUCT) (c : rectangle) (b e : Int) (tm : TilemapRef)
    (raw : Int) (p : VideobaseRef) (s : State) :
    (apple2_draw_tilemap a2 c b e tm raw p s).old_a2 = s.old_a2 := by
  by_cases hE : min e c.max_y < max b c.min_y
  · rw [draw_tilemap_empty a2 c b e tm raw p s hE]
  · rw [draw_tilemap_nonempty a2 c b e tm raw p s hE]
    simp only [State.calls_append, set_videobase_old_a2]

theorem hires_draw_old_a2 (h : Host) (a2 : APPLE2_STRUCT) (c : rectangle) (page b e : Int)
    (s : State) : (apple2_hires_draw h a2 c page b e s).old_a2 = s.old_a2 := by
  by_cases hE : min e c.max_y < max b c.min_y
  · rw [hires_draw_empty h a2 c page b e s hE]
  · rw [hires_draw_nonempty h a2 c page b e s hE]
    rfl

theorem text_draw_old_a2 (a2 : APPLE2_STRUCT) (c : rectangle) (page b e : Int) (s : State) :
    (apple2_text_draw a2 c page b e s).old_a2 = s.old_a2 := by
  unfold apple2_text_draw
  split <;> exact draw_tilemap_old_a2 _ _ _ _ _ _ _ _

theorem lores_draw_old_a2 (a2 : APPLE2_STRUCT) (c : rectangle) (page b e : Int) (s : State) :
    (apple2_lores_draw a2 c page b e s).old_a2 = s.old_a2 :=
  draw_tilemap_old_a2 _ _ _ _ _ _ _ _

theorem video_update_draw_old_a2 (h : Host) (a2 : APPLE2_STRUCT) (c : rectangle) (page : Int)
    (s : State) : (video_update_draw h a2 c page s).old_a2 = s.old_a2 := by
  unfold video_update_draw
  simp only []
  split
  · exact text_draw_old_a2 _ _ _ _ _ _
  · split
    · rw [text_draw_old_a2, hires_draw_old_a2]
    · split
      · exact hires_draw_old_a2 _ _ _ _ _ _ _
      · split
        · rw [text_draw_old_a2, lores_draw_old_a2]
        · exact lores_draw_old_a2 _ _ _ _ _ _

/-- After the flag-change block the five compared flags are recorded. -/
theorem invalidate_old_a2 (a2 : APPLE2_STRUCT) (s : State) :
    (video_update_invalidate a2 s).old_a2.TEXT = a2.TEXT
      ∧ (video_update_invalidate a2 s).old_a2.MIXED = a2.MIXED
      ∧ (video_update_invalidate a2 s).old_a2.HIRES = a2.HIRES
      ∧ (video_update_invalidate a2 s).old_a2.COL80 = a2.COL80
      ∧ (video_update_invalidate a2 s).old_a2.PAGE2 = a2.PAGE2 := by
  unfold video_update_invalidate
  split
  · simp [State.call]
  · rename_i hno
    simp only [not_or, not_not] at hno
    obtain ⟨h1, h2, h3, h4, h5⟩ := hno
    exact ⟨h1.symm, h2.symm, h3.symm, h4.symm, h5.symm⟩

/-- C5 counterexample: a frame with all flags clear followed by a frame in
which only RAMRD has changed.  The second frame invalidates the lo-res map alone
(through the base comparison of `apple2_draw_tilemap`); the text and the
double-width text maps are not marked dirty. -/
theorem ramrd_change_counterexample :
    (⟨0, 0, 0, 0, 0, 0x80⟩ : APPLE2_STRUCT).RAMRD ≠ (⟨0, 0, 0, 0, 0, 0⟩ : APPLE2_STRUCT).RAMRD
      ∧ calls_since
          (video_update_apple2 ⟨fun _ => 0, 1⟩ ⟨0, 0, 0, 0, 0, 0⟩ ⟨0, 559, 0, 191⟩ started_state)
          (video_update_apple2 ⟨fun _ => 0, 1⟩ ⟨0, 0, 0, 0, 0, 0x80⟩ ⟨0, 559, 0, 191⟩
            (video_update_apple2 ⟨fun _ => 0, 1⟩ ⟨0, 0, 0, 0, 0, 0⟩ ⟨0, 559, 0, 191⟩
              started_state))
        = [Call.tilemap_mark_all_tiles_dirty TilemapRef.lores_tilemap,
           Call.tilemap_draw ⟨0, 559, 0, 191⟩ TilemapRef.lores_tilemap ⟨0, 0, 0x10400⟩] := by
  decide

/-- C5 (amended): whenever one of TEXT, MIXED, HIRES, COL80 or PAGE2 differs at a
`VIDEO_UPDATE( apple2 )` call from its value at the previous call, the first
three calls of that frame mark the text, double-width text and lo-res maps
fully dirty, ahead of every drawing call of the frame. -/
theorem flag_change_invalidates_all (h h' : Host) (a2 a2' : APPLE2_STRUCT) (c c' : rectangle)
    (s : State)
    (hdiff : a2'.TEXT ≠ a2.TEXT ∨ a2'.MIXED ≠ a2.MIXED ∨ a2'.HIRES ≠ a2.HIRES
      ∨ a2'.COL80 ≠ a2.COL80 ∨ a2'.PAGE2 ≠ a2.PAGE2) :
    (calls_since (video_update_apple2 h a2 c s)
        (video_update_apple2 h' a2' c' (video_update_apple2 h a2 c s))).take 3
      = [Call.tilemap_mark_all_tiles_dirty TilemapRef.text_tilemap,
         Call.tilemap_mark_all_tiles_dirty TilemapRef.dbltext_tilemap,
         Call.tilemap_mark_all_tiles_dirty TilemapRef.lores_tilemap] := by
  have hold : (video_update_apple2 h a2 c s).old_a2.TEXT = a2.TEXT
      ∧ (video_update_apple2 h a2 c s).old_a2.MIXED = a2.MIXED
      ∧ (video_update_apple2 h a2 c s).old_a2.HIRES = a2.HIRES
      ∧ (video_update_apple2 h a2 c s).old_a2.COL80 = a2.COL80
      ∧ (video_update_apple2 h a2 c s).old_a2.PAGE2 = a2.PAGE2 := by
    unfold video_update_apple2
    simp only []
    rw [video_update_draw_old_a2]
    exact invalidate_old_a2 a2 s
  generalize video_update_apple2 h a2 c s = s1 at hold ⊢
  obtain ⟨h1, h2, h3, h4, h5⟩ := hold
  have hcond : a2'.TEXT ≠ s1.old_a2.TEXT ∨ a2'.MIXED ≠ s1.old_a2.MIXED
      ∨ a2'.HIRES ≠ s1.old_a2.HIRES ∨ a2'.COL80 ≠ s1.old_a2.COL80
      ∨ a2'.PAGE2 ≠ s1.old_a2.PAGE2 := by
    rw [h1, h2, h3, h4, h5]
    exact hdiff
  unfold video_update_apple2
  simp only []
  rw [calls_since_trans (invalidate_extends a2' s1) (video_update_draw_extends _ _ _ _ _),
    calls_since_of_append _ _ _ (invalidate_calls a2' s1), if_pos hcond]
  rfl

/-- C5 witness: a frame with all flags clear followed by a frame with TEXT
set. -/
theorem flag_change_invalidates_all_witness :
    (calls_since
        (video_update_apple2 ⟨fun _ => 0, 1⟩ ⟨0, 0, 0, 0, 0, 0⟩ ⟨0, 559, 0, 191⟩ started_state)
        (video_update_apple2 ⟨fun _ => 0, 1⟩ ⟨0x80, 0, 0, 0, 0, 0⟩ ⟨0, 559, 0, 191⟩
          (video_update_apple2 ⟨fun _ => 0, 1⟩ ⟨0, 0, 0, 0, 0, 0⟩ ⟨0, 559, 0, 191⟩
            started_state))).take 3
      = [Call.tilemap_mark_all_tiles_dirty TilemapRef.text_tilemap,
         Call.tilemap_mark_all_tiles_dirty TilemapRef.dbltext_tilemap,
         Call.tilemap_mark_all_tiles_dirty TilemapRef.lores_tilemap] :=
  flag_change_invalidates_all ⟨fun _ => 0, 1⟩ ⟨fun _ => 0, 1⟩ ⟨0, 0, 0, 0, 0, 0⟩
    ⟨0x80, 0, 0, 0, 0, 0⟩ ⟨0, 559, 0, 191⟩ ⟨0, 559, 0, 191⟩ started_state
    (Or.inl (by decide))

/-! ### The dirty tracker -/

/-- C6: at the state reached by `VIDEO_START` and one lo-res frame on page 0
(text base 0, lo-res base 0x400), `apple2_video_touch(0x400)` marks memory
offset 0x400 in the lo-res map: the offset is taken relative to
`text_videobase`, where the spec asks for the map's own base, i.e. memory
offset 0x400 - 0x400 = 0. -/
theorem video_touch_lores_offset :
    lores_frame_state.text_videobase = 0
      ∧ lores_frame_state.dbltext_videobase = 0
      ∧ lores_frame_state.lores_videobase = 0x400
      ∧ calls_since lores_frame_state (apple2_video_touch 0x400 lores_frame_state)
        = [Call.tilemap_mark_tile_dirty TilemapRef.text_tilemap 0x400,
           Call.tilemap_mark_tile_dirty TilemapRef.dbltext_tilemap 0x400,
           Call.tilemap_mark_tile_dirty TilemapRef.lores_tilemap 0x400]
      ∧ Call.tilemap_mark_tile_dirty TilemapRef.lores_tilemap (0x400 - 0x400)
        ∉ calls_since lores_frame_state (apple2_video_touch 0x400 lores_frame_state) := by
  decide

/-- No tile of the 40 x 24 grid has memory offset 1413. -/
theorem text_offset_ne_1413 :
    ∀ row < 24, ∀ col < 40, apple2_text_getmemoryoffset col row 40 24 ≠ 1413 := by
  decide

/-- C7: a false negative of the dirty tracker.  In the state reached by
`VIDEO_START` and one lo-res frame on page 0, the lo-res tile at column 5, row 3
has memory offset 389 and its tile-info callback reads `mess_ram[0x400 + 389]`
(its result changes with that byte); `apple2_video_touch(0x400 + 389)` marks
memory offset 1413 in the lo-res map, which is the offset of no tile, and does
not mark memory offset 389. -/
theorem video_touch_false_negative :
    apple2_text_getmemoryoffset 5 3 40 24 = 389
      ∧ lores_frame_state.lores_videobase + 389 = 1413
      ∧ apple2_lores_gettileinfo ⟨fun a => if a = 1413 then 0x21 else 0, 1⟩ lores_frame_state 389
        ≠ apple2_lores_gettileinfo ⟨fun _ => 0, 1⟩ lores_frame_state 389
      ∧ calls_since lores_frame_state (apple2_video_touch 1413 lores_frame_state)
        = [Call.tilemap_mark_tile_dirty TilemapRef.text_tilemap 1413,
           Call.tilemap_mark_tile_dirty TilemapRef.dbltext_tilemap 1413,
           Call.tilemap_mark_tile_dirty TilemapRef.lores_tilemap 1413]
      ∧ Call.tilemap_mark_tile_dirty TilemapRef.lores_tilemap 389
        ∉ calls_since lores_frame_state (apple2_video_touch 1413 lores_frame_state)
      ∧ ∀ row < 24, ∀ col < 40, apple2_text_getmemoryoffset col row 40 24 ≠ 1413 := by
  refine ⟨by decide, by decide, by decide, by decide, by decide, text_offset_ne_1413⟩

/-! ### Pixel stores of the hi-res renderer -/

theorem length_flatMap_const {α β : Type} (l : List α) (f : α → List β) (k : Nat)
    (hf : ∀ a, (f a).length = k) : (l.flatMap f).length = l.length * k := by
  induction l with
  | nil => simp
  | cons a l ih =>
    rw [List.flatMap_cons, List.length_append, ih, hf, List.length_cons]
    ring

/-- Each scanline stores exactly 560 values. -/
theorem hires_row_values_length (am : Option (List Nat)) (vram_row : List Nat) :
    (hires_row_values am vram_row).length = 560 := by
  unfold hires_row_values
  rw [length_flatMap_const _ _ 14]
  · simp
  · intro col
    simp only []
    rw [length_flatMap_const _ _ 2]
    · simp
    · intro b
      rfl

/-- The stores of scanline `row` go to `bitmap->line[row]`, positions 0-559. -/
theorem hires_row_stores_mem (h : Host) (am : Option (List Nat)) (vram : Int) (row : Int)
    (st : Store) (hst : st ∈ hires_row_stores h am vram row) : st.y = row ∧ st.x < 560 := by
  unfold hires_row_stores at hst
  rw [List.mem_map] at hst
  obtain ⟨xv, hxv, rfl⟩ := hst
  have hlt := List.fst_lt_of_mem_enum hxv
  rw [hires_row_values_length] at hlt
  exact ⟨rfl, hlt⟩

/-! ### Band arithmetic in `int` -/

/-- The C division of lines 164-165 on non-negative operands. -/
theorem tdiv_cast (R t N : Nat) :
    ((R : Int) * (t : Int)).tdiv (N : Int) = ((R * t / N : Nat) : Int) := by
  rw [Int.tdiv_eq_ediv (Int.mul_nonneg (Int.ofNat_nonneg R) (Int.ofNat_nonneg t))
    (Int.ofNat_nonneg N)]
  push_cast
  rfl

/-- A value in the `int` range is its own 32-bit reduction. -/
theorem int32_of_range (x : Int) (h1 : -2 ^ 31 ≤ x) (h2 : x < 2 ^ 31) : int32 x = x := by
  unfold int32 to_int to_u32
  split_ifs <;> omega

/-- When `rowcount * N` fits an `int`, the product and quotient of lines 164-165
are exact for every task number up to `N`, and the quotient lies between 0 and
the row count. -/
theorem band_quotient_exact (rc : Int) (t N : Nat) (ht : t ≤ N)
    (hlo : -2 ^ 31 < rc * (N : Int)) (hhi : rc * (N : Int) < 2 ^ 31) :
    int32 ((int32 (rc * (t : Int))).tdiv (N : Int)) = (rc * (t : Int)).tdiv (N : Int)
      ∧ min 0 rc ≤ (rc * (t : Int)).tdiv (N : Int)
      ∧ (rc * (t : Int)).tdiv (N : Int) ≤ max 0 rc := by
  have key : ∀ R : Nat, R * N < 2 ^ 31 →
      R * t < 2 ^ 31 ∧ R * t / N ≤ R ∧ R * t / N < 2 ^ 31 := by
    intro R hRN
    have hRt : R * t ≤ R * N := Nat.mul_le_mul_left R ht
    have hp : R * t < 2 ^ 31 := lt_of_le_of_lt hRt hRN
    exact ⟨hp, Nat.div_le_of_le_mul (by rw [Nat.mul_comm N R]; exact hRt),
      lt_of_le_of_lt (Nat.div_le_self _ _) hp⟩
  by_cases hrc : 0 ≤ rc
  · obtain ⟨R, rfl⟩ := Int.eq_ofNat_of_zero_le hrc
    obtain ⟨hp, hq, hq3⟩ := key R (by exact_mod_cast hhi)
    have e : (R : Int) * (t : Int) = ((R * t : Nat) : Int) := by push_cast; rfl
    have i1 : int32 ((R : Int) * (t : Int)) = (R : Int) * (t : Int) := by
      rw [e]
      generalize R * t = p at hp
      exact int32_of_range _ (by omega) (by omega)
    rw [i1, tdiv_cast]
    generalize R * t / N = q at hq hq3
    rw [int32_of_range _ (by omega) (by omega)]
    omega
  · obtain ⟨R, rfl⟩ : ∃ R : Nat, rc = -(R : Int) := ⟨(-rc).toNat, by omega⟩
    have hRN : R * N < 2 ^ 31 := by
      have : ((R * N : Nat) : Int) < 2 ^ 31 := by push_cast; linarith
      exact_mod_cast this
    obtain ⟨hp, hq, hq3⟩ := key R hRN
    have e : -(R : Int) * (t : Int) = -((R * t : Nat) : Int) := by push_cast; ring
    have i1 : int32 (-(R : Int) * (t : Int)) = -(R : Int) * (t : Int) := by
      rw [e]
      generalize R * t = p at hp
      exact int32_of_range _ (by omega) (by omega)
    rw [i1, Int.neg_mul, Int.neg_tdiv, tdiv_cast]
    generalize R * t / N = q at hq hq3
    rw [int32_of_range _ (by omega) (by omega)]
    omega

/-- Without overflow the first scanline of a band is the exact value of line
164. -/
theorem task_beginrow_exact (param : drawtask_params) (t N : Nat) (ht : t ≤ N)
    (hfit : bands_fit_int param N) :
    task_beginrow param (t : Int) (N : Int)
      = param.beginrow + (param.rowcount * (t : Int)).tdiv (N : Int) := by
  obtain ⟨_, hb1, hb2, he1, he2, hlo, hhi⟩ := hfit
  obtain ⟨e, q1, q2⟩ := band_quotient_exact param.rowcount t N ht hlo hhi
  unfold task_beginrow
  rw [e]
  generalize (param.rowcount * (t : Int)).tdiv (N : Int) = q at q1 q2
  exact int32_of_range _ (by omega) (by omega)

/-- Without overflow the last scanline of a band is the exact value of line
165. -/
theorem task_endrow_exact (param : drawtask_params) (t N : Nat) (ht : t < N)
    (hfit : bands_fit_int param N) :
    task_endrow param (t : Int) (N : Int)
      = param.beginrow + (param.rowcount * ((t : Int) + 1)).tdiv (N : Int) - 1 := by
  obtain ⟨hN, hb1, hb2, he1, he2, hlo, hhi⟩ := hfit
  obtain ⟨e, q1, q2⟩ := band_quotient_exact param.rowcount (t + 1) N ht hlo hhi
  have e1 : (((t + 1 : Nat) : Int)) = (t : Int) + 1 := by push_cast; rfl
  rw [e1] at e q1 q2
  unfold task_endrow
  rw [int32_of_range ((t : Int) + 1) (by omega) (by omega), e]
  generalize (param.rowcount * ((t : Int) + 1)).tdiv (N : Int) = q at q1 q2
  rw [int32_of_range (param.beginrow + q) (by omega) (by omega)]
  exact int32_of_range _ (by omega) (by omega)

/-- A fan-out that fits `int` for `N >= 1` bands fits it for a single band. -/
theorem bands_fit_int_one (param : drawtask_params) (N : Nat) (hN : 1 ≤ N)
    (hfit : bands_fit_int param N) : bands_fit_int param 1 := by
  obtain ⟨hN', hb1, hb2, he1, he2, hlo, hhi⟩ := hfit
  have h1 : (1 : Int) ≤ (N : Int) := by exact_mod_cast hN
  refine ⟨by norm_num, hb1, hb2, he1, he2, ?_, ?_⟩
  · push_cast
    by_cases hrc : 0 ≤ param.rowcount
    · omega
    · have := Int.mul_le_mul_of_nonpos_left (show param.rowcount ≤ 0 by omega) h1
      omega
  · push_cast
    by_cases hrc : 0 ≤ param.rowcount
    · have := Int.mul_le_mul_of_nonneg_left h1 hrc
      omega
    · omega

/-- The loop of line 170 visits the scanlines `beginrow .. endrow` of the
band. -/
theorem mem_task_rows (param : drawtask_params) (t n r : Int) :
    r ∈ task_rows param t n ↔ task_beginrow param t n ≤ r ∧ r ≤ task_endrow param t n := by
  unfold task_rows
  rw [List.mem_map]
  constructor
  · rintro ⟨k, hk, rfl⟩
    rw [List.mem_range] at hk
    omega
  · rintro ⟨h1, h2⟩
    refine ⟨(r - task_beginrow param t n).toNat, ?_, ?_⟩
    · rw [List.mem_range]
      omega
    · omega

/-- The stores of worker band `t` of `n` stay within the scanlines
`beginrow .. beginrow + rowcount - 1` of the fan-out, when the band arithmetic
does not overflow. -/
theorem hires_task_stores_mem (h : Host) (am : Option (List Nat)) (param : drawtask_params)
    (t n : Nat) (ht : t < n) (hrc : 0 ≤ param.rowcount) (hfit : bands_fit_int param n)
    (st : Store) (hst : st ∈ hires_task_stores h am param (t : Int) (n : Int)) :
    param.beginrow ≤ st.y ∧ st.y ≤ param.beginrow + param.rowcount - 1 ∧ st.x < 560 := by
  change st ∈ (task_rows param (t : Int) (n : Int)).flatMap
    (hires_row_stores h am param.vram) at hst
  rw [List.mem_flatMap] at hst
  obtain ⟨row, hrow, hmem⟩ := hst
  obtain ⟨hy, hx⟩ := hires_row_stores_mem _ _ _ _ _ hmem
  rw [mem_task_rows, task_beginrow_exact param t n (Nat.le_of_lt ht) hfit,
    task_endrow_exact param t n ht hfit] at hrow
  have hn : (0 : Int) < (n : Int) := by omega
  have h1 : 0 ≤ (param.rowcount * (t : Int)).tdiv (n : Int) :=
    Int.tdiv_nonneg (Int.mul_nonneg hrc (by omega)) (by omega)
  have h2 : (param.rowcount * ((t : Int) + 1)).tdiv (n : Int) ≤ param.rowcount := by
    rw [Int.tdiv_eq_ediv (Int.mul_nonneg hrc (by omega)) (by omega)]
    have hle : param.rowcount * ((t : Int) + 1) ≤ param.rowcount * (n : Int) :=
      Int.mul_le_mul_of_nonneg_left (by omega) hrc
    calc param.rowcount * ((t : Int) + 1) / (n : Int)
        ≤ param.rowcount * (n : Int) / (n : Int) := Int.ediv_le_ediv hn hle
      _ = param.rowcount := Int.mul_ediv_cancel _ (by omega)
  rw [hy]
  refine ⟨by omega, ?_, hx⟩
  omega

/-- The stores of a fan-out stay within its scanlines, when the band arithmetic
does not overflow. -/
theorem hires_stores_mem (h : Host) (am : Option (List Nat)) (param : drawtask_params)
    (hrc : 0 ≤ param.rowcount) (hfit : bands_fit_int param h.task_count) (st : Store)
    (hst : st ∈ hires_stores h am param) :
    param.beginrow ≤ st.y ∧ st.y ≤ param.beginrow + param.rowcount - 1 ∧ st.x < 560 := by
  unfold hires_stores at hst
  simp only [List.mem_flatMap, List.mem_range] at hst
  obtain ⟨t, ht, hmem⟩ := hst
  exact hires_task_stores_mem h am param t h.task_count ht hrc hfit st hmem

theorem stores_since_of_append (s s' : State) (ps : List Store)
    (h : s'.stores = s.stores ++ ps) : stores_since s s' = ps := by
  simp [stores_since, h]

theorem stores_since_self (s : State) : stores_since s s = [] := by
  simp [stores_since]

/-- The stores of `apple2_hires_draw`: none when the clipped band is empty,
otherwise those of the fan-out over the clipped band. -/
theorem hires_draw_stores (h : Host) (a2 : APPLE2_STRUCT) (c : rectangle) (page b e : Int)
    (s : State) :
    stores_since s (apple2_hires_draw h a2 c page b e s)
      = if min e c.max_y < max b c.min_y then []
        else hires_stores h s.artifact_map
          ⟨effective_base a2 (if page ≠ 0 then 0x4000 else 0x2000), max b c.min_y,
            (min e c.max_y + 1) - max b c.min_y⟩ := by
  by_cases hE : min e c.max_y < max b c.min_y
  · rw [hires_draw_empty h a2 c page b e s hE, if_pos hE, stores_since_self]
  · rw [hires_draw_nonempty h a2 c page b e s hE, if_neg hE]
    exact stores_since_of_append _ _ _ rfl

theorem set_videobase_stores (s : State) (p : VideobaseRef) (v : Int) :
    (s.set_videobase p v).stores = s.stores := by
  cases p <;> rfl

theorem draw_tilemap_stores (a2 : APPLE2_STRUCT) (c : rectangle) (b e : Int) (tm : TilemapRef)
    (raw : Int) (p : VideobaseRef) (s : State) :
    (apple2_draw_tilemap a2 c b e tm raw p s).stores = s.stores := by
  by_cases hE : min e c.max_y < max b c.min_y
  · rw [draw_tilemap_empty a2 c b e tm raw p s hE]
  · rw [draw_tilemap_nonempty a2 c b e tm raw p s hE]
    simp only [State.calls_append, set_videobase_stores]

theorem text_draw_stores (a2 : APPLE2_STRUCT) (c : rectangle) (page b e : Int) (s : State) :
    (apple2_text_draw a2 c page b e s).stores = s.stores := by
  unfold apple2_text_draw
  split <;> exact draw_tilemap_stores _ _ _ _ _ _ _ _

theorem lores_draw_stores (a2 : APPLE2_STRUCT) (c : rectangle) (page b e : Int) (s : State) :
    (apple2_lores_draw a2 c page b e s).stores = s.stores :=
  draw_tilemap_stores _ _ _ _ _ _ _ _

theorem invalidate_stores (a2 : APPLE2_STRUCT) (s : State) :
    (video_update_invalidate a2 s).stores = s.stores := by
  unfold video_update_invalidate
  split <;> rfl

theorem stores_since_congr (s s0 s' : State) (h : s0.stores = s.stores) :
    stores_since s s' = stores_since s0 s' := by
  unfold stores_since
  rw [h]

/-- The fan-out of a band clipped to a rectangle that fits `int` fits `int`. -/
theorem clip_fits_bands (h : Host) (c : rectangle) (vram b e : Int) (hfit : clip_fits_int h c)
    (hE : ¬ min e c.max_y < max b c.min_y) :
    bands_fit_int ⟨vram, max b c.min_y, (min e c.max_y + 1) - max b c.min_y⟩ h.task_count := by
  obtain ⟨hN, hmin, hmax, hov⟩ := hfit
  have hn : (0 : Int) ≤ (h.task_count : Int) := Int.ofNat_nonneg _
  have hrc : 0 ≤ (min e c.max_y + 1) - max b c.min_y := by omega
  have hle : (min e c.max_y + 1) - max b c.min_y ≤ c.max_y + 1 - c.min_y := by omega
  have h0 := Int.mul_nonneg hrc hn
  have h1 := Int.mul_le_mul_of_nonneg_right hle hn
  unfold bands_fit_int
  simp only []
  generalize ((min e c.max_y + 1) - max b c.min_y) * (h.task_count : Int) = p at h0 h1
  generalize (c.max_y + 1 - c.min_y) * (h.task_count : Int) = q at h1 hov
  omega

/-- The stores of `apple2_hires_draw` lie on scanlines of both the band and the
clip rectangle, at positions 0-559, when the band arithmetic does not
overflow. -/
theorem hires_draw_stores_mem (h : Host) (a2 : APPLE2_STRUCT) (c : rectangle) (page b e : Int)
    (s : State) (hfit : clip_fits_int h c) (st : Store)
    (hst : st ∈ stores_since s (apple2_hires_draw h a2 c page b e s)) :
    c.min_y ≤ st.y ∧ st.y ≤ c.max_y ∧ b ≤ st.y ∧ st.y ≤ e ∧ st.x < 560 := by
  rw [hires_draw_stores] at hst
  by_cases hE : min e c.max_y < max b c.min_y
  · simp [hE] at hst
  · rw [if_neg hE] at hst
    have hm := hires_stores_mem h s.artifact_map _ (by simp only []; omega)
      (clip_fits_bands h c _ b e hfit hE) st hst
    simp only [] at hm
    omega

/-- The stores of a frame lie on scanlines of the clip rectangle and of the
frame, at positions 0-559. -/
theorem video_update_stores_mem (h : Host) (a2 : APPLE2_STRUCT) (c : rectangle) (s : State)
    (hfit : clip_fits_int h c) (st : Store)
    (hst : st ∈ stores_since s (video_update_apple2 h a2 c s)) :
    c.min_y ≤ st.y ∧ st.y ≤ c.max_y ∧ 0 ≤ st.y ∧ st.y ≤ 191 ∧ st.x < 560 := by
  unfold video_update_apple2 at hst
  simp only [] at hst
  rw [stores_since_congr s (video_update_invalidate a2 s) _ (invalidate_stores a2 s)] at hst
  generalize video_update_invalidate a2 s = s0 at hst
  unfold video_update_draw at hst
  simp only [] at hst
  split at hst
  · simp [stores_since, text_draw_stores] at hst
  · split at hst
    · have hm := hires_draw_stores_mem h a2 c (a2.PAGE2 >>> 7) 0 159 s0 hfit st
        (by simpa [stores_since, text_draw_stores] using hst)
      omega
    · split at hst
      · have hm := hires_draw_stores_mem h a2 c (a2.PAGE2 >>> 7) 0 191 s0 hfit st hst
        omega
      · split at hst
        · simp [stores_since, text_draw_stores, lores_draw_stores] at hst
        · simp [stores_since, lores_draw_stores] at hst

/-- C9: if the intersection of the band `[beginrow, endrow]` with the scanlines
`[min_y, max_y]` of the clip rectangle is empty, `apple2_draw_tilemap` and
`apple2_hires_draw` return the state they were given: no call is recorded (no
tile map marked dirty, no tile-map draw, no worker fan-out), no pixel is stored
and the recorded video bases are unchanged. -/
theorem empty_band_noop (h : Host) (a2 : APPLE2_STRUCT) (c : rectangle) (page b e : Int)
    (tm : TilemapRef) (raw : Int) (p : VideobaseRef) (s : State)
    (hempty : min e c.max_y < max b c.min_y) :
    apple2_draw_tilemap a2 c b e tm raw p s = s
      ∧ apple2_hires_draw h a2 c page b e s = s
      ∧ calls_since s (apple2_draw_tilemap a2 c b e tm raw p s) = []
      ∧ calls_since s (apple2_hires_draw h a2 c page b e s) = []
      ∧ stores_since s (apple2_hires_draw h a2 c page b e s) = []
      ∧ (apple2_draw_tilemap a2 c b e tm raw p s).get_videobase p = s.get_videobase p := by
  rw [draw_tilemap_empty a2 c b e tm raw p s hempty, hires_draw_empty h a2 c page b e s hempty]
  exact ⟨rfl, rfl, calls_since_self s, calls_since_self s, stores_since_self s, rfl⟩

/-- C9 witness: the text band 160-191 of a mixed frame against a clip rectangle
covering scanlines 0-100 only. -/
theorem empty_band_noop_witness :
    apple2_draw_tilemap ⟨0, 0x80, 0, 0, 0, 0x80⟩ ⟨0, 559, 0, 100⟩ 160 191 TilemapRef.text_tilemap
        0x400 VideobaseRef.text_videobase started_state = started_state
      ∧ apple2_hires_draw ⟨fun _ => 0, 1⟩ ⟨0, 0x80, 0, 0, 0, 0x80⟩ ⟨0, 559, 0, 100⟩ 0 160 191
        started_state = started_state :=
  ⟨(empty_band_noop ⟨fun _ => 0, 1⟩ ⟨0, 0x80, 0, 0, 0, 0x80⟩ ⟨0, 559, 0, 100⟩ 0 160 191
      TilemapRef.text_tilemap 0x400 VideobaseRef.text_videobase started_state (by decide)).1,
   (empty_band_noop ⟨fun _ => 0, 1⟩ ⟨0, 0x80, 0, 0, 0, 0x80⟩ ⟨0, 559, 0, 100⟩ 0 160 191
      TilemapRef.text_tilemap 0x400 VideobaseRef.text_videobase started_state (by decide)).2.1⟩

theorem set_get_videobase (s : State) (p : VideobaseRef) (v : Int) :
    (s.set_videobase p v).get_videobase p = v := by
  cases p <;> rfl

theorem bases_get (s : State) (p : VideobaseRef) : s.bases.get p = s.get_videobase p := by
  cases p <;> rfl

/-- C10: whenever `apple2_draw_tilemap` draws (the clipped band is not empty),
its calls are, in order, a full invalidation of the map if and only if the
recorded base differed from the effective base (raw base plus 0x10000 under
RAMRD) on entry, then the tile-map draw; and the recorded video base, both in
the statics seen by that draw and on return, equals the effective base. -/
theorem draw_tilemap_base_invariant (a2 : APPLE2_STRUCT) (c : rectangle) (b e : Int)
    (tm : TilemapRef) (raw : Int) (p : VideobaseRef) (s : State)
    (hne : ¬ min e c.max_y < max b c.min_y) :
    ∃ bases : Videobases,
      calls_since s (apple2_draw_tilemap a2 c b e tm raw p s)
          = (if s.get_videobase p ≠ effective_base a2 raw
              then [Call.tilemap_mark_all_tiles_dirty tm] else [])
            ++ [Call.tilemap_draw ⟨c.min_x, c.max_x, max b c.min_y, min e c.max_y⟩ tm bases]
        ∧ bases.get p = effective_base a2 raw
        ∧ (apple2_draw_tilemap a2 c b e tm raw p s).get_videobase p = effective_base a2 raw := by
  refine ⟨(s.set_videobase p (effective_base a2 raw)).bases, ?_, ?_, ?_⟩
  · rw [calls_since_of_append _ _ _ (draw_tilemap_calls a2 c b e tm raw p s), if_neg hne]
    by_cases hb : effective_base a2 raw = s.get_videobase p
    · rw [if_neg (not_not.mpr hb), if_neg (not_not.mpr hb.symm)]
    · rw [if_pos hb, if_pos (fun h => hb h.symm)]
  · rw [bases_get, set_get_videobase]
  · rw [draw_tilemap_nonempty a2 c b e tm raw p s hne]
    exact set_get_videobase s p _

/-- C10 witness: the lo-res map drawn on page 1 with RAMRD set from the state
after start-up (recorded base 0): one full invalidation, then the draw, with
base 0x10800. -/
theorem draw_tilemap_base_invariant_witness :
    ∃ bases : Videobases,
      calls_since started_state
          (apple2_draw_tilemap ⟨0, 0, 0, 0, 0x80, 0x80⟩ ⟨0, 559, 0, 191⟩ 0 191
            TilemapRef.lores_tilemap 0x800 VideobaseRef.lores_videobase started_state)
          = (if started_state.get_videobase VideobaseRef.lores_videobase
                ≠ effective_base ⟨0, 0, 0, 0, 0x80, 0x80⟩ 0x800
              then [Call.tilemap_mark_all_tiles_dirty TilemapRef.lores_tilemap] else [])
            ++ [Call.tilemap_draw ⟨0, 559, max 0 0, min 191 191⟩ TilemapRef.lores_tilemap bases]
        ∧ bases.get VideobaseRef.lores_videobase = effective_base ⟨0, 0, 0, 0, 0x80, 0x80⟩ 0x800
        ∧ (apple2_draw_tilemap ⟨0, 0, 0, 0, 0x80, 0x80⟩ ⟨0, 559, 0, 191⟩ 0 191
            TilemapRef.lores_tilemap 0x800 VideobaseRef.lores_videobase
            started_state).get_videobase VideobaseRef.lores_videobase
          = effective_base ⟨0, 0, 0, 0, 0x80, 0x80⟩ 0x800 :=
  draw_tilemap_base_invariant ⟨0, 0, 0, 0, 0x80, 0x80⟩ ⟨0, 559, 0, 191⟩ 0 191
    TilemapRef.lores_tilemap 0x800 VideobaseRef.lores_videobase started_state (by decide)

/-! ### Start-up -/

/-- The artifact table the start-up loops build. -/
theorem build_artifact_map_eq :
    build_artifact_map (List.replicate 32 0)
      = [BLACK, BLACK, PURPLE, WHITE, BLACK, GREEN, WHITE, WHITE,
         BLACK, BLACK, GREEN, WHITE, BLACK, PURPLE, WHITE, WHITE,
         BLACK, BLACK, BLUE, WHITE, BLACK, ORANGE, WHITE, WHITE,
         BLACK, BLACK, ORANGE, WHITE, BLACK, BLUE, WHITE, WHITE] := by
  decide

/-- What a successful `VIDEO_START( apple2 )` (return value 0) leaves behind. -/
theorem video_start_success (al : Allocs) (s s' : State)
    (hs : video_start_apple2 al s = some (0, s')) :
    s'.artifact_map = some (build_artifact_map (List.replicate 32 0))
      ∧ s'.lores_tiledata = some (List.replicate 56 0 ++ List.replicate 56 1)
      ∧ s'.text_videobase = 0 ∧ s'.lores_videobase = 0
      ∧ s'.dbltext_videobase = s.dbltext_videobase
      ∧ s'.old_a2 = ⟨0, 0, 0, 0, 0, 0⟩
      ∧ s'.calls = s.calls ∧ s'.stores = s.stores := by
  obtain ⟨a, b, c, d, e⟩ := al
  cases a <;> cases b <;> cases c <;> cases d <;> cases e <;>
    simp [video_start_apple2] at hs <;>
    subst hs <;>
    exact ⟨rfl, rfl, rfl, rfl, rfl, rfl, rfl, rfl⟩

theorem video_start_all_ok :
    video_start_apple2 ⟨true, true, true, true, true⟩ State.initial = some (0, started_state) := by
  decide

/-- C11: after `VIDEO_START( apple2 )` succeeds, artifact-map entries 0 and 16
are BLACK (0) and entries 7, 15, 23 and 31 (neighbourhood code 7, both
sub-positions, both colour sets) are WHITE (15). -/
theorem artifact_map_black_white (al : Allocs) (s s' : State)
    (hs : video_start_apple2 al s = some (0, s')) :
    read_table s'.artifact_map 0 = BLACK ∧ read_table s'.artifact_map 16 = BLACK
      ∧ read_table s'.artifact_map 7 = WHITE ∧ read_table s'.artifact_map 15 = WHITE
      ∧ read_table s'.artifact_map 23 = WHITE ∧ read_table s'.artifact_map 31 = WHITE
      ∧ BLACK = 0 ∧ WHITE = 15 := by
  rw [(video_start_success al s s' hs).1, build_artifact_map_eq]
  decide

/-- C11 witness: start-up from zeroed statics with every allocation
succeeding. -/
theorem artifact_map_black_white_witness :
    read_table started_state.artifact_map 0 = BLACK
      ∧ read_table started_state.artifact_map 16 = BLACK
      ∧ read_table started_state.artifact_map 7 = WHITE
      ∧ read_table started_state.artifact_map 15 = WHITE
      ∧ read_table started_state.artifact_map 23 = WHITE
      ∧ read_table started_state.artifact_map 31 = WHITE
      ∧ BLACK = 0 ∧ WHITE = 15 :=
  artifact_map_black_white ⟨true, true, true, true, true⟩ State.initial started_state
    video_start_all_ok

/-- C12: after `VIDEO_START( apple2 )` succeeds, for every neighbourhood code
`i` in 0..7, sub-position `j` in 0..1 and colour set `cs` in 0..1, entry
`16*cs + 8*j + i` of the artifact map is the colour of the documented rule;
entries 0-15 take values in BLACK, PURPLE, GREEN, WHITE only and entries 16-31
in BLACK, BLUE, ORANGE, WHITE only. -/
theorem artifact_map_rule (al : Allocs) (s s' : State)
    (hs : video_start_apple2 al s = some (0, s')) :
    (∀ cs < 2, ∀ j < 2, ∀ i < 8,
        read_table s'.artifact_map (16 * cs + 8 * j + i) = documented_artifact_entry cs j i)
      ∧ (∀ n < 16, read_table s'.artifact_map n = BLACK ∨ read_table s'.artifact_map n = PURPLE
          ∨ read_table s'.artifact_map n = GREEN ∨ read_table s'.artifact_map n = WHITE)
      ∧ (∀ n < 16, read_table s'.artifact_map (16 + n) = BLACK
          ∨ read_table s'.artifact_map (16 + n) = BLUE
          ∨ read_table s'.artifact_map (16 + n) = ORANGE
          ∨ read_table s'.artifact_map (16 + n) = WHITE) := by
  rw [(video_start_success al s s' hs).1, build_artifact_map_eq]
  refine ⟨by decide, by decide, by decide⟩

/-- C12 witness: a lone pixel (code 2) at sub-position 1 in colour set 1 is
ORANGE, entry 26. -/
theorem artifact_map_rule_witness :
    read_table started_state.artifact_map (16 * 1 + 8 * 1 + 2) = ORANGE :=
  ((artifact_map_rule ⟨true, true, true, true, true⟩ State.initial started_state
    video_start_all_ok).1 1 (by decide) 1 (by decide) 2 (by decide)).trans (by decide)

/-! ### The pixels of a hi-res scanline -/

theorem and_127 (a : Nat) : a &&& 0x7f = a % 128 := Nat.and_pow_two_sub_one_eq_mod a 7

theorem and_7 (a : Nat) : a &&& 0x07 = a % 8 := Nat.and_pow_two_sub_one_eq_mod a 3

theorem and_1 (a : Nat) : a &&& 0x01 = a % 2 := Nat.and_pow_two_sub_one_eq_mod a 1

theorem or_shift_7 (a b : Nat) (ha : a < 128) : a ||| (b <<< 7) = a + 128 * b := by
  rw [Nat.or_comm, Nat.shiftLeft_eq, Nat.mul_comm b, ← Nat.mul_add_lt_is_or (by simpa using ha)]
  omega

theorem or_shift_14 (a b : Nat) (ha : a < 16384) : a ||| (b <<< 14) = a + 16384 * b := by
  rw [Nat.or_comm, Nat.shiftLeft_eq, Nat.mul_comm b, ← Nat.mul_add_lt_is_or (by simpa using ha)]
  omega

theorem or_shift_3 (a b : Nat) (ha : a < 8) : a ||| (b <<< 3) = a + 8 * b := by
  rw [Nat.or_comm, Nat.shiftLeft_eq, Nat.mul_comm b, ← Nat.mul_add_lt_is_or (by simpa using ha)]
  omega

/-- The 21-bit window of line 182 as a sum. -/
theorem window_eq (x y z : Nat) :
    ((x &&& 0x7f) <<< 0) ||| ((y &&& 0x7f) <<< 7) ||| ((z &&& 0x7f) <<< 14)
      = x % 128 + 128 * (y % 128) + 16384 * (z % 128) := by
  rw [and_127, and_127, and_127, Nat.shiftLeft_zero, or_shift_7 _ _ (Nat.mod_lt _ (by norm_num)),
    or_shift_14 _ _ (by omega)]

/-- The three-bit neighbourhood code of line 190 in terms of the bits of the
three bytes of the window. -/
theorem window_code (x y z b : Nat) (hb : b < 7) :
    ((((x &&& 0x7f) <<< 0) ||| ((y &&& 0x7f) <<< 7) ||| ((z &&& 0x7f) <<< 14)) >>> (b + 7 - 1))
        &&& 0x07
      = (if b = 0 then (x >>> 6) &&& 1 else (y >>> (b - 1)) &&& 1)
        + 2 * ((y >>> b) &&& 1)
        + 4 * (if b = 6 then (z >>> 0) &&& 1 else (y >>> (b + 1)) &&& 1) := by
  rw [window_eq, and_7]
  simp only [and_1, Nat.shiftRight_eq_div_pow]
  interval_cases b <;> norm_num <;> omega

set_option maxRecDepth 8000 in
theorem colour_set_bit : ∀ y < 256, (y &&& 0x80) >>> 7 = (y >>> 7) &&& 1 := by
  decide

/-- Entry `i + 1` of the working row is byte `i` of the scanline for `i < 40`
and the zero padding otherwise. -/
theorem vram_row_getD_succ (h : Host) (vram row : Int) (i : Nat) :
    (hires_vram_row h vram row).getD (i + 1) 0
      = if i < 40 then scanline_byte h vram row i else 0 := by
  unfold hires_vram_row
  rw [List.cons_append, List.getD_cons_succ]
  by_cases hi : i < 40
  · rw [if_pos hi, List.getD_append _ _ _ _ (by simpa using hi),
      List.getD_eq_getElem _ _ (by simpa using hi)]
    simp [scanline_byte]
  · rw [if_neg hi, List.getD_append_right _ _ _ _ (by simp; omega)]
    simp only [List.length_map, List.length_range]
    rcases Nat.eq_zero_or_pos (i - 40) with h0 | h0
    · rw [h0]; rfl
    · rw [List.getD_eq_default _ _ (by simp only [List.length_singleton]; omega)]

theorem vram_row_getD_zero (h : Host) (vram row : Int) :
    (hires_vram_row h vram row).getD 0 0 = 0 := rfl

theorem scanline_bit_of_lt (bytes : Nat → Nat) (col b : Nat) (hc : col < 40) (hb : b < 7) :
    scanline_bit bytes ((7 * col + b : Nat) : Int) = (bytes col >>> b) &&& 1 := by
  unfold scanline_bit
  rw [if_pos (by omega), Int.toNat_ofNat]
  have h1 : (7 * col + b) / 7 = col := by omega
  have h2 : (7 * col + b) % 7 = b := by omega
  rw [h1, h2]

theorem scanline_byte_lt (h : Host) (vram row : Int) (col : Nat) :
    scanline_byte h vram row col < 256 :=
  Nat.mod_lt _ (by norm_num)

/-- The left neighbour bit of bit `b` of byte `col`, read off the working row,
is bit `k - 1` of the scanline. -/
theorem left_bit_eq (h : Host) (vram row : Int) (col b : Nat) (hc : col < 40) (hb : b < 7) :
    (if b = 0 then ((hires_vram_row h vram row).getD (col + 0) 0 >>> 6) &&& 1
      else (scanline_byte h vram row col >>> (b - 1)) &&& 1)
      = scanline_bit (scanline_byte h vram row) (((7 * col + b : Nat) : Int) - 1) := by
  by_cases hb0 : b = 0
  · subst hb0
    rw [if_pos rfl]
    cases col with
    | zero =>
      rw [Nat.add_zero, vram_row_getD_zero]
      unfold scanline_bit
      rw [if_neg (by omega)]
      rfl
    | succ c =>
      have e : (((7 * (c + 1) + 0 : Nat) : Int) - 1) = ((7 * c + 6 : Nat) : Int) := by
        push_cast; ring
      rw [e, scanline_bit_of_lt _ c 6 (by omega) (by norm_num), Nat.add_zero,
        vram_row_getD_succ, if_pos (by omega)]
  · rw [if_neg hb0]
    have e : (((7 * col + b : Nat) : Int) - 1) = ((7 * col + (b - 1) : Nat) : Int) := by
      omega
    rw [e, scanline_bit_of_lt _ col (b - 1) hc (by omega)]

/-- The right neighbour bit of bit `b` of byte `col`, read off the working row,
is bit `k + 1` of the scanline. -/
theorem right_bit_eq (h : Host) (vram row : Int) (col b : Nat) (hc : col < 40) (hb : b < 7) :
    (if b = 6 then ((hires_vram_row h vram row).getD (col + 2) 0 >>> 0) &&& 1
      else (scanline_byte h vram row col >>> (b + 1)) &&& 1)
      = scanline_bit (scanline_byte h vram row) (((7 * col + b : Nat) : Int) + 1) := by
  by_cases hb6 : b = 6
  · subst hb6
    rw [if_pos rfl, show col + 2 = (col + 1) + 1 from rfl, vram_row_getD_succ]
    by_cases hc1 : col + 1 < 40
    · have e : (((7 * col + 6 : Nat) : Int) + 1) = ((7 * (col + 1) + 0 : Nat) : Int) := by
        push_cast; ring
      rw [if_pos hc1, e, scanline_bit_of_lt _ (col + 1) 0 hc1 (by norm_num)]
    · rw [if_neg hc1]
      unfold scanline_bit
      rw [if_neg (by omega)]
      rfl
  · rw [if_neg hb6]
    have e : (((7 * col + b : Nat) : Int) + 1) = ((7 * col + (b + 1) : Nat) : Int) := by
      omega
    rw [e, scanline_bit_of_lt _ col (b + 1) hc (by omega)]

/-- The value stored for bit `b` of byte `col` (lines 182-190) is the
documented colour of pixel pair `7 * col + b`. -/
theorem pixel_value_eq (h : Host) (am : Option (List Nat)) (vram row : Int) (col b : Nat)
    (hc : col < 40) (hb : b < 7) :
    read_table am
        (((((hires_vram_row h vram row).getD (col + 1) 0 &&& 0x80) >>> 7) * 16)
          + (((((((hires_vram_row h vram row).getD (col + 0) 0 &&& 0x7f) <<< 0)
            ||| (((hires_vram_row h vram row).getD (col + 1) 0 &&& 0x7f) <<< 7)
            ||| (((hires_vram_row h vram row).getD (col + 2) 0 &&& 0x7f) <<< 14))
            >>> (b + 7 - 1)) &&& 0x07)
          ||| (((b ^^^ col) &&& 0x01) <<< 3)))
      = documented_pixel am (scanline_byte h vram row) (7 * col + b) := by
  have hmid : (hires_vram_row h vram row).getD (col + 1) 0 = scanline_byte h vram row col := by
    rw [vram_row_getD_succ, if_pos hc]
  have hcode := window_code ((hires_vram_row h vram row).getD (col + 0) 0)
    (scanline_byte h vram row col) ((hires_vram_row h vram row).getD (col + 2) 0) b hb
  rw [left_bit_eq h vram row col b hc hb, right_bit_eq h vram row col b hc hb,
    ← scanline_bit_of_lt (scanline_byte h vram row) col b hc hb] at hcode
  unfold documented_pixel
  have h1 : (7 * col + b) / 7 = col := by omega
  have h2 : (7 * col + b) % 7 = b := by omega
  simp only [h1, h2]
  rw [hmid, hcode, colour_set_bit _ (scanline_byte_lt h vram row col)]
  refine congrArg (read_table am) ?_
  have hlt : scanline_bit (scanline_byte h vram row) (((7 * col + b : Nat) : Int) - 1)
      + 2 * scanline_bit (scanline_byte h vram row) ((7 * col + b : Nat) : Int)
      + 4 * scanline_bit (scanline_byte h vram row) (((7 * col + b : Nat) : Int) + 1) < 8 := by
    rw [← hcode, and_7]
    exact Nat.mod_lt _ (by norm_num)
  rw [or_shift_3 _ _ hlt]
  omega

theorem range_mul_map {β : Type} (g : Nat → β) (n k : Nat) :
    (List.range (n * k)).map g
      = (List.range n).flatMap fun (i : Nat) => (List.range k).map fun (j : Nat) => g (i * k + j) := by
  induction n with
  | zero => simp
  | succ n ih =>
    rw [Nat.succ_mul, List.range_add, List.map_append, ih, List.range_succ, List.flatMap_append,
      List.map_map]
    simp [Function.comp_def]

theorem enum_map_range {β : Type} (g : Nat → β) (n : Nat) :
    ((List.range n).map g).enum = (List.range n).map fun (x : Nat) => (x, g x) := by
  apply List.ext_getElem
  · simp
  · intro i h1 h2
    simp

/-- The values stored for one scanline are the documented colours of the pixel
pairs 0-279, each twice. -/
theorem hires_row_values_eq (h : Host) (am : Option (List Nat)) (vram row : Int) :
    hires_row_values am (hires_vram_row h vram row)
      = (List.range 560).map fun (x : Nat) =>
          documented_pixel am (scanline_byte h vram row) (x / 2) := by
  rw [show (560 : Nat) = 40 * 14 from rfl, range_mul_map]
  unfold hires_row_values
  apply List.flatMap_congr
  intro col hcol
  rw [List.mem_range] at hcol
  rw [show (14 : Nat) = 7 * 2 from rfl, range_mul_map]
  simp only []
  apply List.flatMap_congr
  intro b hb
  rw [List.mem_range] at hb
  rw [pixel_value_eq h am vram row col b hcol hb]
  have e0 : (col * (7 * 2) + (b * 2 + 0)) / 2 = 7 * col + b := by omega
  have e1 : (col * (7 * 2) + (b * 2 + 1)) / 2 = 7 * col + b := by omega
  simp only [List.range_succ, List.range_zero, List.nil_append, List.cons_append, List.map_cons,
    List.map_nil, e0, e1]

/-- The stores of one scanline, in closed form. -/
theorem hires_row_stores_eq (h : Host) (am : Option (List Nat)) (vram row : Int) :
    hires_row_stores h am vram row
      = (List.range 560).map fun (x : Nat) =>
          (⟨row, x, documented_pixel am (scanline_byte h vram row) (x / 2)⟩ : Store) := by
  unfold hires_row_stores
  rw [hires_row_values_eq, enum_map_range, List.map_map]
  rfl

/-- The stores of a worker band are those of its scanlines, in order. -/
theorem hires_task_stores_eq (h : Host) (am : Option (List Nat)) (param : drawtask_params)
    (t n : Int) :
    hires_task_stores h am param t n
      = (task_rows param t n).flatMap fun (r : Int) =>
          (List.range 560).map fun (x : Nat) =>
            (⟨r, x, documented_pixel am (scanline_byte h param.vram r) (x / 2)⟩ : Store) := by
  show (task_rows param t n).flatMap (hires_row_stores h am param.vram) = _
  apply List.flatMap_congr
  intro r _
  exact hires_row_stores_eq h am param.vram r

/-- A scanline bit only depends on bits 0-6 of the bytes. -/
theorem scanline_bit_congr (bytes bytes' : Nat → Nat)
    (hlow : ∀ c, bytes c % 128 = bytes' c % 128) (k : Int) :
    scanline_bit bytes k = scanline_bit bytes' k := by
  unfold scanline_bit
  split
  · have hj : k.toNat % 7 < 7 := Nat.mod_lt _ (by norm_num)
    have hl := hlow (k.toNat / 7)
    generalize bytes (k.toNat / 7) = a at hl
    generalize bytes' (k.toNat / 7) = a' at hl
    generalize k.toNat % 7 = j at hj
    simp only [and_1, Nat.shiftRight_eq_div_pow]
    interval_cases j <;> norm_num <;> omega
  · rfl

/-- C13: every scanline rendered by `apple2_hires_draw_task` consists of exactly
560 stores, to positions 0-559 of that scanline in order, and positions `2k` and
`2k+1` both receive artifact-map entry `16*cs + 8*((b XOR col) & 1) + (bits[k-1]
+ 2*bits[k] + 4*bits[k+1])`, where `col = k div 7`, `b = k mod 7`, `cs` is bit 7
of byte `col`, and `bits` are the 280 bits of the scanline (7 per byte, zero
outside); the stores of a worker band are those of its scanlines; and the colour
of a pixel pair does not change when bit 7 of any byte other than its own byte
`col` changes. -/
theorem hires_scanline_pixels (h : Host) (am : Option (List Nat)) (param : drawtask_params)
    (row : Int) :
    hires_row_stores h am param.vram row
        = (List.range 560).map (fun (x : Nat) =>
            (⟨row, x, documented_pixel am (scanline_byte h param.vram row) (x / 2)⟩ : Store))
      ∧ (hires_row_stores h am param.vram row).length = 560
      ∧ (∀ k < 280,
          (hires_row_stores h am param.vram row)[2 * k]?
              = some ⟨row, 2 * k, documented_pixel am (scanline_byte h param.vram row) k⟩
            ∧ (hires_row_stores h am param.vram row)[2 * k + 1]?
              = some ⟨row, 2 * k + 1, documented_pixel am (scanline_byte h param.vram row) k⟩)
      ∧ (∀ t n : Int, hires_task_stores h am param t n
          = (task_rows param t n).flatMap (hires_row_stores h am param.vram))
      ∧ (∀ (bytes bytes' : Nat → Nat) (k : Nat), (∀ c, bytes c % 128 = bytes' c % 128) →
          bytes (k / 7) = bytes' (k / 7) →
          documented_pixel am bytes k = documented_pixel am bytes' k) := by
  refine ⟨hires_row_stores_eq h am param.vram row, ?_, ?_, fun t n => rfl, ?_⟩
  · rw [hires_row_stores_eq]
    simp
  · intro k hk
    rw [hires_row_stores_eq]
    have e0 : 2 * k / 2 = k := by omega
    have e1 : (2 * k + 1) / 2 = k := by omega
    constructor
    · rw [List.getElem?_map, List.getElem?_range (by omega)]
      simp only [Option.map_some', e0]
    · rw [List.getElem?_map, List.getElem?_range (by omega)]
      simp only [Option.map_some', e1]
  · intro bytes bytes' k hlow hcol
    unfold documented_pixel
    simp only []
    rw [hcol, scanline_bit_congr bytes bytes' hlow, scanline_bit_congr bytes bytes' hlow,
      scanline_bit_congr bytes bytes' hlow]

/-- C13 witness: two byte sources that differ only in bit 7 of bytes other than
byte 0 give the same colour for pixel pair 3. -/
theorem hires_scanline_pixels_witness :
    documented_pixel started_state.artifact_map (fun c => if c = 0 then 0x55 else 0x2a) 3
      = documented_pixel started_state.artifact_map (fun c => if c = 0 then 0x55 else 0xaa) 3 :=
  (hires_scanline_pixels ⟨fun _ => 0, 1⟩ started_state.artifact_map ⟨0x2000, 0, 1⟩ 0).2.2.2.2
    (fun c => if c = 0 then 0x55 else 0x2a) (fun c => if c = 0 then 0x55 else 0xaa) 3
    (by intro c; by_cases hc : c = 0 <;> simp [hc]) (by simp)

/-! ### Worker bands -/

theorem task_beginrow_cast (param : drawtask_params) (R t N : Nat)
    (hR : param.rowcount = (R : Int)) (ht : t ≤ N) (hfit : bands_fit_int param N) :
    task_beginrow param (t : Int) (N : Int) = param.beginrow + ((R * t / N : Nat) : Int) := by
  rw [task_beginrow_exact param t N ht hfit, hR, tdiv_cast]

theorem task_endrow_cast (param : drawtask_params) (R t N : Nat)
    (hR : param.rowcount = (R : Int)) (ht : t < N) (hfit : bands_fit_int param N) :
    task_endrow param (t : Int) (N : Int)
      = param.beginrow + ((R * (t + 1) / N : Nat) : Int) - 1 := by
  have e : ((t : Int) + 1) = ((t + 1 : Nat) : Int) := by push_cast; rfl
  rw [task_endrow_exact param t N ht hfit, hR, e, tdiv_cast]

/-- Every row offset below the row count falls into some worker band. -/
theorem band_cover (R N j : Nat) (hR : 0 < R) (hN : 0 < N) (hj : j < R) :
    ∃ t < N, R * t / N ≤ j ∧ j < R * (t + 1) / N := by
  have hm := Nat.div_add_mod ((j + 1) * N - 1) R
  have hmod := Nat.mod_lt ((j + 1) * N - 1) hR
  have hjN : (j + 1) * N ≤ R * N := Nat.mul_le_mul_right N hj
  have hpos : 0 < (j + 1) * N := Nat.mul_pos (Nat.succ_pos j) hN
  refine ⟨((j + 1) * N - 1) / R, ?_, ?_, ?_⟩
  · rw [Nat.div_lt_iff_lt_mul hR]
    rw [Nat.mul_comm N R]
    omega
  · have : R * (((j + 1) * N - 1) / R) / N < j + 1 := by
      rw [Nat.div_lt_iff_lt_mul hN]
      omega
    omega
  · have : j + 1 ≤ R * (((j + 1) * N - 1) / R + 1) / N := by
      rw [Nat.le_div_iff_mul_le hN, Nat.mul_add, Nat.mul_one]
      omega
    omega

/-- Band boundaries grow with the band number. -/
theorem band_mono (R N t t' : Nat) (htt : t + 1 ≤ t') : R * (t + 1) / N ≤ R * t' / N :=
  Nat.div_le_div_right (Nat.mul_le_mul_left R htt)

theorem band_last (R N : Nat) (hN : 0 < N) : R * N / N = R := Nat.mul_div_cancel R hN

/-- The scanlines of the worker bands `0 .. N-1` are exactly the scanlines
`beginrow .. beginrow + rowcount - 1`, when the band arithmetic does not
overflow. -/
theorem bands_union (param : drawtask_params) (N : Nat) (hN : 1 ≤ N) (hrc : 0 ≤ param.rowcount)
    (hfit : bands_fit_int param N) (r : Int) :
    (∃ t < N, task_beginrow param (t : Int) (N : Int) ≤ r
        ∧ r ≤ task_endrow param (t : Int) (N : Int))
      ↔ (param.beginrow ≤ r ∧ r ≤ param.beginrow + param.rowcount - 1) := by
  obtain ⟨R, hR⟩ := Int.eq_ofNat_of_zero_le hrc
  constructor
  · rintro ⟨t, ht, h1, h2⟩
    rw [task_beginrow_cast param R t N hR (Nat.le_of_lt ht) hfit] at h1
    rw [task_endrow_cast param R t N hR ht hfit] at h2
    have hle : R * (t + 1) / N ≤ R * N / N := Nat.div_le_div_right (Nat.mul_le_mul_left R ht)
    rw [band_last R N hN] at hle
    generalize R * t / N = q0 at h1
    generalize R * (t + 1) / N = q1 at h2 hle
    omega
  · rintro ⟨h1, h2⟩
    have hRpos : 0 < R := by omega
    obtain ⟨t, ht, hq1, hq2⟩ := band_cover R N (r - param.beginrow).toNat hRpos hN (by omega)
    refine ⟨t, ht, ?_, ?_⟩
    · rw [task_beginrow_cast param R t N hR (Nat.le_of_lt ht) hfit]
      generalize R * t / N = q0 at hq1
      omega
    · rw [task_endrow_cast param R t N hR ht hfit]
      generalize R * (t + 1) / N = q1 at hq2
      omega

/-- Two different worker bands share no scanline, when the band arithmetic does
not overflow. -/
theorem bands_disjoint (param : drawtask_params) (N : Nat) (hrc : 0 ≤ param.rowcount)
    (hfit : bands_fit_int param N) (t t' : Nat) (ht : t < N) (ht' : t' < N) (htt : t ≠ t')
    (r : Int)
    (h1 : task_beginrow param (t : Int) (N : Int) ≤ r ∧ r ≤ task_endrow param (t : Int) (N : Int))
    (h2 : task_beginrow param (t' : Int) (N : Int) ≤ r
      ∧ r ≤ task_endrow param (t' : Int) (N : Int)) : False := by
  obtain ⟨R, hR⟩ := Int.eq_ofNat_of_zero_le hrc
  rw [task_beginrow_cast param R t N hR (Nat.le_of_lt ht) hfit,
    task_endrow_cast param R t N hR ht hfit] at h1
  rw [task_beginrow_cast param R t' N hR (Nat.le_of_lt ht') hfit,
    task_endrow_cast param R t' N hR ht' hfit] at h2
  rcases Nat.lt_or_gt_of_ne htt with hlt | hgt
  · have hm := band_mono R N t t' hlt
    generalize R * (t + 1) / N = q1 at h1 hm
    generalize R * t' / N = q0 at h2 hm
    generalize R * t / N = a at h1
    generalize R * (t' + 1) / N = b at h2
    omega
  · have hm := band_mono R N t' t hgt
    generalize R * (t' + 1) / N = q1 at h2 hm
    generalize R * t / N = q0 at h1 hm
    generalize R * t' / N = a at h2
    generalize R * (t + 1) / N = b at h1
    omega

/-- With a negative row count every worker band is empty, when the band
arithmetic does not overflow. -/
theorem band_empty_of_neg (param : drawtask_params) (t N : Nat) (hneg : param.rowcount < 0)
    (ht : t < N) (hfit : bands_fit_int param N) :
    task_endrow param (t : Int) (N : Int) < task_beginrow param (t : Int) (N : Int) := by
  obtain ⟨R, hR⟩ : ∃ R : Nat, param.rowcount = -(R : Int) := ⟨(-param.rowcount).toNat, by omega⟩
  rw [task_endrow_exact param t N ht hfit, task_beginrow_exact param t N (Nat.le_of_lt ht) hfit]
  have e : ((t : Int) + 1) = ((t + 1 : Nat) : Int) := by push_cast; rfl
  rw [hR, e, Int.neg_mul, Int.neg_mul, Int.neg_tdiv, Int.neg_tdiv, tdiv_cast, tdiv_cast]
  have hm : R * t / N ≤ R * (t + 1) / N :=
    Nat.div_le_div_right (Nat.mul_le_mul_left R (Nat.le_succ t))
  generalize R * t / N = a at hm
  generalize R * (t + 1) / N = b at hm
  omega

/-- The scanlines of the worker bands `0 .. N-1` are the scanlines
`beginrow .. beginrow + rowcount - 1`, whatever the sign of the row count, when
the band arithmetic does not overflow. -/
theorem bands_union_all (param : drawtask_params) (N : Nat) (hN : 1 ≤ N)
    (hfit : bands_fit_int param N) (r : Int) :
    (∃ t < N, task_beginrow param (t : Int) (N : Int) ≤ r
        ∧ r ≤ task_endrow param (t : Int) (N : Int))
      ↔ (param.beginrow ≤ r ∧ r ≤ param.beginrow + param.rowcount - 1) := by
  by_cases hrc : 0 ≤ param.rowcount
  · exact bands_union param N hN hrc hfit r
  · constructor
    · rintro ⟨t, ht, h1, h2⟩
      have := band_empty_of_neg param t N (by omega) ht hfit
      omega
    · rintro ⟨h1, h2⟩
      omega

/-- C15 (amended): for every row count of at least 1 and every task count `N` of
at least 1 for which the `int` arithmetic of lines 164-165 does not overflow
(`bands_fit_int`: in particular `rowcount * N <= 2^31 - 1`), the scanline ranges
`[beginrow + rowcount*t/N, beginrow + rowcount*(t+1)/N - 1]` of the worker bands
`t = 0 .. N-1` are pairwise disjoint, their union is exactly `[beginrow,
beginrow + rowcount - 1]`, the loop of a band visits exactly the scanlines of
its range, and when `N` exceeds the row count some band is empty. -/
theorem task_bands_partition (param : drawtask_params) (N : Nat) (hN : 1 ≤ N)
    (hrc : 1 ≤ param.rowcount) (hfit : bands_fit_int param N) :
    (∀ t < N, ∀ t' < N, t ≠ t' → ∀ r : Int,
        ¬ ((task_beginrow param (t : Int) (N : Int) ≤ r
              ∧ r ≤ task_endrow param (t : Int) (N : Int))
            ∧ (task_beginrow param (t' : Int) (N : Int) ≤ r
              ∧ r ≤ task_endrow param (t' : Int) (N : Int))))
      ∧ (∀ r : Int,
          (∃ t < N, task_beginrow param (t : Int) (N : Int) ≤ r
              ∧ r ≤ task_endrow param (t : Int) (N : Int))
            ↔ (param.beginrow ≤ r ∧ r ≤ param.beginrow + param.rowcount - 1))
      ∧ (∀ t < N, ∀ r : Int, r ∈ task_rows param (t : Int) (N : Int)
          ↔ (task_beginrow param (t : Int) (N : Int) ≤ r
              ∧ r ≤ task_endrow param (t : Int) (N : Int)))
      ∧ (param.rowcount < (N : Int) →
          ∃ t < N, task_endrow param (t : Int) (N : Int)
            < task_beginrow param (t : Int) (N : Int)) := by
  refine ⟨?_, ?_, ?_, ?_⟩
  · intro t ht t' ht' htt r hboth
    exact bands_disjoint param N (by omega) hfit t t' ht ht' htt r hboth.1 hboth.2
  · intro r
    exact bands_union param N hN (by omega) hfit r
  · intro t _ r
    exact mem_task_rows param _ _ r
  · intro hlt
    obtain ⟨R, hR⟩ := Int.eq_ofNat_of_zero_le (show 0 ≤ param.rowcount by omega)
    refine ⟨0, by omega, ?_⟩
    rw [task_beginrow_cast param R 0 N hR (Nat.zero_le N) hfit,
      task_endrow_cast param R 0 N hR (by omega) hfit]
    have h0 : R * 0 / N = 0 := by simp
    have h1 : R * (0 + 1) / N = 0 := by
      rw [Nat.zero_add, Nat.mul_one]
      exact Nat.div_eq_of_lt (by omega)
    rw [h0, h1]
    omega

/-- C15 witness: 192 scanlines from scanline 0 split over 5 worker bands;
scanline 100 lies in some band because it lies in 0-191. -/
theorem task_bands_partition_witness :
    (∃ t : Nat, t < 5 ∧ task_beginrow ⟨0x2000, 0, 192⟩ (t : Int) ((5 : Nat) : Int) ≤ 100
        ∧ 100 ≤ task_endrow ⟨0x2000, 0, 192⟩ (t : Int) ((5 : Nat) : Int))
      ↔ ((⟨0x2000, 0, 192⟩ : drawtask_params).beginrow ≤ 100
        ∧ 100 ≤ (⟨0x2000, 0, 192⟩ : drawtask_params).beginrow
          + (⟨0x2000, 0, 192⟩ : drawtask_params).rowcount - 1) :=
  (task_bands_partition ⟨0x2000, 0, 192⟩ 5 (by decide) (by decide)
    (by unfold bands_fit_int; decide)).2.1 100

/-! ### The bitmap after the stores -/

/-- A position no store of the list writes to keeps its value. -/
theorem apply_miss (l : List Store) (bm : Bitmap) (y : Int) (x : Nat)
    (hno : ∀ st ∈ l, ¬ (st.y = y ∧ st.x = x)) : Bitmap.apply bm l y x = bm y x := by
  induction l generalizing bm with
  | nil => rfl
  | cons a l ih =>
    have ha : ¬ (y = a.y ∧ x = a.x) := fun hh => hno a (List.mem_cons_self a l) ⟨hh.1.symm, hh.2.symm⟩
    show Bitmap.apply (bm.store a) l y x = bm y x
    rw [ih (bm.store a) (fun st hst => hno st (List.mem_cons_of_mem a hst))]
    unfold Bitmap.store
    rw [if_neg ha]

/-- When the value of every store is a function `P` of its position, a position
some store writes to ends up with the value `P` gives it. -/
theorem apply_hit (P : Int → Nat → Nat) (l : List Store) (bm : Bitmap) (y : Int) (x : Nat)
    (hv : ∀ st ∈ l, st.v = P st.y st.x) (hex : ∃ st ∈ l, st.y = y ∧ st.x = x) :
    Bitmap.apply bm l y x = P y x := by
  induction l generalizing bm with
  | nil =>
    obtain ⟨st, hst, _⟩ := hex
    exact absurd hst (List.not_mem_nil st)
  | cons a l ih =>
    show Bitmap.apply (bm.store a) l y x = P y x
    by_cases hl : ∃ st ∈ l, st.y = y ∧ st.x = x
    · exact ih (bm.store a) (fun st hst => hv st (List.mem_cons_of_mem a hst)) hl
    · rw [apply_miss l (bm.store a) y x (fun st hst hp => hl ⟨st, hst, hp⟩)]
      obtain ⟨st, hst, hp⟩ := hex
      rcases List.mem_cons.mp hst with rfl | hin
      · unfold Bitmap.store
        rw [if_pos ⟨hp.1.symm, hp.2.symm⟩, hv st (List.mem_cons_self st l), hp.1, hp.2]
      · exact absurd ⟨st, hin, hp⟩ hl

/-- Two store sequences whose values are the same function of the position and
which write to the same positions leave the same bitmap. -/
theorem apply_congr (P : Int → Nat → Nat) (l l' : List Store) (bm : Bitmap)
    (hv : ∀ st ∈ l, st.v = P st.y st.x) (hv' : ∀ st ∈ l', st.v = P st.y st.x)
    (hpos : ∀ (y : Int) (x : Nat),
      (∃ st ∈ l, st.y = y ∧ st.x = x) ↔ (∃ st ∈ l', st.y = y ∧ st.x = x)) :
    Bitmap.apply bm l = Bitmap.apply bm l' := by
  funext y x
  by_cases hex : ∃ st ∈ l, st.y = y ∧ st.x = x
  · rw [apply_hit P l bm y x hv hex, apply_hit P l' bm y x hv' ((hpos y x).mp hex)]
  · have hex' : ¬ ∃ st ∈ l', st.y = y ∧ st.x = x := fun hh => hex ((hpos y x).mpr hh)
    rw [apply_miss l bm y x (fun st hst hp => hex ⟨st, hst, hp⟩),
      apply_miss l' bm y x (fun st hst hp => hex' ⟨st, hst, hp⟩)]

/-- The stores of a worker band: positions 0-559 of the scanlines of the band,
each with the documented colour. -/
theorem mem_hires_task_stores (h : Host) (am : Option (List Nat)) (param : drawtask_params)
    (t n : Int) (st : Store) :
    st ∈ hires_task_stores h am param t n
      ↔ (st.y ∈ task_rows param t n ∧ st.x < 560
          ∧ st.v = documented_pixel am (scanline_byte h param.vram st.y) (st.x / 2)) := by
  rw [hires_task_stores_eq]
  simp only [List.mem_flatMap, List.mem_map, List.mem_range]
  constructor
  · rintro ⟨r, hr, x, hx, rfl⟩
    exact ⟨hr, hx, rfl⟩
  · rintro ⟨hr, hx, hv⟩
    refine ⟨st.y, hr, st.x, hx, ?_⟩
    obtain ⟨y, x, v⟩ := st
    simp only at hv
    rw [hv]

/-- The positions written by the worker bands of `ts`. -/
theorem tasks_positions (h : Host) (am : Option (List Nat)) (param : drawtask_params)
    (n : Int) (ts : List Nat) (y : Int) (x : Nat) :
    (∃ st ∈ ts.flatMap (fun (t : Nat) => hires_task_stores h am param (t : Int) n),
        st.y = y ∧ st.x = x)
      ↔ (x < 560 ∧ ∃ t ∈ ts, y ∈ task_rows param (t : Int) n) := by
  constructor
  · rintro ⟨st, hst, rfl, rfl⟩
    rw [List.mem_flatMap] at hst
    obtain ⟨t, ht, hmem⟩ := hst
    rw [mem_hires_task_stores] at hmem
    exact ⟨hmem.2.1, t, ht, hmem.1⟩
  · rintro ⟨hx, t, ht, hy⟩
    refine ⟨⟨y, x, documented_pixel am (scanline_byte h param.vram y) (x / 2)⟩, ?_, rfl, rfl⟩
    rw [List.mem_flatMap]
    exact ⟨t, ht, (mem_hires_task_stores h am param (t : Int) n _).mpr ⟨hy, hx, rfl⟩⟩

theorem tasks_values (h : Host) (am : Option (List Nat)) (param : drawtask_params)
    (n : Int) (ts : List Nat) :
    ∀ st ∈ ts.flatMap (fun (t : Nat) => hires_task_stores h am param (t : Int) n),
      st.v = documented_pixel am (scanline_byte h param.vram st.y) (st.x / 2) := by
  intro st hst
  rw [List.mem_flatMap] at hst
  obtain ⟨t, _, hmem⟩ := hst
  exact ((mem_hires_task_stores h am param (t : Int) n st).mp hmem).2.2

/-- C14 (amended): for a fixed video memory, artifact table, begin row and row
count, running `apple2_hires_draw_task` for the task numbers `0 .. N-1` with
task count `N`, in any order, leaves the bitmap identical to running it once
with task number 0 and task count 1, for every `N >= 1` for which the `int`
arithmetic of lines 164-165 does not overflow (`bands_fit_int`: in particular
`rowcount * N <= 2^31 - 1`). -/
theorem hires_parallel_independent (h : Host) (param : drawtask_params) (N : Nat)
    (hN : 1 ≤ N) (hfit : bands_fit_int param N) (order : List Nat)
    (hperm : order.Perm (List.range N)) (s : State) (bm : Bitmap) :
    Bitmap.apply bm
        (stores_since s
          (order.foldl
            (fun (st : State) (t : Nat) => apple2_hires_draw_task h param (t : Int) (N : Int) st)
            s))
      = Bitmap.apply bm (stores_since s (apple2_hires_draw_task h param 0 1 s)) := by
  rw [hires_tasks_foldl, stores_since_of_append s _ _ rfl]
  have hone : apple2_hires_draw_task h param 0 1 s
      = s.stores_append ([0].flatMap fun (t : Nat) =>
          hires_task_stores h s.artifact_map param (t : Int) ((1 : Nat) : Int)) := by
    unfold apple2_hires_draw_task
    simp
  rw [hone, stores_since_of_append s _ _ rfl]
  apply apply_congr
    (fun y x => documented_pixel s.artifact_map (scanline_byte h param.vram y) (x / 2))
  · exact tasks_values h s.artifact_map param (N : Int) order
  · exact tasks_values h s.artifact_map param ((1 : Nat) : Int) [0]
  · intro y x
    rw [tasks_positions, tasks_positions]
    have hN' : (∃ t ∈ order, y ∈ task_rows param (t : Int) (N : Int))
        ↔ (param.beginrow ≤ y ∧ y ≤ param.beginrow + param.rowcount - 1) := by
      rw [← bands_union_all param N hN hfit y]
      constructor
      · rintro ⟨t, ht, hy⟩
        exact ⟨t, List.mem_range.mp ((hperm.mem_iff).mp ht), (mem_task_rows _ _ _ _).mp hy⟩
      · rintro ⟨t, ht, hy⟩
        exact ⟨t, (hperm.mem_iff).mpr (List.mem_range.mpr ht), (mem_task_rows _ _ _ _).mpr hy⟩
    have h1 : (∃ t ∈ [0], y ∈ task_rows param ((t : Nat) : Int) ((1 : Nat) : Int))
        ↔ (param.beginrow ≤ y ∧ y ≤ param.beginrow + param.rowcount - 1) := by
      rw [← bands_union_all param 1 (Nat.le_refl 1) (bands_fit_int_one param N hN hfit) y]
      constructor
      · rintro ⟨t, ht, hy⟩
        rw [List.mem_singleton] at ht
        exact ⟨t, by omega, (mem_task_rows _ _ _ _).mp hy⟩
      · rintro ⟨t, ht, hy⟩
        exact ⟨t, by rw [List.mem_singleton]; omega, (mem_task_rows _ _ _ _).mpr hy⟩
    rw [hN', h1]

/-- C14 witness: three worker bands run in the order 2, 0, 1 over a 192-line
fan-out. -/
theorem hires_parallel_independent_witness :
    Bitmap.apply (fun _ _ => 0)
        (stores_since started_state
          ([2, 0, 1].foldl
            (fun (st : State) (t : Nat) =>
              apple2_hires_draw_task ⟨fun _ => 0x55, 3⟩ ⟨0x2000, 0, 192⟩ (t : Int) ((3 : Nat) : Int)
                st)
            started_state))
      = Bitmap.apply (fun _ _ => 0)
          (stores_since started_state
            (apple2_hires_draw_task ⟨fun _ => 0x55, 3⟩ ⟨0x2000, 0, 192⟩ 0 1 started_state)) :=
  hires_parallel_independent ⟨fun _ => 0x55, 3⟩ ⟨0x2000, 0, 192⟩ 3 (by decide)
    (by unfold bands_fit_int; decide) [2, 0, 1] (by decide) started_state (fun _ _ => 0)

/-! ### Overflow of the band arithmetic -/

/-- With 192 scanlines split over 11184812 worker bands the products of lines
164-165 exceed `2^31 - 1` for the last two bands, and scanline 191 is in no
band. -/
theorem row_191_in_no_band (t : Nat) (ht : t < 11184812) :
    ¬ (task_beginrow ⟨0x2000, 0, 192⟩ (t : Int) ((11184812 : Nat) : Int) ≤ 191
        ∧ 191 ≤ task_endrow ⟨0x2000, 0, 192⟩ (t : Int) ((11184812 : Nat) : Int)) := by
  rintro ⟨h1, h2⟩
  have hcase : t ≤ 11184809 ∨ t = 11184810 ∨ t = 11184811 := by omega
  rcases hcase with hle | rfl | rfl
  · have hq : 192 * (t + 1) / 11184812 ≤ 191 := by omega
    have e : task_endrow ⟨0x2000, 0, 192⟩ (t : Int) ((11184812 : Nat) : Int)
        = ((192 * (t + 1) / 11184812 : Nat) : Int) - 1 := by
      unfold task_endrow
      simp only []
      have e1 : (192 : Int) * ((t : Int) + 1) = ((192 : Nat) : Int) * ((t + 1 : Nat) : Int) := by
        push_cast
        rfl
      rw [int32_of_range ((t : Int) + 1) (by omega) (by omega), e1,
        int32_of_range (((192 : Nat) : Int) * ((t + 1 : Nat) : Int)) (by push_cast; omega)
          (by push_cast; omega), tdiv_cast]
      generalize 192 * (t + 1) / 11184812 = q at hq
      rw [int32_of_range (q : Int) (by omega) (by omega),
        int32_of_range (0 + (q : Int)) (by omega) (by omega)]
      rw [int32_of_range _ (by omega) (by omega)]
      omega
    rw [e] at h2
    omega
  · revert h2
    decide
  · revert h2
    decide

/-- C15 counterexample: 192 scanlines from scanline 0 split over 11184812 worker
bands.  Scanline 191 lies in `[beginrow, beginrow + rowcount - 1]` and in no
band: the union of the bands is not the requested range. -/
theorem task_bands_overflow_counterexample :
    ((1 : Int) ≤ (⟨0x2000, 0, 192⟩ : drawtask_params).rowcount ∧ 1 ≤ 11184812)
      ∧ ((⟨0x2000, 0, 192⟩ : drawtask_params).beginrow ≤ 191
        ∧ (191 : Int) ≤ (⟨0x2000, 0, 192⟩ : drawtask_params).beginrow
          + (⟨0x2000, 0, 192⟩ : drawtask_params).rowcount - 1)
      ∧ ¬ ∃ t : Nat, t < 11184812
          ∧ task_beginrow ⟨0x2000, 0, 192⟩ (t : Int) ((11184812 : Nat) : Int) ≤ 191
          ∧ 191 ≤ task_endrow ⟨0x2000, 0, 192⟩ (t : Int) ((11184812 : Nat) : Int) := by
  refine ⟨by decide, by decide, ?_⟩
  rintro ⟨t, ht, h1, h2⟩
  exact row_191_in_no_band t ht ⟨h1, h2⟩

/-- A position on a scanline of none of the worker bands run keeps its value. -/
theorem tasks_miss (h : Host) (param : drawtask_params) (n : Int) (ts : List Nat) (s : State)
    (bm : Bitmap) (y : Int) (x : Nat) (hno : ∀ t ∈ ts, y ∉ task_rows param (t : Int) n) :
    Bitmap.apply bm
        (stores_since s
          (ts.foldl (fun (st : State) (t : Nat) => apple2_hires_draw_task h param (t : Int) n st)
            s)) y x
      = bm y x := by
  rw [hires_tasks_foldl, stores_since_of_append s _ _ rfl]
  apply apply_miss
  intro st hst hp
  obtain ⟨_, t, ht, hy⟩ := (tasks_positions h s.artifact_map param n ts y x).mp ⟨st, hst, hp⟩
  exact hno t ht hy

/-- A position on a scanline of the single band of a one-band run gets the
documented colour. -/
theorem single_task_hit (h : Host) (param : drawtask_params) (s : State) (bm : Bitmap) (y : Int)
    (x : Nat) (hx : x < 560) (hy : y ∈ task_rows param 0 1) :
    Bitmap.apply bm (stores_since s (apple2_hires_draw_task h param 0 1 s)) y x
      = documented_pixel s.artifact_map (scanline_byte h param.vram y) (x / 2) := by
  unfold apple2_hires_draw_task
  rw [stores_since_of_append s _ _ rfl]
  exact apply_hit
    (fun y x => documented_pixel s.artifact_map (scanline_byte h param.vram y) (x / 2))
    _ bm y x
    (fun st hst => ((mem_hires_task_stores h s.artifact_map param 0 1 st).mp hst).2.2)
    ⟨⟨y, x, documented_pixel s.artifact_map (scanline_byte h param.vram y) (x / 2)⟩,
      (mem_hires_task_stores h s.artifact_map param 0 1 _).mpr ⟨hy, hx, rfl⟩, rfl, rfl⟩

/-- C14 counterexample: with video memory all zero, 192 scanlines from scanline
0 and a bitmap filled with 1, running the 11184812 worker bands leaves pixel 0
of scanline 191 at 1, while the single band draws it BLACK: the two bitmaps
differ. -/
theorem hires_parallel_overflow_counterexample :
    Bitmap.apply (fun _ _ => 1)
        (stores_since started_state
          ((List.range 11184812).foldl
            (fun (st : State) (t : Nat) =>
              apple2_hires_draw_task ⟨fun _ => 0, 11184812⟩ ⟨0x2000, 0, 192⟩ (t : Int)
                ((11184812 : Nat) : Int) st)
            started_state))
      ≠ Bitmap.apply (fun _ _ => 1)
          (stores_since started_state
            (apple2_hires_draw_task ⟨fun _ => 0, 11184812⟩ ⟨0x2000, 0, 192⟩ 0 1
              started_state)) := by
  intro heq
  have hpix := congrFun (congrFun heq 191) 0
  rw [tasks_miss _ _ _ _ _ _ 191 0 (fun t ht hy =>
      row_191_in_no_band t (List.mem_range.mp ht) ((mem_task_rows _ _ _ _).mp hy)),
    single_task_hit _ _ _ _ 191 0 (by decide)
      ((mem_task_rows _ _ _ _).mpr ⟨by decide, by decide⟩)] at hpix
  revert hpix
  decide

/-- With 12000000 worker bands the overflow puts a band outside the fan-out:
band 11244621 of scanlines 0-191 is scanline -178, and `apple2_hires_draw`
clipped to scanlines 0-191 stores to it. -/
theorem hires_overflow_store_outside_clip :
    task_beginrow ⟨0x2000, 0, 192⟩ ((11244621 : Nat) : Int) ((12000000 : Nat) : Int) = -178
      ∧ task_endrow ⟨0x2000, 0, 192⟩ ((11244621 : Nat) : Int) ((12000000 : Nat) : Int) = -178
      ∧ ∃ st ∈ stores_since started_state
            (apple2_hires_draw ⟨fun _ => 0, 12000000⟩ ⟨0, 0, 0x80, 0, 0, 0⟩ ⟨0, 559, 0, 191⟩ 0 0
              191 started_state),
          st.y = -178 ∧ st.x = 0 := by
  refine ⟨by decide, by decide, ?_⟩
  rw [hires_draw_stores, if_neg (by decide)]
  exact (tasks_positions _ _ _ _ _ (-178) 0).mpr
    ⟨by decide, 11244621, List.mem_range.mpr (by decide),
      (mem_task_rows _ _ _ _).mpr ⟨by decide, by decide⟩⟩

/-! ### Lo-res tiles and start-up failures -/

/-- The lo-res tile bitmap: pen 0 on rows 0-3, pen 1 on rows 4-7. -/
theorem lores_tiledata_rows :
    ∀ y < 8, ∀ x < 14,
      (List.replicate 56 0 ++ List.replicate 56 1).getD (14 * y + x) 0 = if y < 4 then 0 else 1 := by
  decide

/-- C16: after a successful `VIDEO_START( apple2 )`, for every byte `ch` fetched
for a lo-res tile the tile info has `pal_data = [ch & 0x0f, (ch >> 4) & 0x0f]`
and `pen_data = lores_tiledata`, which is 0 on tile rows 0-3 and 1 on tile rows
4-7; so every pixel of rows 0-3 has colour `ch & 0x0f` and every pixel of rows
4-7 has colour `(ch >> 4) & 0x0f`. -/
theorem lores_tile_colours (al : Allocs) (s s' : State)
    (hs : video_start_apple2 al s = some (0, s')) (h : Host) (memory_offset : Int) :
    apple2_lores_gettileinfo h s' memory_offset
        = tile_info.fields 0 (some (List.replicate 56 0 ++ List.replicate 56 1))
            [h.mess_ram (s'.lores_videobase + memory_offset) &&& 0x0f,
             (h.mess_ram (s'.lores_videobase + memory_offset) >>> 4) &&& 0x0f] 0 0
      ∧ (∀ y < 8, ∀ x < 14,
          (List.replicate 56 0 ++ List.replicate 56 1).getD (14 * y + x) 0
            = if y < 4 then 0 else 1)
      ∧ (∀ y < 8, ∀ x < 14,
          tile_pixel_colour (apple2_lores_gettileinfo h s' memory_offset) x y
            = some (if y < 4 then h.mess_ram (s'.lores_videobase + memory_offset) &&& 0x0f
                else (h.mess_ram (s'.lores_videobase + memory_offset) >>> 4) &&& 0x0f)) := by
  have hti : apple2_lores_gettileinfo h s' memory_offset
      = tile_info.fields 0 (some (List.replicate 56 0 ++ List.replicate 56 1))
          [h.mess_ram (s'.lores_videobase + memory_offset) &&& 0x0f,
           (h.mess_ram (s'.lores_videobase + memory_offset) >>> 4) &&& 0x0f] 0 0 := by
    unfold apple2_lores_gettileinfo
    rw [(video_start_success al s s' hs).2.1]
    simp
  refine ⟨hti, lores_tiledata_rows, ?_⟩
  intro y hy x hx
  rw [hti]
  unfold tile_pixel_colour
  simp only []
  rw [lores_tiledata_rows y hy x hx]
  by_cases h4 : y < 4
  · rw [if_pos h4, if_pos h4]
    rfl
  · rw [if_neg h4, if_neg h4]
    rfl

/-- C16 witness: the byte 0x21 at the first lo-res tile after start-up gives
colour 1 on tile row 0 and colour 2 on tile row 7. -/
theorem lores_tile_colours_witness :
    tile_pixel_colour (apple2_lores_gettileinfo ⟨fun _ => 0x21, 1⟩ started_state 0) 13 0 = some 1
      ∧ tile_pixel_colour (apple2_lores_gettileinfo ⟨fun _ => 0x21, 1⟩ started_state 0) 0 7
        = some 2 :=
  ⟨((lores_tile_colours ⟨true, true, true, true, true⟩ State.initial started_state
      video_start_all_ok ⟨fun _ => 0x21, 1⟩ 0).2.2 0 (by decide) 13 (by decide)).trans
      (by decide),
   ((lores_tile_colours ⟨true, true, true, true, true⟩ State.initial started_state
      video_start_all_ok ⟨fun _ => 0x21, 1⟩ 0).2.2 7 (by decide) 0 (by decide)).trans
      (by decide)⟩

/-- C17: two start-up allocation failures `VIDEO_START( apple2 )` does not
report.  When only the double-width text tile map fails it returns 0 (success)
with the null pointer kept; when only the lo-res tile-data buffer fails it
stores through the null pointer (line 267).  A failed text map, lo-res map or
artifact table gives the return value 1. -/
theorem video_start_unchecked_allocations :
    (video_start_apple2 ⟨true, false, true, true, true⟩ State.initial).map Prod.fst = some 0
      ∧ (video_start_apple2 ⟨true, false, true, true, true⟩ State.initial).map
          (fun r => r.2.dbltext_tilemap) = some false
      ∧ video_start_apple2 ⟨true, true, true, true, false⟩ State.initial = none
      ∧ (video_start_apple2 ⟨false, true, true, true, true⟩ State.initial).map Prod.fst = some 1
      ∧ (video_start_apple2 ⟨true, true, false, true, true⟩ State.initial).map Prod.fst = some 1
      ∧ (video_start_apple2 ⟨true, true, true, false, true⟩ State.initial).map Prod.fst
        = some 1 := by
  decide

/-! ### Idempotence of the dirty tracker -/

/-- `apple2_video_touch` only appends its tile marks to the record of calls. -/
theorem video_touch_eq (offset : Nat) (s : State) :
    apple2_video_touch offset s = s.calls_append (touch_marks offset s.bases) := by
  unfold apple2_video_touch touch_marks
  by_cases h1 : to_u32 s.text_videobase ≤ offset % 4294967296 <;>
    by_cases h2 : to_u32 s.dbltext_videobase ≤ offset % 4294967296 <;>
    by_cases h3 : to_u32 s.lores_videobase ≤ offset % 4294967296 <;>
    simp [h1, h2, h3, State.call, State.calls_append, State.bases]

theorem calls_append_bases (s : State) (cs : List Call) : (s.calls_append cs).bases = s.bases :=
  rfl

theorem dirty_after_append (redraw : rectangle → TilemapRef → Videobases → Dirty → Dirty)
    (a b : List Call) (d : Dirty) :
    dirty_after redraw (a ++ b) d = dirty_after redraw b (dirty_after redraw a d) := by
  unfold dirty_after
  rw [List.foldl_append]

/-- Marking the tiles of a touch a second time changes no dirty bit. -/
theorem touch_marks_idem (redraw : rectangle → TilemapRef → Videobases → Dirty → Dirty)
    (offset : Nat) (b : Videobases) (d : Dirty) :
    dirty_after redraw (touch_marks offset b) (dirty_after redraw (touch_marks offset b) d)
      = dirty_after redraw (touch_marks offset b) d := by
  unfold touch_marks
  by_cases h1 : offset % 2 ^ 32 ≥ to_u32 b.text_videobase <;>
    by_cases h2 : offset % 2 ^ 32 ≥ to_u32 b.dbltext_videobase <;>
    by_cases h3 : offset % 2 ^ 32 ≥ to_u32 b.lores_videobase <;>
    simp only [h1, h2, h3, if_true, if_false, List.nil_append, List.append_nil,
      List.cons_append, dirty_after, List.foldl_cons, List.foldl_nil, tilemap_effect] <;>
    funext t m <;>
    split_ifs <;> rfl

/-- C19: for every tracker state, offset and dirty bits, calling
`apple2_video_touch(offset)` twice in a row leaves the same dirty tiles in all
three tile maps as calling it once, and in both cases the recorded video bases
are those before the call. -/
theorem video_touch_idempotent (redraw : rectangle → TilemapRef → Videobases → Dirty → Dirty)
    (offset : Nat) (s : State) (d : Dirty) :
    dirty_after redraw
        (calls_since s (apple2_video_touch offset (apple2_video_touch offset s))) d
        = dirty_after redraw (calls_since s (apple2_video_touch offset s)) d
      ∧ (apple2_video_touch offset (apple2_video_touch offset s)).bases
        = (apple2_video_touch offset s).bases
      ∧ (apple2_video_touch offset s).bases = s.bases := by
  have e1 : apple2_video_touch offset s = s.calls_append (touch_marks offset s.bases) :=
    video_touch_eq offset s
  have e2 : apple2_video_touch offset (apple2_video_touch offset s)
      = (s.calls_append (touch_marks offset s.bases)).calls_append
          (touch_marks offset s.bases) := by
    rw [e1, video_touch_eq, calls_append_bases]
  refine ⟨?_, ?_, ?_⟩
  · rw [e2, e1,
      calls_since_of_append s _ (touch_marks offset s.bases ++ touch_marks offset s.bases)
        (by simp [State.calls_append]),
      calls_since_of_append s _ (touch_marks offset s.bases) rfl,
      dirty_after_append, touch_marks_idem]
  · rw [e2, e1]
    rfl
  · rw [e1]
    rfl

/-! ### Page windows -/

/-- The two operands of the OR of line 86 share no set bit on the grid, and the
second is at most 119. -/
theorem text_offset_no_overlap :
    ∀ row < 24, ∀ col < 40,
      (row &&& 0x18) * 5 + col ≤ 119
        ∧ ((row &&& 0x07) <<< 7) &&& ((row &&& 0x18) * 5 + col) = 0 := by
  decide

/-- C25: for every `col < 40` and `row < 24` the bitwise text offset equals
`128 * (row mod 8) + 40 * (row div 8) + col`; the OR overlaps no set bits since
`(row & 0x18) * 5 + col <= 119 < 128`; the offset is at most 1015, hence inside a
0x400-byte window, and the pages at bases 0x400 and 0x800 address disjoint
memory. -/
theorem text_offset_page_window (col row nc nr : Nat) (hc : col < 40) (hr : row < 24) :
    apple2_text_getmemoryoffset col row nc nr = 128 * (row % 8) + 40 * (row / 8) + col
      ∧ (row &&& 0x18) * 5 + col ≤ 119
      ∧ ((row &&& 0x07) <<< 7) &&& ((row &&& 0x18) * 5 + col) = 0
      ∧ apple2_text_getmemoryoffset col row nc nr ≤ 1015
      ∧ apple2_text_getmemoryoffset col row nc nr < 0x400
      ∧ (∀ col' row', col' < 40 → row' < 24 →
          0x400 + apple2_text_getmemoryoffset col row nc nr
            ≠ 0x800 + apple2_text_getmemoryoffset col' row' nc nr) := by
  have ha := text_offset_arith row hr col hc
  have hn := text_offset_no_overlap row hr col hc
  rw [text_offset_args col row nc nr, ha]
  refine ⟨rfl, hn.1, hn.2, by omega, by omega, ?_⟩
  intro col' row' hc' hr'
  rw [text_offset_args col' row' nc nr, text_offset_arith row' hr' col' hc']
  omega

/-- C25 witness: the last cell of the grid, column 39 of row 23, has offset
1015. -/
theorem text_offset_page_window_witness :
    apple2_text_getmemoryoffset 39 23 40 24 = 128 * (23 % 8) + 40 * (23 / 8) + 39
      ∧ apple2_text_getmemoryoffset 39 23 40 24 ≤ 1015 :=
  ⟨(text_offset_page_window 39 23 40 24 (by decide) (by decide)).1,
   (text_offset_page_window 39 23 40 24 (by decide) (by decide)).2.2.2.1⟩

/-- Arithmetic form of the hi-res offset on the 40 x 192 grid: the text offset
of `(col, row div 8)` plus `1024 * (row mod 8)`. -/
theorem hires_offset_arith (col row nc nr : Nat) (hc : col < 40) (hr : row < 192) :
    apple2_hires_getmemoryoffset col row nc nr
      = 1024 * (row % 8) + apple2_text_getmemoryoffset col (row / 8) 40 24
        ∧ apple2_text_getmemoryoffset col (row / 8) 40 24 < 1024 := by
  have hr8 : row / 8 < 24 := by omega
  have ha := text_offset_arith (row / 8) hr8 col hc
  have hlt : apple2_text_getmemoryoffset col (row / 8) 40 24 < 2 ^ 10 := by
    rw [ha]
    norm_num
    omega
  refine ⟨?_, by simpa using hlt⟩
  unfold apple2_hires_getmemoryoffset
  rw [text_offset_args col (row / 8) nc nr, and_7, Nat.shiftLeft_eq,
    Nat.mod_eq_of_lt (by norm_num; omega), Nat.or_comm, Nat.mul_comm (row % 8),
    ← Nat.mul_add_lt_is_or hlt]

/-- C26: `apple2_hires_getmemoryoffset` stays inside one page and is injective on
the hi-res grid: for all `col < 40` and `row < 192` the offset is below 0x2000,
equal offsets force equal coordinates, and the pages at 0x2000 and 0x4000 share
no byte. -/
theorem hires_getmemoryoffset_injective (col row col' row' nc nr : Nat)
    (hc : col < 40) (hr : row < 192) (hc' : col' < 40) (hr' : row' < 192) :
    apple2_hires_getmemoryoffset col row nc nr < 0x2000
      ∧ (apple2_hires_getmemoryoffset col row nc nr
            = apple2_hires_getmemoryoffset col' row' nc nr →
          col = col' ∧ row = row')
      ∧ 0x2000 + apple2_hires_getmemoryoffset col row nc nr
          ≠ 0x4000 + apple2_hires_getmemoryoffset col' row' nc nr := by
  obtain ⟨e, hlt⟩ := hires_offset_arith col row nc nr hc hr
  obtain ⟨e', hlt'⟩ := hires_offset_arith col' row' nc nr hc' hr'
  refine ⟨by omega, ?_, by omega⟩
  intro heq
  rw [e, e'] at heq
  have hrow : row % 8 = row' % 8 := by omega
  have htext : apple2_text_getmemoryoffset col (row / 8) 40 24
      = apple2_text_getmemoryoffset col' (row' / 8) 40 24 := by omega
  have d := text_offset_decode (row / 8) (by omega) col hc
  have d' := text_offset_decode (row' / 8) (by omega) col' hc'
  rw [htext] at d
  have hcol : col = col' := d.1.symm.trans d'.1
  have hdiv : row / 8 = row' / 8 := d.2.symm.trans d'.2
  exact ⟨hcol, by omega⟩

/-- C26 witness: the last byte of the hi-res grid, column 39 of scanline 191,
lies at offset 8183 of its page. -/
theorem hires_getmemoryoffset_injective_witness :
    apple2_hires_getmemoryoffset 39 191 0 0 = 8183
      ∧ apple2_hires_getmemoryoffset 39 191 0 0 < 0x2000
      ∧ 0x2000 + apple2_hires_getmemoryoffset 39 191 0 0
          ≠ 0x4000 + apple2_hires_getmemoryoffset 0 0 0 0 :=
  ⟨by decide,
   (hires_getmemoryoffset_injective 39 191 0 0 0 0 (by decide) (by decide) (by decide)
      (by decide)).1,
   (hires_getmemoryoffset_injective 39 191 0 0 0 0 (by decide) (by decide) (by decide)
      (by decide)).2.2⟩

/-! ### Bounds of the artifact-table lookups -/

/-- The artifact-map index of line 190 is below 32 for all byte values. -/
theorem artifact_index_lt (x y z col b : Nat) (hb : b < 7) :
    ((y &&& 0x80) >>> 7) * 16
        + ((((((x &&& 0x7f) <<< 0) ||| ((y &&& 0x7f) <<< 7) ||| ((z &&& 0x7f) <<< 14))
              >>> (b + 7 - 1)) &&& 0x07)
            ||| (((b ^^^ col) &&& 0x01) <<< 3)) < 32 := by
  have h1 : (y &&& 0x80) >>> 7 ≤ 1 := by
    have hle : y &&& 0x80 ≤ 0x80 := Nat.and_le_right
    rw [Nat.shiftRight_eq_div_pow]
    have : (y &&& 0x80) / 2 ^ 7 ≤ 0x80 / 2 ^ 7 := Nat.div_le_div_right hle
    simpa using this
  have h2 : (((((x &&& 0x7f) <<< 0) ||| ((y &&& 0x7f) <<< 7) ||| ((z &&& 0x7f) <<< 14))
      >>> (b + 7 - 1)) &&& 0x07) < 8 := by
    rw [and_7]
    exact Nat.mod_lt _ (by norm_num)
  have h3 : (b ^^^ col) &&& 0x01 ≤ 1 := Nat.and_le_right
  rw [or_shift_3 _ _ h2]
  omega

theorem hires_vram_row_length (h : Host) (vram row : Int) :
    (hires_vram_row h vram row).length = 42 := by
  simp [hires_vram_row]

/-- A scanline bit only depends on the 40 bytes of the scanline. -/
theorem scanline_bit_congr40 (bytes bytes' : Nat → Nat)
    (h40 : ∀ c < 40, bytes c = bytes' c) (k : Int) :
    scanline_bit bytes k = scanline_bit bytes' k := by
  unfold scanline_bit
  split
  · rename_i hk
    rw [h40 (k.toNat / 7) (by omega)]
  · rfl

/-- The colour of a pixel pair only depends on the 40 bytes of the scanline. -/
theorem documented_pixel_congr40 (am : Option (List Nat)) (bytes bytes' : Nat → Nat)
    (h40 : ∀ c < 40, bytes c = bytes' c) (k : Nat) (hk : k < 280) :
    documented_pixel am bytes k = documented_pixel am bytes' k := by
  unfold documented_pixel
  simp only []
  rw [h40 (k / 7) (by omega), scanline_bit_congr40 bytes bytes' h40,
    scanline_bit_congr40 bytes bytes' h40, scanline_bit_congr40 bytes bytes' h40]

set_option maxRecDepth 20000 in
/-- The colours of the pattern 0x55 / 0x2A under the start-up artifact table. -/
theorem alternating_low_pixels :
    ∀ k < 280,
      documented_pixel
          (some [BLACK, BLACK, PURPLE, WHITE, BLACK, GREEN, WHITE, WHITE,
            BLACK, BLACK, GREEN, WHITE, BLACK, PURPLE, WHITE, WHITE,
            BLACK, BLACK, BLUE, WHITE, BLACK, ORANGE, WHITE, WHITE,
            BLACK, BLACK, ORANGE, WHITE, BLACK, BLUE, WHITE, WHITE])
          (fun col => if col % 2 = 0 then 0x55 else 0x2a) k
        = if k < 279 then PURPLE else BLACK := by
  decide

set_option maxRecDepth 20000 in
/-- The colours of the pattern 0xD5 / 0xAA under the start-up artifact table. -/
theorem alternating_high_pixels :
    ∀ k < 280,
      documented_pixel
          (some [BLACK, BLACK, PURPLE, WHITE, BLACK, GREEN, WHITE, WHITE,
            BLACK, BLACK, GREEN, WHITE, BLACK, PURPLE, WHITE, WHITE,
            BLACK, BLACK, BLUE, WHITE, BLACK, ORANGE, WHITE, WHITE,
            BLACK, BLACK, ORANGE, WHITE, BLACK, BLUE, WHITE, WHITE])
          (fun col => if col % 2 = 0 then 0xd5 else 0xaa) k
        = if k < 279 then BLUE else BLACK := by
  decide

/-- The stores of a scanline whose pixel pairs have the colours `f k`. -/
theorem hires_row_stores_of_pixels (h : Host) (am : Option (List Nat)) (vram row : Int)
    (f : Nat → Nat)
    (hf : ∀ k < 280, documented_pixel am (scanline_byte h vram row) k = f k) :
    hires_row_stores h am vram row
      = (List.range 560).map fun (x : Nat) => (⟨row, x, f (x / 2)⟩ : Store) := by
  rw [hires_row_stores_eq]
  apply List.map_congr_left
  intro x hx
  rw [List.mem_range] at hx
  rw [hf (x / 2) (by omega)]

/-- C28: after a successful `VIDEO_START`, a scanline whose bytes are 0x55 in
even columns and 0x2A in odd columns is rendered by `apple2_hires_draw_task` as
PURPLE for every pixel pair `k = 0 .. 278` and BLACK for the last pair `k = 279`
(each pair being the two positions `2k`, `2k + 1`); with bit 7 set in every byte
(0xD5 / 0xAA) the pairs `0 .. 278` are BLUE and the last pair is BLACK. -/
theorem alternating_pattern_colour (al : Allocs) (s s' : State)
    (hs : video_start_apple2 al s = some (0, s')) (h : Host) (vram row : Int) :
    ((∀ col < 40, scanline_byte h vram row col = if col % 2 = 0 then 0x55 else 0x2a) →
        hires_row_stores h s'.artifact_map vram row
          = (List.range 560).map fun (x : Nat) =>
              (⟨row, x, if x / 2 < 279 then PURPLE else BLACK⟩ : Store))
      ∧ ((∀ col < 40, scanline_byte h vram row col = if col % 2 = 0 then 0xd5 else 0xaa) →
        hires_row_stores h s'.artifact_map vram row
          = (List.range 560).map fun (x : Nat) =>
              (⟨row, x, if x / 2 < 279 then BLUE else BLACK⟩ : Store)) := by
  have ham := (video_start_success al s s' hs).1
  rw [build_artifact_map_eq] at ham
  constructor
  · intro hpat
    refine hires_row_stores_of_pixels h s'.artifact_map vram row
      (fun k => if k < 279 then PURPLE else BLACK) ?_
    intro k hk
    rw [ham, documented_pixel_congr40 _ _ _ hpat k hk]
    exact alternating_low_pixels k hk
  · intro hpat
    refine hires_row_stores_of_pixels h s'.artifact_map vram row
      (fun k => if k < 279 then BLUE else BLACK) ?_
    intro k hk
    rw [ham, documented_pixel_congr40 _ _ _ hpat k hk]
    exact alternating_high_pixels k hk

/-- C28 witness: scanline 0 of the page at 0x2000 with the bytes 0x55 at even
and 0x2A at odd addresses. -/
theorem alternating_pattern_colour_witness :
    hires_row_stores ⟨fun a => if a % 2 = 0 then 0x55 else 0x2a, 1⟩ started_state.artifact_map
        0x2000 0
      = (List.range 560).map fun (x : Nat) =>
          (⟨0, x, if x / 2 < 279 then PURPLE else BLACK⟩ : Store) :=
  (alternating_pattern_colour ⟨true, true, true, true, true⟩ State.initial started_state
    video_start_all_ok ⟨fun a => if a % 2 = 0 then 0x55 else 0x2a, 1⟩ 0x2000 0).1 (by decide)

end Apple2

namespace Segaorun

/-! ## Theorems: NVRAM and the misc-I/O window -/

theorem fwrite_fresh (ram : List Nat) (n : Nat) (hlen : ram.length = n) :
    mame_fwrite [] ram n = ram := by
  unfold mame_fwrite
  rw [← hlen, List.take_length]
  rfl

theorem fread_full (file buffer : List Nat) (n : Nat) (hfile : file.length = n)
    (hbuf : buffer.length = n) : mame_fread file buffer n = file := by
  unfold mame_fread
  have ht : List.take n file = file := by rw [← hfile, List.take_length]
  rw [ht, hfile, ← hbuf, List.drop_length]
  exact List.append_nil file

/-- C18: NVRAM round trip.  For every 0x8000-byte work-RAM content, the handler
in write mode on a fresh file, then in read mode on the resulting file with an
all-zero work RAM, reproduces the original content byte for byte; in read mode
with no file it leaves work RAM (and everything else) unchanged. -/
theorem nvram_round_trip (s : State) (ram : List Nat) (read_or_write : Int)
    (hram : s.workram = some ram) (hlen : ram.length = 0x8000) (hrw : read_or_write ≠ 0) :
    nvram_handler_outrun (some []) read_or_write s = some (some ram, s)
      ∧ nvram_handler_outrun (some ram) 0 { s with workram := some (List.replicate 0x8000 0) }
        = some (some ram, s)
      ∧ nvram_handler_outrun none 0 s = some (none, s) := by
  refine ⟨?_, ?_, ?_⟩
  · unfold nvram_handler_outrun
    rw [if_pos hrw, hram]
    simp only []
    rw [fwrite_fresh ram 0x8000 hlen]
  · unfold nvram_handler_outrun
    rw [if_neg (by simp), if_pos (by rfl)]
    simp only []
    rw [fread_full ram _ 0x8000 hlen (List.length_replicate _ _)]
    obtain ⟨w, a, r, wr, cm, de, sl, cs⟩ := s
    simp only at hram
    rw [hram]
  · unfold nvram_handler_outrun
    rw [if_neg (by simp), if_neg (by simp)]

/-- C18 witness: a work RAM filled with the byte 0xA5. -/
theorem nvram_round_trip_witness :
    nvram_handler_outrun (some []) 1
        ⟨some (List.replicate 0x8000 0xA5), 0, none, none, none, 0, line_state.CLEAR_LINE, []⟩
        = some (some (List.replicate 0x8000 0xA5),
            ⟨some (List.replicate 0x8000 0xA5), 0, none, none, none, 0, line_state.CLEAR_LINE, []⟩)
      ∧ nvram_handler_outrun (some (List.replicate 0x8000 0xA5)) 0
          { (⟨some (List.replicate 0x8000 0xA5), 0, none, none, none, 0, line_state.CLEAR_LINE,
              []⟩ : State) with workram := some (List.replicate 0x8000 0) }
        = some (some (List.replicate 0x8000 0xA5),
            ⟨some (List.replicate 0x8000 0xA5), 0, none, none, none, 0, line_state.CLEAR_LINE, []⟩)
      ∧ nvram_handler_outrun none 0
          ⟨some (List.replicate 0x8000 0xA5), 0, none, none, none, 0, line_state.CLEAR_LINE, []⟩
        = some (none,
            ⟨some (List.replicate 0x8000 0xA5), 0, none, none, none, 0, line_state.CLEAR_LINE,
              []⟩) :=
  nvram_round_trip
    ⟨some (List.replicate 0x8000 0xA5), 0, none, none, none, 0, line_state.CLEAR_LINE, []⟩
    (List.replicate 0x8000 0xA5) 1 rfl (List.length_replicate _ _) (by decide)

/-- C20: `misc_io_r` returns exactly what the installed read handler returns,
and the open-bus value when `custom_io_r` is null; `misc_io_w` is exactly one
call of the installed write handler, and when `custom_io_w` is null it changes
none of `adc_select`, the display enable, the sound reset line, the handlers,
`custom_map` and work RAM (it only logs). -/
theorem misc_io_dispatch (m : Machine) (offset data mem_mask : Nat) (s : State) :
    (∀ f, s.custom_io_r = some f → misc_io_r m offset mem_mask s = f.call m offset mem_mask s)
      ∧ (s.custom_io_r = none →
          misc_io_r m offset mem_mask s
            = some (m.segaic16_open_bus_r % 2 ^ 16,
                (s.call Call.logerror).call Call.segaic16_open_bus_r))
      ∧ (∀ g, s.custom_io_w = some g →
          misc_io_w offset data mem_mask s = g.call offset data mem_mask s)
      ∧ (s.custom_io_w = none →
          misc_io_w offset data mem_mask s = s.call Call.logerror
            ∧ (misc_io_w offset data mem_mask s).adc_select = s.adc_select
            ∧ (misc_io_w offset data mem_mask s).display_enable = s.display_enable
            ∧ (misc_io_w offset data mem_mask s).sound_reset_line = s.sound_reset_line
            ∧ (misc_io_w offset data mem_mask s).custom_io_r = s.custom_io_r
            ∧ (misc_io_w offset data mem_mask s).custom_io_w = s.custom_io_w
            ∧ (misc_io_w offset data mem_mask s).custom_map = s.custom_map
            ∧ (misc_io_w offset data mem_mask s).workram = s.workram) := by
  refine ⟨?_, ?_, ?_, ?_⟩
  · intro f hf
    unfold misc_io_r
    rw [hf]
  · intro hn
    unfold misc_io_r
    rw [hn]
    rfl
  · intro g hg
    unfold misc_io_w
    rw [hg]
  · intro hn
    have e : misc_io_w offset data mem_mask s = s.call Call.logerror := by
      unfold misc_io_w
      rw [hn]
    rw [e]
    exact ⟨rfl, rfl, rfl, rfl, rfl, rfl, rfl, rfl⟩

/-- C20 witness: with the Out Run write handler installed, a write of 0x2d to
word offset 2 (sub-address 0x04) through `misc_io_w` is one call of
`outrun_custom_io_w`: display enable 1, ADC channel 3, sound reset cleared. -/
theorem misc_io_dispatch_witness :
    misc_io_w 2 0x2d 0
        ⟨none, 0, some read16_handler.outrun_custom_io_r,
          some write16_handler.outrun_custom_io_w, none, 0, line_state.ASSERT_LINE, []⟩
      = ⟨none, 3, some read16_handler.outrun_custom_io_r,
          some write16_handler.outrun_custom_io_w, none, 1, line_state.CLEAR_LINE,
          [Call.segaic16_set_display_enable 1,
           Call.cpunum_set_input_line 2 input_line.INPUT_LINE_RESET line_state.CLEAR_LINE]⟩ :=
  ((misc_io_dispatch ⟨fun _ => 0, fun _ _ => 0, 0xffff, 0xff⟩ 2 0x2d 0
    ⟨none, 0, some read16_handler.outrun_custom_io_r,
      some write16_handler.outrun_custom_io_w, none, 0, line_state.ASSERT_LINE, []⟩).2.2.1
    write16_handler.outrun_custom_io_w rfl).trans (by decide)

/-! ## Theorems: custom I/O handlers -/

/-- A read through `outrun_custom_io_r` changes only the record of calls. -/
theorem outrun_r_same (m : Machine) (offset mem_mask : Nat) (s s' : State) (v : Nat)
    (h : outrun_custom_io_r m offset mem_mask s = some (v, s')) :
    same_handlers s s' ∧ same_ports s s' := by
  unfold outrun_custom_io_r at h
  simp only [] at h
  split_ifs at h <;> (try split at h) <;>
    simp only [open_bus_fallback, State.call, Option.some.injEq, Prod.mk.injEq,
      reduceCtorEq] at h <;>
    (try obtain ⟨_, rfl⟩ := h) <;>
    exact ⟨⟨rfl, rfl⟩, ⟨rfl, rfl, rfl⟩⟩

/-- A read through `shangon_custom_io_r` changes only the record of calls. -/
theorem shangon_r_same (m : Machine) (offset mem_mask : Nat) (s s' : State) (v : Nat)
    (h : shangon_custom_io_r m offset mem_mask s = some (v, s')) :
    same_handlers s s' ∧ same_ports s s' := by
  unfold shangon_custom_io_r at h
  simp only [] at h
  split_ifs at h <;> (try split at h) <;>
    simp only [open_bus_fallback, State.call, Option.some.injEq, Prod.mk.injEq,
      reduceCtorEq] at h <;>
    (try obtain ⟨_, rfl⟩ := h) <;>
    exact ⟨⟨rfl, rfl⟩, ⟨rfl, rfl, rfl⟩⟩

/-- A write through `outrun_custom_io_w` keeps the handlers. -/
theorem outrun_w_handlers (offset data mem_mask : Nat) (s : State) :
    same_handlers s (outrun_custom_io_w offset data mem_mask s) := by
  unfold outrun_custom_io_w
  simp only []
  split_ifs <;> exact ⟨rfl, rfl⟩

/-- A write through `shangon_custom_io_w` keeps the handlers. -/
theorem shangon_w_handlers (offset data mem_mask : Nat) (s : State) :
    same_handlers s (shangon_custom_io_w offset data mem_mask s) := by
  unfold shangon_custom_io_w
  simp only []
  split_ifs <;> exact ⟨rfl, rfl⟩

/-- A write through `outrun_custom_io_w` anywhere but sub-address 0x04 keeps the
ADC channel, the display enable and the sound reset line. -/
theorem outrun_w_ports (offset data mem_mask : Nat) (s : State)
    (hoff : offset &&& (0x7f / 2) ≠ 0x04 / 2) :
    same_ports s (outrun_custom_io_w offset data mem_mask s) := by
  unfold outrun_custom_io_w
  simp only []
  split_ifs <;> exact ⟨rfl, rfl, rfl⟩

/-- A write through `shangon_custom_io_w` anywhere but sub-addresses 0x0000 and
0x0020 keeps the ADC channel, the display enable and the sound reset line. -/
theorem shangon_w_ports (offset data mem_mask : Nat) (s : State)
    (h0 : offset &&& (0x303f / 2) ≠ 0x0000 / 2) (h1 : offset &&& (0x303f / 2) ≠ 0x0020 / 2) :
    same_ports s (shangon_custom_io_w offset data mem_mask s) := by
  unfold shangon_custom_io_w
  simp only []
  split_ifs <;> first | exact ⟨rfl, rfl, rfl⟩ | exact absurd (by assumption) h0

/-- A read through `misc_io_r` changes only the record of calls. -/
theorem misc_io_r_same (m : Machine) (offset mem_mask : Nat) (s s' : State) (v : Nat)
    (h : misc_io_r m offset mem_mask s = some (v, s')) :
    same_handlers s s' ∧ same_ports s s' := by
  unfold misc_io_r at h
  split at h
  · rename_i f _
    cases f
    · exact outrun_r_same m offset mem_mask s s' v h
    · exact shangon_r_same m offset mem_mask s s' v h
  · simp only [open_bus_fallback, State.call, Option.some.injEq, Prod.mk.injEq] at h
    obtain ⟨_, rfl⟩ := h
    exact ⟨⟨rfl, rfl⟩, ⟨rfl, rfl, rfl⟩⟩

/-- A write through `misc_io_w` keeps the handlers. -/
theorem misc_io_w_handlers (offset data mem_mask : Nat) (s : State) :
    same_handlers s (misc_io_w offset data mem_mask s) := by
  unfold misc_io_w
  split
  · rename_i g _
    cases g
    · exact outrun_w_handlers offset data mem_mask s
    · exact shangon_w_handlers offset data mem_mask s
  · exact ⟨rfl, rfl⟩

/-- The NVRAM handler keeps the handlers. -/
theorem nvram_handlers (file : Option mame_file) (read_or_write : Int) (s s' : State)
    (f' : Option mame_file) (h : nvram_handler_outrun file read_or_write s = some (f', s')) :
    same_handlers s s' := by
  unfold nvram_handler_outrun at h
  split_ifs at h <;> (try split at h) <;>
    simp only [Option.some.injEq, Prod.mk.injEq, reduceCtorEq] at h <;>
    (try obtain ⟨_, rfl⟩ := h) <;>
    exact ⟨rfl, rfl⟩

/-- `MACHINE_INIT( outrun )` keeps the handlers. -/
theorem machine_init_handlers (s : State) : same_handlers s (machine_init_outrun s) := by
  unfold machine_init_outrun
  simp only []
  split <;> exact ⟨rfl, rfl⟩

/-- No operation of the driver changes the handlers. -/
theorem op_run_handlers (m : Machine) (op : Op) (s s' : State) (h : op.run m s = some s') :
    same_handlers s s' := by
  cases op with
  | machine_init =>
    simp only [Op.run, Option.some.injEq] at h
    rw [← h]
    exact machine_init_handlers s
  | misc_io_r offset mem_mask =>
    simp only [Op.run, Option.map_eq_some', Prod.exists] at h
    obtain ⟨v, s1, h1, rfl⟩ := h
    exact (misc_io_r_same m offset mem_mask s s1 v h1).1
  | misc_io_w offset data mem_mask =>
    simp only [Op.run, Option.some.injEq] at h
    rw [← h]
    exact misc_io_w_handlers offset data mem_mask s
  | outrun_custom_io_r offset mem_mask =>
    simp only [Op.run, Option.map_eq_some', Prod.exists] at h
    obtain ⟨v, s1, h1, rfl⟩ := h
    exact (outrun_r_same m offset mem_mask s s1 v h1).1
  | outrun_custom_io_w offset data mem_mask =>
    simp only [Op.run, Option.some.injEq] at h
    rw [← h]
    exact outrun_w_handlers offset data mem_mask s
  | shangon_custom_io_r offset mem_mask =>
    simp only [Op.run, Option.map_eq_some', Prod.exists] at h
    obtain ⟨v, s1, h1, rfl⟩ := h
    exact (shangon_r_same m offset mem_mask s s1 v h1).1
  | shangon_custom_io_w offset data mem_mask =>
    simp only [Op.run, Option.some.injEq] at h
    rw [← h]
    exact shangon_w_handlers offset data mem_mask s
  | nvram_handler file read_or_write =>
    simp only [Op.run, Option.map_eq_some', Prod.exists] at h
    obtain ⟨f', s1, h1, rfl⟩ := h
    exact nvram_handlers file read_or_write s s1 f' h1
  | outrun_irq iloops =>
    simp only [Op.run, Option.some.injEq] at h
    rw [← h]
    unfold outrun_irq
    split <;> exact ⟨rfl, rfl⟩
  | outrun_reset =>
    simp only [Op.run, Option.some.injEq] at h
    rw [← h]
    exact ⟨rfl, rfl⟩
  | sound_w data =>
    simp only [Op.run, Option.some.injEq] at h
    rw [← h]
    exact ⟨rfl, rfl⟩

/-- No sequence of operations of the driver changes the handlers. -/
theorem run_ops_handlers (m : Machine) (ops : List Op) (s s' : State)
    (h : run_ops m ops s = some s') : same_handlers s s' := by
  induction ops generalizing s with
  | nil =>
    simp only [run_ops, Option.some.injEq] at h
    rw [← h]
    exact ⟨rfl, rfl⟩
  | cons op ops ih =>
    unfold run_ops at h
    split at h
    · rename_i s1 h1
      have a := op_run_handlers m op s s1 h1
      have b := ih s1 h
      exact ⟨b.1.trans a.1, b.2.trans a.2⟩
    · exact absurd h (by simp)

/-- What `outrun_generic_init` leaves behind when it returns. -/
theorem generic_init_some (al : InitAllocs) (s s0 : State)
    (h : outrun_generic_init al s = some s0) :
    s0.custom_io_r = none ∧ s0.custom_io_w = none ∧ s0.custom_map = none
      ∧ s0.adc_select = s.adc_select ∧ s0.workram = some (List.replicate 0x08000 0) := by
  obtain ⟨a, b, c, d, e⟩ := al
  cases e
  · unfold outrun_generic_init at h
    simp only [Bool.false_eq_true, if_false, Option.isNone_none, Bool.or_true, if_true,
      reduceCtorEq] at h
  · unfold outrun_generic_init at h
    simp only [if_true] at h
    split_ifs at h
    simp only [Option.some.injEq] at h
    subst h
    exact ⟨rfl, rfl, rfl, rfl, rfl⟩

/-- With every allocation succeeding `outrun_generic_init` returns. -/
theorem generic_init_ok (s : State) :
    ∃ s0, outrun_generic_init ⟨true, true, true, true, true⟩ s = some s0 :=
  ⟨_, rfl⟩

/-- What `DRIVER_INIT( outrun )` leaves behind when it returns. -/
theorem driver_init_outrun_some (al : InitAllocs) (s s1 : State)
    (h : driver_init_outrun al s = some s1) :
    s1.custom_io_r = some read16_handler.outrun_custom_io_r
      ∧ s1.custom_io_w = some write16_handler.outrun_custom_io_w
      ∧ s1.adc_select = s.adc_select := by
  unfold driver_init_outrun at h
  split at h
  · exact absurd h (by simp)
  · rename_i s0 h0
    simp only [Option.some.injEq] at h
    subst h
    exact ⟨rfl, rfl, (generic_init_some al s s0 h0).2.2.2.1⟩

/-- What `DRIVER_INIT( outrunb )` leaves behind when it returns. -/
theorem driver_init_outrunb_some (BITSWAP16 BITSWAP8 : Nat → List Nat → Nat) (rg rg1 : Regions)
    (al : InitAllocs) (s s1 : State)
    (h : driver_init_outrunb BITSWAP16 BITSWAP8 rg al s = some (rg1, s1)) :
    s1.custom_io_r = some read16_handler.outrun_custom_io_r
      ∧ s1.custom_io_w = some write16_handler.outrun_custom_io_w
      ∧ s1.adc_select = s.adc_select := by
  unfold driver_init_outrunb at h
  simp only [] at h
  split at h
  · exact absurd h (by simp)
  · rename_i s0 h0
    simp only [Option.some.injEq, Prod.mk.injEq] at h
    obtain ⟨_, rfl⟩ := h
    exact ⟨rfl, rfl, (generic_init_some al s s0 h0).2.2.2.1⟩

/-- What `DRIVER_INIT( shangon )` leaves behind when it returns. -/
theorem driver_init_shangon_some (al : InitAllocs) (s s1 : State)
    (h : driver_init_shangon al s = some s1) :
    s1.custom_io_r = some read16_handler.shangon_custom_io_r
      ∧ s1.custom_io_w = some write16_handler.shangon_custom_io_w
      ∧ s1.adc_select = s.adc_select := by
  unfold driver_init_shangon at h
  split at h
  · exact absurd h (by simp)
  · rename_i s0 h0
    simp only [Option.some.injEq] at h
    subst h
    exact ⟨rfl, rfl, (generic_init_some al s s0 h0).2.2.2.1⟩

/-- What `DRIVER_INIT( shangon3 )` leaves behind when it returns. -/
theorem driver_init_shangon3_some (al : InitAllocs) (s s1 : State)
    (h : driver_init_shangon3 al s = some s1) :
    s1.custom_io_r = some read16_handler.shangon_custom_io_r
      ∧ s1.custom_io_w = some write16_handler.shangon_custom_io_w
      ∧ s1.adc_select = s.adc_select := by
  unfold driver_init_shangon3 at h
  split at h
  · exact absurd h (by simp)
  · rename_i s0 h0
    simp only [Option.some.injEq] at h
    subst h
    exact ⟨rfl, rfl, (generic_init_some al s s0 h0).2.2.2.1⟩

/-- C21: custom I/O configuration is one-way.  Each of the four driver inits,
when it returns, leaves `custom_io_r` and `custom_io_w` non-null and matched
(`outrun`, `outrunb`: the Out Run pair; `shangon`, `shangon3`: the Super Hang-On
pair), and after any sequence of later operations of the driver (machine init,
`misc_io_r`, `misc_io_w`, the four custom handlers, the NVRAM handler, the
interrupt handler, the reset callback, the sound latch write) both pointers are
still that pair. -/
theorem custom_io_one_way (m : Machine) (BITSWAP16 BITSWAP8 : Nat → List Nat → Nat)
    (rg : Regions) (al : InitAllocs) (s s1 s2 : State) (ops : List Op)
    (hops : run_ops m ops s1 = some s2) :
    (driver_init_outrun al s = some s1 →
        (s1.custom_io_r = some read16_handler.outrun_custom_io_r
          ∧ s1.custom_io_w = some write16_handler.outrun_custom_io_w)
        ∧ s2.custom_io_r = some read16_handler.outrun_custom_io_r
        ∧ s2.custom_io_w = some write16_handler.outrun_custom_io_w)
      ∧ ((∃ rg1, driver_init_outrunb BITSWAP16 BITSWAP8 rg al s = some (rg1, s1)) →
        (s1.custom_io_r = some read16_handler.outrun_custom_io_r
          ∧ s1.custom_io_w = some write16_handler.outrun_custom_io_w)
        ∧ s2.custom_io_r = some read16_handler.outrun_custom_io_r
        ∧ s2.custom_io_w = some write16_handler.outrun_custom_io_w)
      ∧ (driver_init_shangon al s = some s1 →
        (s1.custom_io_r = some read16_handler.shangon_custom_io_r
          ∧ s1.custom_io_w = some write16_handler.shangon_custom_io_w)
        ∧ s2.custom_io_r = some read16_handler.shangon_custom_io_r
        ∧ s2.custom_io_w = some write16_handler.shangon_custom_io_w)
      ∧ (driver_init_shangon3 al s = some s1 →
        (s1.custom_io_r = some read16_handler.shangon_custom_io_r
          ∧ s1.custom_io_w = some write16_handler.shangon_custom_io_w)
        ∧ s2.custom_io_r = some read16_handler.shangon_custom_io_r
        ∧ s2.custom_io_w = some write16_handler.shangon_custom_io_w)
      ∧ s2.custom_io_r = s1.custom_io_r ∧ s2.custom_io_w = s1.custom_io_w := by
  have hk := run_ops_handlers m ops s1 s2 hops
  refine ⟨?_, ?_, ?_, ?_, hk.1, hk.2⟩
  · intro h
    have hi := driver_init_outrun_some al s s1 h
    exact ⟨⟨hi.1, hi.2.1⟩, hk.1.trans hi.1, hk.2.trans hi.2.1⟩
  · rintro ⟨rg1, h⟩
    have hi := driver_init_outrunb_some BITSWAP16 BITSWAP8 rg rg1 al s s1 h
    exact ⟨⟨hi.1, hi.2.1⟩, hk.1.trans hi.1, hk.2.trans hi.2.1⟩
  · intro h
    have hi := driver_init_shangon_some al s s1 h
    exact ⟨⟨hi.1, hi.2.1⟩, hk.1.trans hi.1, hk.2.trans hi.2.1⟩
  · intro h
    have hi := driver_init_shangon3_some al s s1 h
    exact ⟨⟨hi.1, hi.2.1⟩, hk.1.trans hi.1, hk.2.trans hi.2.1⟩

/-- C21 witness: `DRIVER_INIT( outrun )` with every allocation succeeding, then
a machine init, a write of 0x2d to word offset 2 through `misc_io_w`, an
interrupt and an NVRAM load without a file: the Out Run pair is still
installed. -/
theorem custom_io_one_way_witness :
    driver_init_outrun ⟨true, true, true, true, true⟩
        ⟨none, 0, none, none, none, 0, line_state.ASSERT_LINE, []⟩
      = some ⟨some (List.replicate 0x08000 0), 0, some read16_handler.outrun_custom_io_r,
          some write16_handler.outrun_custom_io_w, none, 0, line_state.ASSERT_LINE,
          [Call.segaic16_memory_mapper_init 0, Call.fd1094_driver_init]⟩
      ∧ run_ops ⟨fun _ => 0, fun _ _ => 0, 0xffff, 0xff⟩
          [Op.machine_init, Op.misc_io_w 2 0x2d 0, Op.outrun_irq 0, Op.nvram_handler none 0]
          ⟨some (List.replicate 0x08000 0), 0, some read16_handler.outrun_custom_io_r,
            some write16_handler.outrun_custom_io_w, none, 0, line_state.ASSERT_LINE,
            [Call.segaic16_memory_mapper_init 0, Call.fd1094_driver_init]⟩
        = some ⟨some (List.replicate 0x08000 0), 3, some read16_handler.outrun_custom_io_r,
            some write16_handler.outrun_custom_io_w, none, 1, line_state.CLEAR_LINE,
            [Call.segaic16_memory_mapper_init 0, Call.fd1094_driver_init,
             Call.fd1094_machine_init, Call.segaic16_memory_mapper_reset,
             Call.segaic16_tilemap_reset 0, Call.cpunum_set_info_fct_reset_callback 0,
             Call.segaic16_set_display_enable 1,
             Call.cpunum_set_input_line 2 input_line.INPUT_LINE_RESET line_state.CLEAR_LINE,
             Call.cpunum_set_input_line 0 (input_line.irq 4) line_state.HOLD_LINE]⟩
      ∧ (⟨some (List.replicate 0x08000 0), 3, some read16_handler.outrun_custom_io_r,
            some write16_handler.outrun_custom_io_w, none, 1, line_state.CLEAR_LINE,
            [Call.segaic16_memory_mapper_init 0, Call.fd1094_driver_init,
             Call.fd1094_machine_init, Call.segaic16_memory_mapper_reset,
             Call.segaic16_tilemap_reset 0, Call.cpunum_set_info_fct_reset_callback 0,
             Call.segaic16_set_display_enable 1,
             Call.cpunum_set_input_line 2 input_line.INPUT_LINE_RESET line_state.CLEAR_LINE,
             Call.cpunum_set_input_line 0 (input_line.irq 4) line_state.HOLD_LINE]⟩
          : State).custom_io_r = some read16_handler.outrun_custom_io_r :=
  ⟨rfl, rfl,
    ((custom_io_one_way ⟨fun _ => 0, fun _ _ => 0, 0xffff, 0xff⟩ (fun w _ => w) (fun b _ => b)
      ⟨[], [], [], []⟩ ⟨true, true, true, true, true⟩
      ⟨none, 0, none, none, none, 0, line_state.ASSERT_LINE, []⟩ _ _
      [Op.machine_init, Op.misc_io_w 2 0x2d 0, Op.outrun_irq 0, Op.nvram_handler none 0]
      rfl).1 rfl).2.1⟩

/-! ## Theorems: the output port and unrecognized sub-addresses -/

/-- C23: the screen-display bit of the Out Run output port.  A write of 0x20
(D5 = 1) to word offset 2 (sub-address 0x04) passes 1 to
`segaic16_set_display_enable` and leaves the display enabled, and a write of
0x00 (D5 = 0) passes 0: the opposite of "1= blanked, 0= displayed". -/
theorem outrun_display_bit_polarity :
    outrun_custom_io_w 2 0x20 0
        ⟨none, 0, some read16_handler.outrun_custom_io_r,
          some write16_handler.outrun_custom_io_w, none, 0, line_state.CLEAR_LINE, []⟩
      = ⟨none, 0, some read16_handler.outrun_custom_io_r,
          some write16_handler.outrun_custom_io_w, none, 1, line_state.ASSERT_LINE,
          [Call.segaic16_set_display_enable 1,
           Call.cpunum_set_input_line 2 input_line.INPUT_LINE_RESET line_state.ASSERT_LINE]⟩
      ∧ outrun_custom_io_w 2 0x00 0
        ⟨none, 0, some read16_handler.outrun_custom_io_r,
          some write16_handler.outrun_custom_io_w, none, 1, line_state.CLEAR_LINE, []⟩
      = ⟨none, 0, some read16_handler.outrun_custom_io_r,
          some write16_handler.outrun_custom_io_w, none, 0, line_state.ASSERT_LINE,
          [Call.segaic16_set_display_enable 0,
           Call.cpunum_set_input_line 2 input_line.INPUT_LINE_RESET line_state.ASSERT_LINE]⟩ := by
  decide

/-- C24: unrecognized custom-I/O sub-addresses fall back to open bus or to a
no-op.  `outrun_custom_io_r` at a masked offset (`offset & 0x3f`) other than the
word offsets of 0x10, 0x12, 0x14, 0x16, 0x30, 0x60, and `shangon_custom_io_r` at
a masked offset (`offset & 0x181f`) other than the word offsets of 0x1000,
0x1002, 0x1004, 0x1006, 0x3020, log and return the open-bus value;
`outrun_custom_io_w` and `shangon_custom_io_w` at a masked offset that is none of
their decoded cases only log, so `adc_select`, the display enable and the sound
reset line keep their values. -/
theorem unrecognized_sub_address (m : Machine) (offset data mem_mask : Nat) (s : State) :
    ((offset &&& 0x3f ≠ 0x10 / 2 ∧ offset &&& 0x3f ≠ 0x12 / 2 ∧ offset &&& 0x3f ≠ 0x14 / 2
          ∧ offset &&& 0x3f ≠ 0x16 / 2 ∧ offset &&& 0x3f ≠ 0x30 / 2
          ∧ offset &&& 0x3f ≠ 0x60 / 2) →
        outrun_custom_io_r m offset mem_mask s
          = some (m.segaic16_open_bus_r % 2 ^ 16,
              (s.call Call.logerror).call Call.segaic16_open_bus_r))
      ∧ ((offset &&& 0x181f ≠ 0x1000 / 2 ∧ offset &&& 0x181f ≠ 0x1002 / 2
          ∧ offset &&& 0x181f ≠ 0x1004 / 2 ∧ offset &&& 0x181f ≠ 0x1006 / 2
          ∧ offset &&& 0x181f ≠ 0x3020 / 2) →
        shangon_custom_io_r m offset mem_mask s
          = some (m.segaic16_open_bus_r % 2 ^ 16,
              (s.call Call.logerror).call Call.segaic16_open_bus_r))
      ∧ ((offset &&& 0x3f ≠ 0x02 / 2 ∧ offset &&& 0x3f ≠ 0x04 / 2 ∧ offset &&& 0x3f ≠ 0x06 / 2
          ∧ offset &&& 0x3f ≠ 0x20 / 2 ∧ offset &&& 0x3f ≠ 0x30 / 2
          ∧ offset &&& 0x3f ≠ 0x70 / 2) →
        outrun_custom_io_w offset data mem_mask s = s.call Call.logerror
          ∧ (outrun_custom_io_w offset data mem_mask s).adc_select = s.adc_select
          ∧ (outrun_custom_io_w offset data mem_mask s).display_enable = s.display_enable
          ∧ (outrun_custom_io_w offset data mem_mask s).sound_reset_line = s.sound_reset_line)
      ∧ ((offset &&& 0x181f ≠ 0x0000 / 2 ∧ offset &&& 0x181f ≠ 0x0020 / 2
          ∧ offset &&& 0x181f ≠ 0x3000 / 2 ∧ offset &&& 0x181f ≠ 0x3020 / 2) →
        shangon_custom_io_w offset data mem_mask s = s.call Call.logerror
          ∧ (shangon_custom_io_w offset data mem_mask s).adc_select = s.adc_select
          ∧ (shangon_custom_io_w offset data mem_mask s).display_enable = s.display_enable
          ∧ (shangon_custom_io_w offset data mem_mask s).sound_reset_line
              = s.sound_reset_line) := by
  have e1 : (0x7f / 2 : Nat) = 0x3f := by decide
  have e2 : (0x303f / 2 : Nat) = 0x181f := by decide
  refine ⟨?_, ?_, ?_, ?_⟩
  · rintro ⟨h1, h2, h3, h4, h5, h6⟩
    unfold outrun_custom_io_r
    simp only [e1]
    rw [if_neg h5, if_neg h6]
    split_ifs with a b
    · rfl
    · exact absurd b (not_or.mpr ⟨h1, not_or.mpr ⟨h2, not_or.mpr ⟨h3, h4⟩⟩⟩)
    · rfl
  · rintro ⟨h1, h2, h3, h4, h5⟩
    unfold shangon_custom_io_r
    simp only [e2]
    rw [if_neg (not_or.mpr ⟨h1, not_or.mpr ⟨h2, not_or.mpr ⟨h3, h4⟩⟩⟩), if_neg h5]
    rfl
  · rintro ⟨h1, h2, h3, h4, h5, h6⟩
    have e : outrun_custom_io_w offset data mem_mask s = s.call Call.logerror := by
      unfold outrun_custom_io_w
      simp only [e1]
      rw [if_neg h1, if_neg h2, if_neg h3, if_neg h4, if_neg h5, if_neg h6]
    rw [e]
    exact ⟨rfl, rfl, rfl, rfl⟩
  · rintro ⟨h1, h2, h3, h4⟩
    have e : shangon_custom_io_w offset data mem_mask s = s.call Call.logerror := by
      unfold shangon_custom_io_w
      simp only [e2]
      rw [if_neg h1, if_neg h2, if_neg h3, if_neg h4]
    rw [e]
    exact ⟨rfl, rfl, rfl, rfl⟩

/-- C24 witness: word offset 4 (sub-address 0x08) is decoded by none of the four
handlers. -/
theorem unrecognized_sub_address_witness :
    outrun_custom_io_r ⟨fun _ => 0, fun _ _ => 0, 0xffff, 0xff⟩ 4 0
        ⟨none, 5, none, none, none, 1, line_state.CLEAR_LINE, []⟩
      = some (0xffff, ⟨none, 5, none, none, none, 1, line_state.CLEAR_LINE,
          [Call.logerror, Call.segaic16_open_bus_r]⟩)
      ∧ shangon_custom_io_r ⟨fun _ => 0, fun _ _ => 0, 0xffff, 0xff⟩ 4 0
          ⟨none, 5, none, none, none, 1, line_state.CLEAR_LINE, []⟩
        = some (0xffff, ⟨none, 5, none, none, none, 1, line_state.CLEAR_LINE,
            [Call.logerror, Call.segaic16_open_bus_r]⟩)
      ∧ outrun_custom_io_w 4 0xff 0 ⟨none, 5, none, none, none, 1, line_state.CLEAR_LINE, []⟩
        = ⟨none, 5, none, none, none, 1, line_state.CLEAR_LINE, [Call.logerror]⟩
      ∧ shangon_custom_io_w 4 0xff 0 ⟨none, 5, none, none, none, 1, line_state.CLEAR_LINE, []⟩
        = ⟨none, 5, none, none, none, 1, line_state.CLEAR_LINE, [Call.logerror]⟩ :=
  ⟨(unrecognized_sub_address ⟨fun _ => 0, fun _ _ => 0, 0xffff, 0xff⟩ 4 0xff 0
      ⟨none, 5, none, none, none, 1, line_state.CLEAR_LINE, []⟩).1 (by decide),
    (unrecognized_sub_address ⟨fun _ => 0, fun _ _ => 0, 0xffff, 0xff⟩ 4 0xff 0
      ⟨none, 5, none, none, none, 1, line_state.CLEAR_LINE, []⟩).2.1 (by decide),
    ((unrecognized_sub_address ⟨fun _ => 0, fun _ _ => 0, 0xffff, 0xff⟩ 4 0xff 0
      ⟨none, 5, none, none, none, 1, line_state.CLEAR_LINE, []⟩).2.2.1 (by decide)).1,
    ((unrecognized_sub_address ⟨fun _ => 0, fun _ _ => 0, 0xffff, 0xff⟩ 4 0xff 0
      ⟨none, 5, none, none, none, 1, line_state.CLEAR_LINE, []⟩).2.2.2 (by decide)).1⟩

/-! ## Theorems: the analog channel -/

/-- With the channel at most 7 the Out Run read handler returns. -/
theorem outrun_r_total (m : Machine) (offset mem_mask : Nat) (s : State)
    (h : s.adc_select ≤ 7) : ∃ v s', outrun_custom_io_r m offset mem_mask s = some (v, s') := by
  have ht : ∃ tag, ["ADC0", "ADC1", "ADC2", "ADC3", "ADC4", "ADC5", "ADC6", "ADC7"].get?
      s.adc_select = some tag := by
    generalize s.adc_select = a at h
    interval_cases a <;> exact ⟨_, rfl⟩
  obtain ⟨tag, ht⟩ := ht
  unfold outrun_custom_io_r
  simp only [ht]
  split_ifs <;> exact ⟨_, _, rfl⟩

/-- With the channel at most 3 the Super Hang-On read handler returns. -/
theorem shangon_r_total (m : Machine) (offset mem_mask : Nat) (s : State)
    (h : s.adc_select ≤ 3) : ∃ v s', shangon_custom_io_r m offset mem_mask s = some (v, s') := by
  have ht : ∃ tag, ["ADC0", "ADC1", "ADC2", "ADC3"].get? s.adc_select = some tag := by
    generalize s.adc_select = a at h
    interval_cases a <;> exact ⟨_, rfl⟩
  obtain ⟨tag, ht⟩ := ht
  unfold shangon_custom_io_r
  simp only [ht]
  split_ifs <;> exact ⟨_, _, rfl⟩

/-- A write to the Out Run output port stores data bits D4-D2 as the channel. -/
theorem outrun_w_output (offset data mem_mask : Nat) (s : State)
    (hoff : offset &&& (0x7f / 2) = 0x04 / 2) :
    (outrun_custom_io_w offset data mem_mask s).adc_select = (data >>> 2) &&& 7 := by
  unfold outrun_custom_io_w
  simp only []
  rw [if_neg (show ¬ offset &&& (0x7f / 2) = 0x02 / 2 from
    fun a => absurd (a.symm.trans hoff) (by decide)), if_pos hoff]
  show ((data >>> 2) &&& 7) % 2 ^ 8 = (data >>> 2) &&& 7
  exact Nat.mod_eq_of_lt (lt_of_le_of_lt Nat.and_le_right (by decide))

/-- A write to the Super Hang-On output port stores data bits D7-D6 as the
channel. -/
theorem shangon_w_output (offset data mem_mask : Nat) (s : State)
    (hoff : offset &&& (0x303f / 2) = 0x0000 / 2) :
    (shangon_custom_io_w offset data mem_mask s).adc_select = (data >>> 6) &&& 3 := by
  unfold shangon_custom_io_w
  simp only []
  rw [if_pos hoff]
  show ((data >>> 6) &&& 3) % 2 ^ 8 = (data >>> 6) &&& 3
  exact Nat.mod_eq_of_lt (lt_of_le_of_lt Nat.and_le_right (by decide))

/-- The Out Run write handler keeps the channel at most 7. -/
theorem outrun_w_adc (offset data mem_mask : Nat) (s : State) (h : s.adc_select ≤ 7) :
    (outrun_custom_io_w offset data mem_mask s).adc_select ≤ 7 := by
  by_cases hoff : offset &&& (0x7f / 2) = 0x04 / 2
  · rw [outrun_w_output offset data mem_mask s hoff]
    exact Nat.and_le_right
  · rw [(outrun_w_ports offset data mem_mask s hoff).1]
    exact h

/-- The Super Hang-On write handler keeps the channel at most 3. -/
theorem shangon_w_adc (offset data mem_mask : Nat) (s : State) (h : s.adc_select ≤ 3) :
    (shangon_custom_io_w offset data mem_mask s).adc_select ≤ 3 := by
  by_cases hoff : offset &&& (0x303f / 2) = 0x0000 / 2
  · rw [shangon_w_output offset data mem_mask s hoff]
    exact Nat.and_le_right
  · have e : (shangon_custom_io_w offset data mem_mask s).adc_select = s.adc_select := by
      unfold shangon_custom_io_w
      simp only []
      rw [if_neg hoff]
      split_ifs <;> rfl
    rw [e]
    exact h

/-- Accesses of the Out Run handlers other than writes to sub-address 0x04 keep
a channel that is at most 7, and all return. -/
theorem run_ops_outrun_adc (m : Machine) (ops : List Op) (s : State) (a : Nat)
    (ha : s.adc_select = a) (ha7 : a ≤ 7)
    (hops : ∀ op ∈ ops, (∃ o mm, op = Op.outrun_custom_io_r o mm)
      ∨ (∃ o dd mm, op = Op.outrun_custom_io_w o dd mm ∧ o &&& (0x7f / 2) ≠ 0x04 / 2)) :
    ∃ s', run_ops m ops s = some s' ∧ s'.adc_select = a := by
  induction ops generalizing s with
  | nil => exact ⟨s, rfl, ha⟩
  | cons op ops ih =>
    have htail : ∀ op' ∈ ops, (∃ o mm, op' = Op.outrun_custom_io_r o mm)
        ∨ (∃ o dd mm, op' = Op.outrun_custom_io_w o dd mm ∧ o &&& (0x7f / 2) ≠ 0x04 / 2) :=
      fun op' h' => hops op' (List.mem_cons_of_mem op h')
    rcases hops op (List.mem_cons_self op ops) with ⟨o, mm, rfl⟩ | ⟨o, dd, mm, rfl, hne⟩
    · obtain ⟨v, s1, h1⟩ := outrun_r_total m o mm s (ha ▸ ha7)
      have hs := (outrun_r_same m o mm s s1 v h1).2.1
      obtain ⟨s', h', e'⟩ := ih s1 (hs.trans ha) htail
      refine ⟨s', ?_, e'⟩
      unfold run_ops
      simp only [Op.run, h1, Option.map_some']
      exact h'
    · have hs := (outrun_w_ports o dd mm s hne).1
      obtain ⟨s', h', e'⟩ := ih (outrun_custom_io_w o dd mm s) (hs.trans ha) htail
      refine ⟨s', ?_, e'⟩
      unfold run_ops
      simp only [Op.run]
      exact h'

/-- C22: Out Run analog-channel selection.  After `outrun_custom_io_w` at masked
sub-address 0x04 with data `d`, and any sequence of later accesses of the Out
Run handlers that are not writes to sub-address 0x04 (all of which return),
`outrun_custom_io_r` at sub-address 0x30 returns the value of analog port
`ADC<n>` with `n = (d >> 2) & 7`. -/
theorem outrun_adc_select (m : Machine) (offset_w d mask_w offset_r mask_r : Nat) (s : State)
    (ops : List Op)
    (hw : offset_w &&& (0x7f / 2) = 0x04 / 2)
    (hops : ∀ op ∈ ops, (∃ o mm, op = Op.outrun_custom_io_r o mm)
      ∨ (∃ o dd mm, op = Op.outrun_custom_io_w o dd mm ∧ o &&& (0x7f / 2) ≠ 0x04 / 2))
    (hr : offset_r &&& (0x7f / 2) = 0x30 / 2) :
    ∃ s' tag, run_ops m ops (outrun_custom_io_w offset_w d mask_w s) = some s'
      ∧ ["ADC0", "ADC1", "ADC2", "ADC3", "ADC4", "ADC5", "ADC6", "ADC7"].get? ((d >>> 2) &&& 7)
          = some tag
      ∧ outrun_custom_io_r m offset_r mask_r s'
          = some (m.readinputportbytag_safe tag 0x0010 % 2 ^ 16,
              s'.call (Call.readinputportbytag_safe tag 0x0010)) := by
  have h7 : (d >>> 2) &&& 7 ≤ 7 := Nat.and_le_right
  obtain ⟨s', hrun, hadc⟩ := run_ops_outrun_adc m ops (outrun_custom_io_w offset_w d mask_w s)
    ((d >>> 2) &&& 7) (outrun_w_output offset_w d mask_w s hw) h7 hops
  have ht : ∃ tag, ["ADC0", "ADC1", "ADC2", "ADC3", "ADC4", "ADC5", "ADC6", "ADC7"].get?
      ((d >>> 2) &&& 7) = some tag := by
    generalize (d >>> 2) &&& 7 = a at h7
    interval_cases a <;> exact ⟨_, rfl⟩
  obtain ⟨tag, ht⟩ := ht
  refine ⟨s', tag, hrun, ht, ?_⟩
  unfold outrun_custom_io_r
  simp only []
  rw [if_neg (show ¬ offset_r &&& (0x7f / 2) = 0x00 / 2 from
    fun a => absurd (a.symm.trans hr) (by decide)),
    if_neg (show ¬ (offset_r &&& (0x7f / 2) = 0x10 / 2 ∨ offset_r &&& (0x7f / 2) = 0x12 / 2
      ∨ offset_r &&& (0x7f / 2) = 0x14 / 2 ∨ offset_r &&& (0x7f / 2) = 0x16 / 2) from by
        rw [hr]
        decide),
    if_pos hr, hadc, ht]

/-- C22 witness: a write of 0x14 (channel 5) to word offset 2, then a read of
word offset 8, a write to word offset 0x18 and a read of word offset 0x30, then
the read of word offset 0x18 (sub-address 0x30) returns port `ADC5`. -/
theorem outrun_adc_select_witness :
    ∃ s' tag, run_ops ⟨fun _ => 0, fun t _ => if t = "ADC5" then 0x80 else 0, 0xffff, 0xff⟩
          [Op.outrun_custom_io_r 8 0, Op.outrun_custom_io_w 0x18 0xff 0,
            Op.outrun_custom_io_r 0x30 0]
          (outrun_custom_io_w 2 0x14 0 ⟨none, 0, none, none, none, 0, line_state.CLEAR_LINE, []⟩)
        = some s'
      ∧ ["ADC0", "ADC1", "ADC2", "ADC3", "ADC4", "ADC5", "ADC6", "ADC7"].get? ((0x14 >>> 2) &&& 7)
          = some tag
      ∧ outrun_custom_io_r
          ⟨fun _ => 0, fun t _ => if t = "ADC5" then 0x80 else 0, 0xffff, 0xff⟩ 0x18 0 s'
          = some ((if tag = "ADC5" then 0x80 else 0) % 2 ^ 16,
              s'.call (Call.readinputportbytag_safe tag 0x0010)) :=
  outrun_adc_select ⟨fun _ => 0, fun t _ => if t = "ADC5" then 0x80 else 0, 0xffff, 0xff⟩
    2 0x14 0 0x18 0 ⟨none, 0, none, none, none, 0, line_state.CLEAR_LINE, []⟩
    [Op.outrun_custom_io_r 8 0, Op.outrun_custom_io_w 0x18 0xff 0, Op.outrun_custom_io_r 0x30 0]
    (by decide)
    (by
      intro op hop
      simp only [List.mem_cons, List.mem_singleton, List.not_mem_nil, or_false] at hop
      rcases hop with rfl | rfl | rfl
      · exact Or.inl ⟨_, _, rfl⟩
      · exact Or.inr ⟨_, _, _, rfl, by decide⟩
      · exact Or.inl ⟨_, _, rfl⟩)
    (by decide)

/-- With the Out Run pair installed and the channel at most 7, any sequence of
`misc_io_r` / `misc_io_w` accesses returns and keeps the channel at most 7. -/
theorem run_ops_misc_outrun (m : Machine) (ops : List Op) (s : State)
    (hr : s.custom_io_r = some read16_handler.outrun_custom_io_r)
    (hw : s.custom_io_w = some write16_handler.outrun_custom_io_w)
    (ha : s.adc_select ≤ 7)
    (hops : ∀ op ∈ ops, (∃ o mm, op = Op.misc_io_r o mm) ∨ (∃ o dd mm, op = Op.misc_io_w o dd mm)) :
    ∃ s2, run_ops m ops s = some s2 ∧ s2.adc_select ≤ 7 := by
  induction ops generalizing s with
  | nil => exact ⟨s, rfl, ha⟩
  | cons op ops ih =>
    have htail : ∀ op' ∈ ops, (∃ o mm, op' = Op.misc_io_r o mm)
        ∨ (∃ o dd mm, op' = Op.misc_io_w o dd mm) :=
      fun op' h' => hops op' (List.mem_cons_of_mem op h')
    rcases hops op (List.mem_cons_self op ops) with ⟨o, mm, rfl⟩ | ⟨o, dd, mm, rfl⟩
    · have e : misc_io_r m o mm s = outrun_custom_io_r m o mm s := by
        unfold misc_io_r
        rw [hr]
        rfl
      obtain ⟨v, s1, h1⟩ := outrun_r_total m o mm s ha
      have hs := outrun_r_same m o mm s s1 v h1
      obtain ⟨s2, h2, a2⟩ := ih s1 (hs.1.1.trans hr) (hs.1.2.trans hw) (hs.2.1.trans_le ha) htail
      refine ⟨s2, ?_, a2⟩
      unfold run_ops
      simp only [Op.run, e, h1, Option.map_some']
      exact h2
    · have e : misc_io_w o dd mm s = outrun_custom_io_w o dd mm s := by
        unfold misc_io_w
        rw [hw]
        rfl
      have hs := outrun_w_handlers o dd mm s
      obtain ⟨s2, h2, a2⟩ := ih (outrun_custom_io_w o dd mm s) (hs.1.trans hr) (hs.2.trans hw)
        (outrun_w_adc o dd mm s ha) htail
      refine ⟨s2, ?_, a2⟩
      unfold run_ops
      simp only [Op.run, e]
      exact h2

/-- With the Super Hang-On pair installed and the channel at most 3, any
sequence of `misc_io_r` / `misc_io_w` accesses returns and keeps the channel at
most 3. -/
theorem run_ops_misc_shangon (m : Machine) (ops : List Op) (s : State)
    (hr : s.custom_io_r = some read16_handler.shangon_custom_io_r)
    (hw : s.custom_io_w = some write16_handler.shangon_custom_io_w)
    (ha : s.adc_select ≤ 3)
    (hops : ∀ op ∈ ops, (∃ o mm, op = Op.misc_io_r o mm) ∨ (∃ o dd mm, op = Op.misc_io_w o dd mm)) :
    ∃ s2, run_ops m ops s = some s2 ∧ s2.adc_select ≤ 3 := by
  induction ops generalizing s with
  | nil => exact ⟨s, rfl, ha⟩
  | cons op ops ih =>
    have htail : ∀ op' ∈ ops, (∃ o mm, op' = Op.misc_io_r o mm)
        ∨ (∃ o dd mm, op' = Op.misc_io_w o dd mm) :=
      fun op' h' => hops op' (List.mem_cons_of_mem op h')
    rcases hops op (List.mem_cons_self op ops) with ⟨o, mm, rfl⟩ | ⟨o, dd, mm, rfl⟩
    · have e : misc_io_r m o mm s = shangon_custom_io_r m o mm s := by
        unfold misc_io_r
        rw [hr]
        rfl
      obtain ⟨v, s1, h1⟩ := shangon_r_total m o mm s ha
      have hs := shangon_r_same m o mm s s1 v h1
      obtain ⟨s2, h2, a2⟩ := ih s1 (hs.1.1.trans hr) (hs.1.2.trans hw) (hs.2.1.trans_le ha) htail
      refine ⟨s2, ?_, a2⟩
      unfold run_ops
      simp only [Op.run, e, h1, Option.map_some']
      exact h2
    · have e : misc_io_w o dd mm s = shangon_custom_io_w o dd mm s := by
        unfold misc_io_w
        rw [hw]
        rfl
      have hs := shangon_w_handlers o dd mm s
      obtain ⟨s2, h2, a2⟩ := ih (shangon_custom_io_w o dd mm s) (hs.1.trans hr) (hs.2.trans hw)
        (shangon_w_adc o dd mm s ha) htail
      refine ⟨s2, ?_, a2⟩
      unfold run_ops
      simp only [Op.run, e]
      exact h2

/-- C29: the analog-port table index is always in bounds.  From statics with
`adc_select` 0, after a driver init that returns and any sequence of `misc_io_r`
/ `misc_io_w` accesses, every access returns and the state reached has
`adc_select <= 7` with an entry of the 8-entry table at that index when the Out
Run pair is installed (`outrun`, `outrunb`), and `adc_select <= 3` with an entry
of the 4-entry table when the Super Hang-On pair is installed (`shangon`,
`shangon3`). -/
theorem adc_select_in_bounds (m : Machine) (BITSWAP16 BITSWAP8 : Nat → List Nat → Nat)
    (rg : Regions) (al : InitAllocs) (s s1 : State) (ops : List Op)
    (hadc : s.adc_select = 0)
    (hops : ∀ op ∈ ops, (∃ o mm, op = Op.misc_io_r o mm) ∨ (∃ o dd mm, op = Op.misc_io_w o dd mm)) :
    ((driver_init_outrun al s = some s1
          ∨ ∃ rg1, driver_init_outrunb BITSWAP16 BITSWAP8 rg al s = some (rg1, s1)) →
        ∃ s2, run_ops m ops s1 = some s2
          ∧ s2.custom_io_r = some read16_handler.outrun_custom_io_r
          ∧ s2.custom_io_w = some write16_handler.outrun_custom_io_w
          ∧ s2.adc_select ≤ 7
          ∧ (["ADC0", "ADC1", "ADC2", "ADC3", "ADC4", "ADC5", "ADC6", "ADC7"].get?
              s2.adc_select).isSome = true)
      ∧ ((driver_init_shangon al s = some s1 ∨ driver_init_shangon3 al s = some s1) →
        ∃ s2, run_ops m ops s1 = some s2
          ∧ s2.custom_io_r = some read16_handler.shangon_custom_io_r
          ∧ s2.custom_io_w = some write16_handler.shangon_custom_io_w
          ∧ s2.adc_select ≤ 3
          ∧ (["ADC0", "ADC1", "ADC2", "ADC3"].get? s2.adc_select).isSome = true) := by
  constructor
  · intro h
    have hi : s1.custom_io_r = some read16_handler.outrun_custom_io_r
        ∧ s1.custom_io_w = some write16_handler.outrun_custom_io_w
        ∧ s1.adc_select = s.adc_select := by
      rcases h with h | ⟨rg1, h⟩
      · exact driver_init_outrun_some al s s1 h
      · exact driver_init_outrunb_some BITSWAP16 BITSWAP8 rg rg1 al s s1 h
    obtain ⟨s2, h2, a2⟩ := run_ops_misc_outrun m ops s1 hi.1 hi.2.1
      (by rw [hi.2.2, hadc]; exact Nat.zero_le 7) hops
    have hk := run_ops_handlers m ops s1 s2 h2
    refine ⟨s2, h2, hk.1.trans hi.1, hk.2.trans hi.2.1, a2, ?_⟩
    generalize s2.adc_select = a at a2
    interval_cases a <;> rfl
  · intro h
    have hi : s1.custom_io_r = some read16_handler.shangon_custom_io_r
        ∧ s1.custom_io_w = some write16_handler.shangon_custom_io_w
        ∧ s1.adc_select = s.adc_select := by
      rcases h with h | h
      · exact driver_init_shangon_some al s s1 h
      · exact driver_init_shangon3_some al s s1 h
    obtain ⟨s2, h2, a2⟩ := run_ops_misc_shangon m ops s1 hi.1 hi.2.1
      (by rw [hi.2.2, hadc]; exact Nat.zero_le 3) hops
    have hk := run_ops_handlers m ops s1 s2 h2
    refine ⟨s2, h2, hk.1.trans hi.1, hk.2.trans hi.2.1, a2, ?_⟩
    generalize s2.adc_select = a at a2
    interval_cases a <;> rfl

/-- C29 witness: `DRIVER_INIT( shangon )` with every allocation succeeding,
then a write of 0xff to word offset 0 and a read of word offset 0x1810 through
the misc-I/O window: the channel is 3. -/
theorem adc_select_in_bounds_witness :
    ∃ s2, run_ops ⟨fun _ => 0, fun _ _ => 0, 0xffff, 0xff⟩
          [Op.misc_io_w 0 0xff 0, Op.misc_io_r 0x1810 0]
          ⟨some (List.replicate 0x08000 0), 0, some read16_handler.shangon_custom_io_r,
            some write16_handler.shangon_custom_io_w, none, 0, line_state.ASSERT_LINE,
            [Call.segaic16_memory_mapper_init 0, Call.fd1094_driver_init]⟩ = some s2
      ∧ s2.custom_io_r = some read16_handler.shangon_custom_io_r
      ∧ s2.custom_io_w = some write16_handler.shangon_custom_io_w
      ∧ s2.adc_select ≤ 3
      ∧ (["ADC0", "ADC1", "ADC2", "ADC3"].get? s2.adc_select).isSome = true :=
  (adc_select_in_bounds ⟨fun _ => 0, fun _ _ => 0, 0xffff, 0xff⟩ (fun w _ => w) (fun b _ => b)
    ⟨[], [], [], []⟩ ⟨true, true, true, true, true⟩
    ⟨none, 0, none, none, none, 0, line_state.ASSERT_LINE, []⟩
    ⟨some (List.replicate 0x08000 0), 0, some read16_handler.shangon_custom_io_r,
      some write16_handler.shangon_custom_io_w, none, 0, line_state.ASSERT_LINE,
      [Call.segaic16_memory_mapper_init 0, Call.fd1094_driver_init]⟩
    [Op.misc_io_w 0 0xff 0, Op.misc_io_r 0x1810 0] rfl
    (by
      intro op hop
      simp only [List.mem_cons, List.mem_singleton, List.not_mem_nil, or_false] at hop
      rcases hop with rfl | rfl
      · exact Or.inr ⟨_, _, _, rfl⟩
      · exact Or.inl ⟨_, _, rfl⟩)).2 (Or.inl rfl)

/-! ## Theorems: the memory mapping table -/

/-- The first element a predicate accepts is the head of the filtered list. -/
theorem find_eq_head_filter {α : Type} (p : α → Bool) (l : List α) :
    l.find? p = (l.filter p).head? := by
  induction l with
  | nil => rfl
  | cons a l ih =>
    by_cases h : p a = true
    · rw [List.find?_cons_of_pos _ h, List.filter_cons_of_pos h]
      rfl
    · rw [List.find?_cons_of_neg _ h, List.filter_cons_of_neg h]
      exact ih

/-- Two entries that match the same selector and offset do not have disjoint
ranges. -/
theorem matches_not_disjoint (sel off : Nat) (e1 e2 : segaic16_memory_map_entry)
    (h1 : entry_matches sel off e1 = true) (h2 : entry_matches sel off e2 = true) :
    ¬ ranges_disjoint e1 e2 := by
  unfold entry_matches at h1 h2
  simp only [Bool.and_eq_true, decide_eq_true_eq] at h1 h2
  unfold ranges_disjoint
  intro h
  have := h (h1.1.1.trans h2.1.1.symm)
  omega

/-- The ranges of `outrun_info` with a common selector are pairwise disjoint. -/
theorem outrun_info_pairwise : outrun_info.Pairwise ranges_disjoint := by
  decide

/-- A list whose elements are pairwise disjoint has at most one match. -/
theorem filter_matches_length (sel off : Nat) (l : List segaic16_memory_map_entry)
    (h : l.Pairwise ranges_disjoint) : (l.filter (entry_matches sel off)).length ≤ 1 := by
  have hp := h.filter (entry_matches sel off)
  have hm : ∀ e ∈ l.filter (entry_matches sel off), entry_matches sel off e = true :=
    fun e he => (List.mem_filter.mp he).2
  generalize l.filter (entry_matches sel off) = f at hp hm
  match f, hp, hm with
  | [], _, _ => exact Nat.zero_le 1
  | [_], _, _ => exact Nat.le_refl 1
  | a :: b :: t, hp, hm =>
    exfalso
    have hab : ranges_disjoint a b := (List.pairwise_cons.mp hp).1 b (List.mem_cons_self b t)
    exact matches_not_disjoint sel off a b (hm a (List.mem_cons_self a _))
      (hm b (List.mem_cons_of_mem a (List.mem_cons_self b t))) hab

/-- Two lists of at most one element that are permutations of each other are
equal. -/
theorem perm_short_eq {α : Type} (l1 l2 : List α) (h : l1.Perm l2) (hlen : l2.length ≤ 1) :
    l1 = l2 := by
  match l2, hlen with
  | [], _ => exact h.eq_nil
  | [a], _ => exact List.perm_singleton.mp h
  | _ :: _ :: _, hlen => exact absurd hlen (by simp)

end Segaorun
